import Mathlib

/-!
# RX buffer frame decoder of the SX1302 HAL

A shallow embedding of `libloragw/src/loragw_sx1302_rx.c`: the receive buffer
(`rx_buffer_t`), the decoded record (`rx_packet_t`) and `rx_buffer_pop`, the
cursor based decoder of one frame.

Conventions of the embedding:

* a `uint8_t` is a `Nat`; a buffer whose cells are all below 256 satisfies
  `bytes_ok`;
* reading a cell of the C array is `buffer[i]?`: a read past the end of the
  array has no defined result in C and makes the embedded function return
  `none`;
* `uint16_t` and `uint8_t` locals are reduced modulo `2^16` and `2^8` where
  the C code stores into them;
* the calls to `printf` are dropped.
-/

namespace Sx1302Rx

/-! ## Constants -/

/-- Status of a successful call; declared in `loragw_reg.h`. -/
def LGW_REG_SUCCESS : Int := 0

/-- Status of a failed call; declared in `loragw_reg.h`. -/
def LGW_REG_ERROR : Int := -1

def SX1302_PKT_SYNCWORD_BYTE_0 : Nat := 0xA5
def SX1302_PKT_SYNCWORD_BYTE_1 : Nat := 0xC0
def SX1302_PKT_HEAD_METADATA : Nat := 9
def SX1302_PKT_TAIL_METADATA : Nat := 14

/-- Largest LoRa multi-SF modem id (build without `FPGA_BOARD_16_CH`). -/
def SX1302_LORA_MODEM_ID_MAX : Nat := 11
/-- Modem id of the LoRa standard (single SF) modem. -/
def SX1302_LORA_STD_MODEM_ID : Nat := 12
/-- Modem id of the FSK modem. -/
def SX1302_FSK_MODEM_ID : Nat := 13

/-! ## Data model -/

/-- Modelled from the spec: the type `rx_buffer_t` is declared in
`loragw_sx1302_rx.h`, which is not among the sources. The spec describes it as
a byte sequence of bounded maximum size, its logical length and a cursor; the
field names are those used by `loragw_sx1302_rx.c`. The capacity of the array
is the length of `buffer`. -/
structure rx_buffer_t where
  buffer : List Nat
  buffer_size : Nat
  buffer_index : Nat
deriving DecidableEq, Repr

/-- Modelled from the spec: the type `rx_packet_t` is declared in
`loragw_sx1302_rx.h`, which is not among the sources. The fields are the ones
`rx_buffer_pop` assigns. -/
structure rx_packet_t where
  rxbytenb_modem : Nat
  rx_channel_in : Nat
  crc_en : Nat
  coding_rate : Nat
  rx_rate_sf : Nat
  modem_id : Nat
  frequency_offset_error : Int
  payload : List Nat
  payload_crc_error : Nat
  sync_error : Nat
  header_error : Nat
  timing_set : Nat
  snr_average : Int
  rssi_chan_avg : Nat
  rssi_signal_avg : Nat
  timestamp_cnt : Nat
  rx_crc16_value : Nat
  num_ts_metrics_stored : Nat
deriving DecidableEq, Repr

/-- Every cell of the array holds a `uint8_t`. -/
def bytes_ok (buffer : List Nat) : Prop := ∀ b ∈ buffer, b < 256

instance (buffer : List Nat) : Decidable (bytes_ok buffer) := by
  unfold bytes_ok; infer_instance

/-! ## Bit field accessors -/

/-- Modelled from the spec: `TAKE_N_BITS_FROM` is defined in `loragw_aux.h`,
which is not among the sources. Given a byte, a start bit (least significant
bit first) and a width, it is the unsigned integer formed by those bits. -/
def TAKE_N_BITS_FROM (b p n : Nat) : Nat := (b / 2 ^ p) % 2 ^ n

/-- Field of width `n` starting at bit `p` of cell `i` of the buffer. -/
def pkt_field (buffer : List Nat) (i p n : Nat) : Option Nat :=
  (buffer[i]?).map fun b => TAKE_N_BITS_FROM b p n

def SX1302_PKT_PAYLOAD_LENGTH (buffer : List Nat) (start_index : Nat) : Option Nat :=
  pkt_field buffer (start_index + 2) 0 8
def SX1302_PKT_CHANNEL (buffer : List Nat) (start_index : Nat) : Option Nat :=
  pkt_field buffer (start_index + 3) 0 8
def SX1302_PKT_CRC_EN (buffer : List Nat) (start_index : Nat) : Option Nat :=
  pkt_field buffer (start_index + 4) 0 1
def SX1302_PKT_CODING_RATE (buffer : List Nat) (start_index : Nat) : Option Nat :=
  pkt_field buffer (start_index + 4) 1 3
def SX1302_PKT_DATARATE (buffer : List Nat) (start_index : Nat) : Option Nat :=
  pkt_field buffer (start_index + 4) 4 4
def SX1302_PKT_MODEM_ID (buffer : List Nat) (start_index : Nat) : Option Nat :=
  pkt_field buffer (start_index + 5) 0 8
def SX1302_PKT_FREQ_OFFSET_7_0 (buffer : List Nat) (start_index : Nat) : Option Nat :=
  pkt_field buffer (start_index + 6) 0 8
def SX1302_PKT_FREQ_OFFSET_15_8 (buffer : List Nat) (start_index : Nat) : Option Nat :=
  pkt_field buffer (start_index + 7) 0 8
def SX1302_PKT_FREQ_OFFSET_19_16 (buffer : List Nat) (start_index : Nat) : Option Nat :=
  pkt_field buffer (start_index + 8) 0 4
def SX1302_PKT_CRC_ERROR (buffer : List Nat) (start_index : Nat) : Option Nat :=
  pkt_field buffer (start_index + 9) 0 1
def SX1302_PKT_SYNC_ERROR (buffer : List Nat) (start_index : Nat) : Option Nat :=
  pkt_field buffer (start_index + 9) 2 1
def SX1302_PKT_HEADER_ERROR (buffer : List Nat) (start_index : Nat) : Option Nat :=
  pkt_field buffer (start_index + 9) 3 1
def SX1302_PKT_TIMING_SET (buffer : List Nat) (start_index : Nat) : Option Nat :=
  pkt_field buffer (start_index + 9) 4 1
def SX1302_PKT_SNR_AVG (buffer : List Nat) (start_index : Nat) : Option Nat :=
  pkt_field buffer (start_index + 10) 0 8
def SX1302_PKT_RSSI_CHAN (buffer : List Nat) (start_index : Nat) : Option Nat :=
  pkt_field buffer (start_index + 11) 0 8
def SX1302_PKT_RSSI_SIG (buffer : List Nat) (start_index : Nat) : Option Nat :=
  pkt_field buffer (start_index + 12) 0 8
def SX1302_PKT_TIMESTAMP_7_0 (buffer : List Nat) (start_index : Nat) : Option Nat :=
  pkt_field buffer (start_index + 15) 0 8
def SX1302_PKT_TIMESTAMP_15_8 (buffer : List Nat) (start_index : Nat) : Option Nat :=
  pkt_field buffer (start_index + 16) 0 8
def SX1302_PKT_TIMESTAMP_23_16 (buffer : List Nat) (start_index : Nat) : Option Nat :=
  pkt_field buffer (start_index + 17) 0 8
def SX1302_PKT_TIMESTAMP_31_24 (buffer : List Nat) (start_index : Nat) : Option Nat :=
  pkt_field buffer (start_index + 18) 0 8
def SX1302_PKT_CRC_PAYLOAD_7_0 (buffer : List Nat) (start_index : Nat) : Option Nat :=
  pkt_field buffer (start_index + 19) 0 8
def SX1302_PKT_CRC_PAYLOAD_15_8 (buffer : List Nat) (start_index : Nat) : Option Nat :=
  pkt_field buffer (start_index + 20) 0 8
def SX1302_PKT_NUM_TS_METRICS (buffer : List Nat) (start_index : Nat) : Option Nat :=
  pkt_field buffer (start_index + 21) 0 8

/-! ## Casts and library calls -/

/-- The cast `(int8_t)v`. -/
def to_int8 (v : Nat) : Int :=
  if v % 256 ≥ 128 then ((v % 256 : Nat) : Int) - 256 else ((v % 256 : Nat) : Int)

/-- The call `memcpy(dst, src, n)` on arrays seen as lists: the first `n`
cells of `dst` are overwritten with the first `n` cells of `src`. -/
def memcpy (dst src : List Nat) (n : Nat) : List Nat :=
  src.take n ++ dst.drop n

/-! ## rx_buffer_new, rx_buffer_del, rx_buffer_fetch -/

/-- The function `rx_buffer_new` (lines 109-119) on a non-null argument: the
status and the buffer after the call. `memset` zeroes the whole array. -/
def rx_buffer_new (self : rx_buffer_t) : Int × rx_buffer_t :=
  (LGW_REG_SUCCESS,
    { buffer := List.replicate self.buffer.length 0, buffer_size := 0, buffer_index := 0 })

/-- The function `rx_buffer_del` (lines 123-132) on a non-null argument. -/
def rx_buffer_del (self : rx_buffer_t) : Int × rx_buffer_t :=
  (LGW_REG_SUCCESS, { self with buffer_size := 0, buffer_index := 0 })

/-- Modelled from the spec: the transport functions `lgw_reg_rb` and
`lgw_mem_rb` are not among the sources. The spec describes the snapshot fetch as
returning the number of bytes queued by the hardware and that many bytes of
content, or a transport error. A value of this type is the outcome of the two
calls made by one `rx_buffer_fetch`: the two count bytes left in `buff`
(most significant first), the status of the memory read and the bytes it
delivered. -/
structure transport_t where
  nb_bytes_msb : Nat
  nb_bytes_lsb : Nat
  mem_res : Int
  mem_data : List Nat
deriving DecidableEq, Repr

/-- The array after `lgw_mem_rb` has written `size` bytes at its start: cell
`i < size` holds the byte delivered for it, when one was delivered; the other
cells keep their content. -/
def mem_rb_into (buffer data : List Nat) (size : Nat) : List Nat :=
  (List.range buffer.length).map fun i =>
    if i < size then data.getD i (buffer.getD i 0) else buffer.getD i 0

/-- Lines 145-146: the number of bytes in the FIFO, a `uint16_t`, from the two
bytes read. -/
def fetch_size (msb lsb : Nat) : Nat :=
  (((msb <<< 8) &&& 0xFF00) % 65536) ||| (((lsb <<< 0) &&& 0x00FF) % 65536)

/-- The function `rx_buffer_fetch` (lines 136-173) on a non-null argument, for
the transport outcome `t`: the status and the buffer after the call; `none`
when the memory read is asked to write more bytes than the array holds. -/
def rx_buffer_fetch (self : rx_buffer_t) (t : transport_t) : Option (Int × rx_buffer_t) :=
  let buffer_size := fetch_size t.nb_bytes_msb t.nb_bytes_lsb
  if buffer_size > 0 then
    if buffer_size > self.buffer.length then none
    else
      let buffer := mem_rb_into (List.replicate self.buffer.length 0) t.mem_data buffer_size
      if t.mem_res ≠ LGW_REG_SUCCESS then
        some (LGW_REG_ERROR,
          { buffer := buffer, buffer_size := buffer_size, buffer_index := self.buffer_index })
      else
        some (LGW_REG_SUCCESS,
          { buffer := buffer, buffer_size := buffer_size, buffer_index := 0 })
  else
    some (LGW_REG_SUCCESS,
      { buffer := self.buffer, buffer_size := buffer_size, buffer_index := 0 })

/-! ## rx_buffer_pop -/

/-- The test of lines 193-194: `none` when a read leaves the array,
`some true` when the sync word is not at `idx`. The second cell is read only
when the first one matches (`||` evaluates left to right). -/
def syncword_missing (buffer : List Nat) (idx : Nat) : Option Bool :=
  match buffer[idx]? with
  | none => none
  | some b0 =>
    if b0 ≠ SX1302_PKT_SYNCWORD_BYTE_0 then some true
    else
      match buffer[idx + 1]? with
      | none => none
      | some b1 => some (decide (b1 ≠ SX1302_PKT_SYNCWORD_BYTE_1))

/-- The loop of lines 222-224 after `k` iterations:
`checksum_calc += buffer[buffer_index + i]` for `i = 0 .. k-1`, in `uint8_t`. -/
def checksum_loop (buffer : List Nat) (idx : Nat) : Nat → Option Nat
  | 0 => some 0
  | k + 1 =>
    match checksum_loop buffer idx k with
    | none => none
    | some acc =>
      match buffer[idx + k]? with
      | none => none
      | some b => some ((acc + b) % 256)

/-- Lines 202-206: payload length and number of fine timestamp metrics. -/
def parse_lengths (buffer : List Nat) (idx : Nat) (pkt : rx_packet_t) : Option rx_packet_t :=
  match SX1302_PKT_PAYLOAD_LENGTH buffer idx with
  | none => none
  | some n =>
    match SX1302_PKT_NUM_TS_METRICS buffer (idx + n) with
    | none => none
    | some m => some { pkt with rxbytenb_modem := n, num_ts_metrics_stored := m }

/-- Lines 246-247: the 16-bit payload CRC from its two bytes. -/
def rx_crc16_of (crc_7_0 crc_15_8 : Nat) : Nat :=
  (((crc_7_0 <<< 0) &&& 0x00FF) % 65536) ||| (((crc_15_8 <<< 8) &&& 0xFF00) % 65536)

/-- Lines 250-253: the frequency offset from its three fields, a signed value
on 20 bits. -/
def freq_offset_of (fo_19_16 fo_15_8 fo_7_0 : Nat) : Int :=
  let fo_raw : Int := (((fo_19_16 <<< 16) ||| (fo_15_8 <<< 8) ||| (fo_7_0 <<< 0) : Nat) : Int)
  if fo_raw ≥ ((1 <<< 19 : Nat) : Int) then fo_raw - ((1 <<< 20 : Nat) : Int) else fo_raw

/-- Lines 256-259: the 32-bit timestamp from its four bytes. -/
def timestamp_of (ts_7_0 ts_15_8 ts_23_16 ts_31_24 : Nat) : Nat :=
  (((ts_7_0 <<< 0) &&& 0x000000FF) % 4294967296)
    ||| (((ts_15_8 <<< 8) &&& 0x0000FF00) % 4294967296)
    ||| (((ts_23_16 <<< 16) &&& 0x00FF0000) % 4294967296)
    ||| (((ts_31_24 <<< 24) &&& 0xFF000000) % 4294967296)

/-- Lines 235-237: modem id, channel and CRC enable. -/
def parse_ids (buffer : List Nat) (idx : Nat) (pkt : rx_packet_t) : Option rx_packet_t := do
  let modem_id ← SX1302_PKT_MODEM_ID buffer idx
  let rx_channel_in ← SX1302_PKT_CHANNEL buffer idx
  let crc_en ← SX1302_PKT_CRC_EN buffer idx
  pure { pkt with modem_id := modem_id, rx_channel_in := rx_channel_in, crc_en := crc_en }

/-- Lines 238-241: the three error flags and the timing flag. -/
def parse_flags (buffer : List Nat) (idx : Nat) (pkt : rx_packet_t) : Option rx_packet_t := do
  let payload_crc_error ← SX1302_PKT_CRC_ERROR buffer (idx + pkt.rxbytenb_modem)
  let sync_error ← SX1302_PKT_SYNC_ERROR buffer (idx + pkt.rxbytenb_modem)
  let header_error ← SX1302_PKT_HEADER_ERROR buffer (idx + pkt.rxbytenb_modem)
  let timing_set ← SX1302_PKT_TIMING_SET buffer (idx + pkt.rxbytenb_modem)
  pure { pkt with payload_crc_error := payload_crc_error, sync_error := sync_error,
                  header_error := header_error, timing_set := timing_set }

/-- Lines 242-243: coding rate and data rate. -/
def parse_rates (buffer : List Nat) (idx : Nat) (pkt : rx_packet_t) : Option rx_packet_t := do
  let coding_rate ← SX1302_PKT_CODING_RATE buffer idx
  let rx_rate_sf ← SX1302_PKT_DATARATE buffer idx
  pure { pkt with coding_rate := coding_rate, rx_rate_sf := rx_rate_sf }

/-- Lines 244-248: RSSI averages, payload CRC and SNR average. -/
def parse_levels (buffer : List Nat) (idx : Nat) (pkt : rx_packet_t) : Option rx_packet_t := do
  let rssi_chan_avg ← SX1302_PKT_RSSI_CHAN buffer (idx + pkt.rxbytenb_modem)
  let rssi_signal_avg ← SX1302_PKT_RSSI_SIG buffer (idx + pkt.rxbytenb_modem)
  let crc_7_0 ← SX1302_PKT_CRC_PAYLOAD_7_0 buffer (idx + pkt.rxbytenb_modem)
  let crc_15_8 ← SX1302_PKT_CRC_PAYLOAD_15_8 buffer (idx + pkt.rxbytenb_modem)
  let snr ← SX1302_PKT_SNR_AVG buffer (idx + pkt.rxbytenb_modem)
  pure { pkt with rssi_chan_avg := rssi_chan_avg, rssi_signal_avg := rssi_signal_avg,
                  rx_crc16_value := rx_crc16_of crc_7_0 crc_15_8, snr_average := to_int8 snr }

/-- Lines 250-253: the frequency offset error. -/
def parse_freq_offset (buffer : List Nat) (idx : Nat) (pkt : rx_packet_t) :
    Option rx_packet_t := do
  let fo_19_16 ← SX1302_PKT_FREQ_OFFSET_19_16 buffer idx
  let fo_15_8 ← SX1302_PKT_FREQ_OFFSET_15_8 buffer idx
  let fo_7_0 ← SX1302_PKT_FREQ_OFFSET_7_0 buffer idx
  pure { pkt with frequency_offset_error := freq_offset_of fo_19_16 fo_15_8 fo_7_0 }

/-- Lines 255-259: the packet timestamp. -/
def parse_timestamp (buffer : List Nat) (idx : Nat) (pkt : rx_packet_t) :
    Option rx_packet_t := do
  let ts_7_0 ← SX1302_PKT_TIMESTAMP_7_0 buffer (idx + pkt.rxbytenb_modem)
  let ts_15_8 ← SX1302_PKT_TIMESTAMP_15_8 buffer (idx + pkt.rxbytenb_modem)
  let ts_23_16 ← SX1302_PKT_TIMESTAMP_23_16 buffer (idx + pkt.rxbytenb_modem)
  let ts_31_24 ← SX1302_PKT_TIMESTAMP_31_24 buffer (idx + pkt.rxbytenb_modem)
  pure { pkt with timestamp_cnt := timestamp_of ts_7_0 ts_15_8 ts_23_16 ts_31_24 }

/-- Lines 234-259: the metadata fields of the record, in the order of the
source. -/
def parse_metadata (buffer : List Nat) (idx : Nat) (pkt : rx_packet_t) : Option rx_packet_t :=
  (parse_ids buffer idx pkt).bind fun p1 =>
  (parse_flags buffer idx p1).bind fun p2 =>
  (parse_rates buffer idx p2).bind fun p3 =>
  (parse_levels buffer idx p3).bind fun p4 =>
  (parse_freq_offset buffer idx p4).bind fun p5 =>
  parse_timestamp buffer idx p5

/-- Lines 282-299: `true` when none of the range checks fires. -/
def sanity_ok (pkt : rx_packet_t) : Bool :=
  if pkt.modem_id > SX1302_FSK_MODEM_ID then false
  else if pkt.modem_id ≤ SX1302_LORA_STD_MODEM_ID then
    if pkt.rx_channel_in > 9 then false
    else if pkt.rx_rate_sf < 5 ∨ pkt.rx_rate_sf > 12 then false
    else true
  else true

/-- Lines 208-307: what `rx_buffer_pop` does once the lengths are read. -/
def pop_frame (self : rx_buffer_t) (pkt : rx_packet_t) :
    Option (Int × rx_buffer_t × rx_packet_t) :=
  let pkt_num_bytes := (SX1302_PKT_HEAD_METADATA + pkt.rxbytenb_modem
    + SX1302_PKT_TAIL_METADATA + 2 * pkt.num_ts_metrics_stored) % 65536
  if self.buffer_index + pkt_num_bytes > self.buffer_size then
    some (LGW_REG_ERROR, self, pkt)
  else
    let checksum_idx := (pkt_num_bytes + 65535) % 65536
    match self.buffer[self.buffer_index + pkt_num_bytes - 1]? with
    | none => none
    | some checksum_rcv =>
      match checksum_loop self.buffer self.buffer_index checksum_idx with
      | none => none
      | some checksum_calc =>
        if checksum_rcv ≠ checksum_calc then
          some (LGW_REG_ERROR, self, pkt)
        else
          match parse_metadata self.buffer self.buffer_index pkt with
          | none => none
          | some pkt =>
            if sanity_ok pkt = false then
              some (LGW_REG_ERROR, self, pkt)
            else
              let payload := memcpy pkt.payload
                (self.buffer.drop (self.buffer_index + SX1302_PKT_HEAD_METADATA))
                pkt.rxbytenb_modem
              let buffer_index := self.buffer_index
                + (SX1302_PKT_HEAD_METADATA + pkt.rxbytenb_modem
                    + SX1302_PKT_TAIL_METADATA + 2 * pkt.num_ts_metrics_stored)
              some (LGW_REG_SUCCESS, { self with buffer_index := buffer_index },
                { pkt with payload := payload })

/-- The function `rx_buffer_pop` (lines 177-308) on non-null arguments: the
status, the buffer and the record after the call; `none` when the call reads
outside the array. -/
def rx_buffer_pop (self : rx_buffer_t) (pkt : rx_packet_t) :
    Option (Int × rx_buffer_t × rx_packet_t) :=
  if self.buffer_index ≥ self.buffer_size then
    some (LGW_REG_ERROR, self, pkt)
  else
    match syncword_missing self.buffer self.buffer_index with
    | none => none
    | some true =>
      some (LGW_REG_ERROR, { self with buffer_index := self.buffer_index + 1 }, pkt)
    | some false =>
      match parse_lengths self.buffer self.buffer_index pkt with
      | none => none
      | some pkt => pop_frame self pkt

/-- Modelled from the spec: the loop of the caller is not among the sources.
The spec has callers invoke the decoder repeatedly against a loaded snapshot
until `hasMore()` is false, `hasMore()` being true iff cursor < logical length.
`pop_all fuel s pkt` makes at most `fuel` calls, each on the record left by the
previous one, and returns the status and record of every call, in order,
together with the final buffer. -/
def pop_all : Nat → rx_buffer_t → rx_packet_t → Option (List (Int × rx_packet_t) × rx_buffer_t)
  | 0, s, _ => some ([], s)
  | fuel + 1, s, pkt =>
    if s.buffer_index < s.buffer_size then
      match rx_buffer_pop s pkt with
      | none => none
      | some (r, s1, pkt1) =>
        match pop_all fuel s1 pkt1 with
        | none => none
        | some (rs, s2) => some ((r, pkt1) :: rs, s2)
    else some ([], s)

/-! ## Total descriptions used in the statements -/

/-- Length in bytes of a frame with payload length `N` and `M` fine timestamp
metrics, as computed at line 209; the checksum is its last byte. -/
def frame_len (N M : Nat) : Nat :=
  SX1302_PKT_HEAD_METADATA + N + SX1302_PKT_TAIL_METADATA + 2 * M

/-- Sum modulo 256 of the `k` cells of the buffer that start at `idx`. -/
def byte_sum (buffer : List Nat) (idx k : Nat) : Nat :=
  ((buffer.drop idx).take k).sum % 256

/-- Bits `p .. p+n-1` of cell `i`, for a cell known to lie in the array. -/
def cell_bits (buffer : List Nat) (i p n : Nat) : Nat :=
  TAKE_N_BITS_FROM (buffer.getD i 0) p n

/-- The record that lines 234-259 leave when every cell they read lies in the
array: each field is the value the corresponding assignment computes. -/
def metadata_of (buffer : List Nat) (idx : Nat) (pkt : rx_packet_t) : rx_packet_t :=
  { rxbytenb_modem := pkt.rxbytenb_modem
    rx_channel_in := cell_bits buffer (idx + 3) 0 8
    crc_en := cell_bits buffer (idx + 4) 0 1
    coding_rate := cell_bits buffer (idx + 4) 1 3
    rx_rate_sf := cell_bits buffer (idx + 4) 4 4
    modem_id := cell_bits buffer (idx + 5) 0 8
    frequency_offset_error :=
      freq_offset_of (cell_bits buffer (idx + 8) 0 4) (cell_bits buffer (idx + 7) 0 8)
        (cell_bits buffer (idx + 6) 0 8)
    payload := pkt.payload
    payload_crc_error := cell_bits buffer (idx + pkt.rxbytenb_modem + 9) 0 1
    sync_error := cell_bits buffer (idx + pkt.rxbytenb_modem + 9) 2 1
    header_error := cell_bits buffer (idx + pkt.rxbytenb_modem + 9) 3 1
    timing_set := cell_bits buffer (idx + pkt.rxbytenb_modem + 9) 4 1
    snr_average := to_int8 (cell_bits buffer (idx + pkt.rxbytenb_modem + 10) 0 8)
    rssi_chan_avg := cell_bits buffer (idx + pkt.rxbytenb_modem + 11) 0 8
    rssi_signal_avg := cell_bits buffer (idx + pkt.rxbytenb_modem + 12) 0 8
    timestamp_cnt :=
      timestamp_of (cell_bits buffer (idx + pkt.rxbytenb_modem + 15) 0 8)
        (cell_bits buffer (idx + pkt.rxbytenb_modem + 16) 0 8)
        (cell_bits buffer (idx + pkt.rxbytenb_modem + 17) 0 8)
        (cell_bits buffer (idx + pkt.rxbytenb_modem + 18) 0 8)
    rx_crc16_value :=
      rx_crc16_of (cell_bits buffer (idx + pkt.rxbytenb_modem + 19) 0 8)
        (cell_bits buffer (idx + pkt.rxbytenb_modem + 20) 0 8)
    num_ts_metrics_stored := pkt.num_ts_metrics_stored }

/-- The 20-bit unsigned value of the frequency offset field, from the cells at
offsets 6, 7 and 8 of the frame. -/
def freq_raw (b6 b7 b8 : Nat) : Nat :=
  ((b8 &&& 0x0F) <<< 16) ||| (b7 <<< 8) ||| b6

/-! ## Frames

A frame is the list of its bytes. The layout is the one the `SX1302_PKT_*`
accessors and line 209 prescribe: the two sync bytes, the payload length at
offset 2, the rest of the head metadata up to offset 8, the payload from offset
9, the tail metadata after it with the metric count at offset `21 + N`, two
bytes per metric, and the checksum as last byte. -/

/-- Payload length field of a frame. -/
def frame_N (f : List Nat) : Nat := f.getD 2 0

/-- Metric count field of a frame. -/
def frame_M (f : List Nat) : Nat := f.getD (frame_N f + 21) 0

/-- Payload bytes of a frame. -/
def frame_payload (f : List Nat) : List Nat := (f.drop 9).take (frame_N f)

/-- Sync word, length fields and overall length of a frame agree. -/
def frame_shape (f : List Nat) : Prop :=
  bytes_ok f
    ∧ f.length = frame_len (frame_N f) (frame_M f)
    ∧ f.getD 0 0 = SX1302_PKT_SYNCWORD_BYTE_0
    ∧ f.getD 1 0 = SX1302_PKT_SYNCWORD_BYTE_1

/-- The last byte of the frame is the sum modulo 256 of all bytes before it. -/
def frame_checksum_ok (f : List Nat) : Prop :=
  f.getD (f.length - 1) 0 = (f.take (f.length - 1)).sum % 256

/-- Modem id, channel and spreading factor of the frame are in the accepted
ranges. -/
def frame_sane (f : List Nat) : Prop :=
  f.getD 5 0 ≤ SX1302_FSK_MODEM_ID
    ∧ (f.getD 5 0 ≤ SX1302_LORA_STD_MODEM_ID →
        f.getD 3 0 ≤ 9 ∧ 5 ≤ f.getD 4 0 / 16 ∧ f.getD 4 0 / 16 ≤ 12)

/-- A well-formed frame. -/
def well_formed_frame (f : List Nat) : Prop :=
  frame_shape f ∧ frame_checksum_ok f ∧ frame_sane f

instance (f : List Nat) : Decidable (frame_shape f) := by
  unfold frame_shape; infer_instance

instance (f : List Nat) : Decidable (frame_checksum_ok f) := by
  unfold frame_checksum_ok; infer_instance

instance (f : List Nat) : Decidable (frame_sane f) := by
  unfold frame_sane; infer_instance

instance (f : List Nat) : Decidable (well_formed_frame f) := by
  unfold well_formed_frame; infer_instance

/-- The cells `idx .. idx + f.length - 1` of the buffer hold the bytes of `f`. -/
def frame_at (buffer : List Nat) (idx : Nat) (f : List Nat) : Prop :=
  (buffer.drop idx).take f.length = f

instance (buffer : List Nat) (idx : Nat) (f : List Nat) : Decidable (frame_at buffer idx f) := by
  unfold frame_at; infer_instance

/-! ## The cells read by rx_buffer_pop -/

/-- The indices of the cells read by lines 235-259, in the order of the
source, for a frame at `idx` with payload length `n`. -/
def metadata_reads (idx n : Nat) : List Nat :=
  [idx + 5, idx + 3, idx + 4, idx + n + 9, idx + n + 9, idx + n + 9, idx + n + 9, idx + 4,
    idx + 4, idx + n + 11, idx + n + 12, idx + n + 19, idx + n + 20, idx + n + 10, idx + 8,
    idx + 7, idx + 6, idx + n + 15, idx + n + 16, idx + n + 17, idx + n + 18]

/-- The indices of the cells read by lines 208-302, once the two length
fields `n` and `m` are known: none when the length test of line 212 fires;
otherwise the checksum byte and the checksummed cells, then, when the checksum
matches, the metadata cells, then, when the range checks pass, the payload
cells. -/
def frame_reads (self : rx_buffer_t) (pkt : rx_packet_t) (n m : Nat) : List Nat :=
  let pkt_num_bytes := (SX1302_PKT_HEAD_METADATA + n + SX1302_PKT_TAIL_METADATA + 2 * m) % 65536
  if self.buffer_index + pkt_num_bytes > self.buffer_size then []
  else
    let checksum_idx := (pkt_num_bytes + 65535) % 65536
    [self.buffer_index + pkt_num_bytes - 1]
      ++ (List.range checksum_idx).map (fun i => self.buffer_index + i)
      ++ (if self.buffer.getD (self.buffer_index + pkt_num_bytes - 1) 0
            ≠ byte_sum self.buffer self.buffer_index checksum_idx then []
          else
            metadata_reads self.buffer_index n
              ++ (if sanity_ok (metadata_of self.buffer self.buffer_index
                      { pkt with rxbytenb_modem := n, num_ts_metrics_stored := m }) = false
                  then []
                  else (List.range n).map
                    (fun i => self.buffer_index + SX1302_PKT_HEAD_METADATA + i)))

/-- The indices of the cells of `self->buffer` that one call of
`rx_buffer_pop` reads, in program order. Up to the length test of line 212 the
list stops at the first index that lies outside the array; after that test the
indices are those of the path the call takes when its reads lie in the
array. -/
def rx_buffer_pop_reads (self : rx_buffer_t) (pkt : rx_packet_t) : List Nat :=
  let c := self.buffer_index
  if c ≥ self.buffer_size then []
  else
    match self.buffer[c]? with
    | none => [c]
    | some b0 =>
      if b0 ≠ SX1302_PKT_SYNCWORD_BYTE_0 then [c]
      else
        match self.buffer[c + 1]? with
        | none => [c, c + 1]
        | some b1 =>
          if b1 ≠ SX1302_PKT_SYNCWORD_BYTE_1 then [c, c + 1]
          else
            match self.buffer[c + 2]? with
            | none => [c, c + 1, c + 2]
            | some b2 =>
              match self.buffer[c + TAKE_N_BITS_FROM b2 0 8 + 21]? with
              | none => [c, c + 1, c + 2, c + TAKE_N_BITS_FROM b2 0 8 + 21]
              | some bm =>
                [c, c + 1, c + 2, c + TAKE_N_BITS_FROM b2 0 8 + 21]
                  ++ frame_reads self pkt (TAKE_N_BITS_FROM b2 0 8) (TAKE_N_BITS_FROM bm 0 8)

/-! ## Sample data -/

/-- A record with every field zero and a payload array of 255 cells. -/
def pkt0 : rx_packet_t :=
  { rxbytenb_modem := 0, rx_channel_in := 0, crc_en := 0, coding_rate := 0, rx_rate_sf := 0,
    modem_id := 0, frequency_offset_error := 0, payload := List.replicate 255 0,
    payload_crc_error := 0, sync_error := 0, header_error := 0, timing_set := 0,
    snr_average := 0, rssi_chan_avg := 0, rssi_signal_avg := 0, timestamp_cnt := 0,
    rx_crc16_value := 0, num_ts_metrics_stored := 0 }

/-- A LoRa frame: modem 4, channel 2, SF7, payload `11 22 33`, one metric. -/
def ex_frame_lora : List Nat :=
  [165, 192, 3, 2, 113, 4, 16, 0, 0, 17, 34, 51, 16, 246, 90, 91, 0, 0, 120, 86, 52, 18, 205,
    171, 1, 7, 8, 172]

/-- An FSK frame: modem 13, channel byte 200, empty payload, no metric. -/
def ex_frame_fsk : List Nat :=
  [165, 192, 0, 200, 0, 13, 0, 0, 8, 1, 128, 64, 65, 0, 0, 1, 2, 3, 132, 0, 0, 0, 206]

/-- The frame `ex_frame_lora` with its second payload byte changed from 34 to 35. -/
def ex_frame_corrupt : List Nat :=
  [165, 192, 3, 2, 113, 4, 16, 0, 0, 17, 35, 51, 16, 246, 90, 91, 0, 0, 120, 86, 52, 18, 205,
    171, 1, 7, 8, 172]

/-- A LoRa frame with a payload of one byte and no metric. -/
def ex_frame_short : List Nat :=
  [165, 192, 1, 1, 144, 3, 184, 0, 0, 60, 0, 5, 6, 7, 0, 0, 1, 0, 0, 0, 0, 0, 0, 1]

/-- A frame with a correct checksum and modem id 14. -/
def ex_frame_badmodem : List Nat :=
  [165, 192, 2, 0, 112, 14, 0, 0, 0, 1, 2, 0, 0, 0, 0, 0, 0, 0, 0, 0, 0, 0, 0, 0, 232]

/-! ## Basic facts -/

theorem status_ne : LGW_REG_SUCCESS ≠ LGW_REG_ERROR := by decide

theorem take_bits_byte (b : Nat) (h : b < 256) : TAKE_N_BITS_FROM b 0 8 = b := by
  simp only [TAKE_N_BITS_FROM, Nat.pow_zero, Nat.div_one]
  exact Nat.mod_eq_of_lt h

theorem take_bits_lt (b p n : Nat) : TAKE_N_BITS_FROM b p n < 2 ^ n := by
  unfold TAKE_N_BITS_FROM
  exact Nat.mod_lt _ (Nat.pos_pow_of_pos n (by decide))

theorem read_some {l : List Nat} {i : Nat} (h : i < l.length) : l[i]? = some (l.getD i 0) := by
  simp [List.getD, List.getElem?_eq_getElem h]

theorem read_bound {l : List Nat} {i b : Nat} (h : l[i]? = some b) : i < l.length := by
  rcases Nat.lt_or_ge i l.length with hlt | hge
  · exact hlt
  · rw [List.getElem?_eq_none hge] at h
    cases h

theorem read_getD {l : List Nat} {i b : Nat} (h : l[i]? = some b) : l.getD i 0 = b := by
  simp [List.getD, h]

theorem read_byte {l : List Nat} {i b : Nat} (hl : bytes_ok l) (h : l[i]? = some b) :
    b < 256 := by
  have hi := read_bound h
  rw [List.getElem?_eq_getElem hi] at h
  injection h with h
  subst h
  exact hl _ (List.getElem_mem hi)

theorem checksum_loop_eq_sum (buffer : List Nat) (idx : Nat) :
    ∀ k, idx + k ≤ buffer.length → checksum_loop buffer idx k = some (byte_sum buffer idx k) := by
  intro k
  induction k with
  | zero => intro _; simp [checksum_loop, byte_sum]
  | succ k ih =>
    intro h
    have hk : idx + k < buffer.length := by omega
    have hd : (buffer.drop idx)[k]? = some (buffer.getD (idx + k) 0) := by
      rw [List.getElem?_drop]; exact read_some hk
    simp only [checksum_loop, ih (by omega), read_some hk, byte_sum, List.take_succ, hd,
      Option.toList_some, List.sum_append, List.sum_cons, List.sum_nil, Nat.add_zero]
    congr 1
    omega

theorem pkt_field_of_bound {buffer : List Nat} {i : Nat} (p n : Nat) (h : i < buffer.length) :
    pkt_field buffer i p n = some (cell_bits buffer i p n) := by
  rw [pkt_field, cell_bits, read_some h]
  rfl

theorem parse_metadata_of_bound (buffer : List Nat) (idx : Nat) (pkt : rx_packet_t)
    (h : idx + pkt.rxbytenb_modem + 20 < buffer.length) :
    parse_metadata buffer idx pkt = some (metadata_of buffer idx pkt) := by
  have e3 := pkt_field_of_bound 0 8 (show idx + 3 < buffer.length by omega)
  have e4a := pkt_field_of_bound 0 1 (show idx + 4 < buffer.length by omega)
  have e4b := pkt_field_of_bound 1 3 (show idx + 4 < buffer.length by omega)
  have e4c := pkt_field_of_bound 4 4 (show idx + 4 < buffer.length by omega)
  have e5 := pkt_field_of_bound 0 8 (show idx + 5 < buffer.length by omega)
  have e6 := pkt_field_of_bound 0 8 (show idx + 6 < buffer.length by omega)
  have e7 := pkt_field_of_bound 0 8 (show idx + 7 < buffer.length by omega)
  have e8 := pkt_field_of_bound 0 4 (show idx + 8 < buffer.length by omega)
  have e9a := pkt_field_of_bound 0 1 (show idx + pkt.rxbytenb_modem + 9 < buffer.length by omega)
  have e9b := pkt_field_of_bound 2 1 (show idx + pkt.rxbytenb_modem + 9 < buffer.length by omega)
  have e9c := pkt_field_of_bound 3 1 (show idx + pkt.rxbytenb_modem + 9 < buffer.length by omega)
  have e9d := pkt_field_of_bound 4 1 (show idx + pkt.rxbytenb_modem + 9 < buffer.length by omega)
  have e10 := pkt_field_of_bound 0 8 (show idx + pkt.rxbytenb_modem + 10 < buffer.length by omega)
  have e11 := pkt_field_of_bound 0 8 (show idx + pkt.rxbytenb_modem + 11 < buffer.length by omega)
  have e12 := pkt_field_of_bound 0 8 (show idx + pkt.rxbytenb_modem + 12 < buffer.length by omega)
  have e15 := pkt_field_of_bound 0 8 (show idx + pkt.rxbytenb_modem + 15 < buffer.length by omega)
  have e16 := pkt_field_of_bound 0 8 (show idx + pkt.rxbytenb_modem + 16 < buffer.length by omega)
  have e17 := pkt_field_of_bound 0 8 (show idx + pkt.rxbytenb_modem + 17 < buffer.length by omega)
  have e18 := pkt_field_of_bound 0 8 (show idx + pkt.rxbytenb_modem + 18 < buffer.length by omega)
  have e19 := pkt_field_of_bound 0 8 (show idx + pkt.rxbytenb_modem + 19 < buffer.length by omega)
  have e20 := pkt_field_of_bound 0 8 (show idx + pkt.rxbytenb_modem + 20 < buffer.length by omega)
  simp only [parse_metadata, parse_ids, parse_flags, parse_rates, parse_levels,
    parse_freq_offset, parse_timestamp, SX1302_PKT_MODEM_ID, SX1302_PKT_CHANNEL,
    SX1302_PKT_CRC_EN, SX1302_PKT_CRC_ERROR, SX1302_PKT_SYNC_ERROR, SX1302_PKT_HEADER_ERROR,
    SX1302_PKT_TIMING_SET, SX1302_PKT_CODING_RATE, SX1302_PKT_DATARATE, SX1302_PKT_RSSI_CHAN,
    SX1302_PKT_RSSI_SIG, SX1302_PKT_CRC_PAYLOAD_7_0, SX1302_PKT_CRC_PAYLOAD_15_8,
    SX1302_PKT_SNR_AVG, SX1302_PKT_FREQ_OFFSET_19_16, SX1302_PKT_FREQ_OFFSET_15_8,
    SX1302_PKT_FREQ_OFFSET_7_0, SX1302_PKT_TIMESTAMP_7_0, SX1302_PKT_TIMESTAMP_15_8,
    SX1302_PKT_TIMESTAMP_23_16, SX1302_PKT_TIMESTAMP_31_24,
    e3, e4a, e4b, e4c, e5, e6, e7, e8, e9a, e9b, e9c, e9d, e10, e11, e12, e15, e16,
    e17, e18, e19, e20, bind, Option.bind, pure, metadata_of]

/-! ## The branches of rx_buffer_pop -/

theorem syncword_missing_true {buffer : List Nat} {idx b0 b1 : Nat}
    (h0 : buffer[idx]? = some b0) (h1 : buffer[idx + 1]? = some b1)
    (h : ¬ (b0 = SX1302_PKT_SYNCWORD_BYTE_0 ∧ b1 = SX1302_PKT_SYNCWORD_BYTE_1)) :
    syncword_missing buffer idx = some true := by
  unfold syncword_missing
  rw [h0]
  by_cases hb : b0 = SX1302_PKT_SYNCWORD_BYTE_0
  · have hb1 : b1 ≠ SX1302_PKT_SYNCWORD_BYTE_1 := fun e => h ⟨hb, e⟩
    simp [hb, h1, hb1]
  · simp [hb]

theorem syncword_missing_false_iff {buffer : List Nat} {idx : Nat} :
    syncword_missing buffer idx = some false ↔
      buffer[idx]? = some SX1302_PKT_SYNCWORD_BYTE_0
        ∧ buffer[idx + 1]? = some SX1302_PKT_SYNCWORD_BYTE_1 := by
  unfold syncword_missing
  cases h0 : buffer[idx]? with
  | none => simp
  | some b0 =>
    by_cases hb : b0 = SX1302_PKT_SYNCWORD_BYTE_0
    · cases h1 : buffer[idx + 1]? with
      | none => simp [hb]
      | some b1 => simp [hb]
    · simp [hb]

theorem parse_lengths_eq {buffer : List Nat} {idx b2 bm : Nat} (pkt : rx_packet_t)
    (h2 : buffer[idx + 2]? = some b2)
    (hm : buffer[idx + TAKE_N_BITS_FROM b2 0 8 + 21]? = some bm) :
    parse_lengths buffer idx pkt = some { pkt with
      rxbytenb_modem := TAKE_N_BITS_FROM b2 0 8
      num_ts_metrics_stored := TAKE_N_BITS_FROM bm 0 8 } := by
  simp [parse_lengths, SX1302_PKT_PAYLOAD_LENGTH, SX1302_PKT_NUM_TS_METRICS, pkt_field, h2, hm]

theorem parse_lengths_inv {buffer : List Nat} {idx : Nat} {pkt p : rx_packet_t}
    (h : parse_lengths buffer idx pkt = some p) :
    ∃ b2 bm, buffer[idx + 2]? = some b2
      ∧ buffer[idx + TAKE_N_BITS_FROM b2 0 8 + 21]? = some bm
      ∧ p = { pkt with rxbytenb_modem := TAKE_N_BITS_FROM b2 0 8
                       num_ts_metrics_stored := TAKE_N_BITS_FROM bm 0 8 } := by
  unfold parse_lengths SX1302_PKT_PAYLOAD_LENGTH SX1302_PKT_NUM_TS_METRICS pkt_field at h
  cases h2 : buffer[idx + 2]? with
  | none => simp [h2] at h
  | some b2 =>
    cases hm : buffer[idx + TAKE_N_BITS_FROM b2 0 8 + 21]? with
    | none => simp [h2, hm] at h
    | some bm =>
      simp [h2, hm] at h
      exact ⟨b2, bm, rfl, hm, h.symm⟩

theorem pop_no_data (s : rx_buffer_t) (pkt : rx_packet_t) (h : s.buffer_size ≤ s.buffer_index) :
    rx_buffer_pop s pkt = some (LGW_REG_ERROR, s, pkt) := by
  simp [rx_buffer_pop, h]

theorem pop_sync_fail (s : rx_buffer_t) (pkt : rx_packet_t) {b0 b1 : Nat}
    (hlt : s.buffer_index < s.buffer_size)
    (h0 : s.buffer[s.buffer_index]? = some b0) (h1 : s.buffer[s.buffer_index + 1]? = some b1)
    (h : ¬ (b0 = SX1302_PKT_SYNCWORD_BYTE_0 ∧ b1 = SX1302_PKT_SYNCWORD_BYTE_1)) :
    rx_buffer_pop s pkt
      = some (LGW_REG_ERROR, { s with buffer_index := s.buffer_index + 1 }, pkt) := by
  simp [rx_buffer_pop, Nat.not_le.mpr hlt, syncword_missing_true h0 h1 h]

theorem pop_synced (s : rx_buffer_t) (pkt : rx_packet_t) {b2 bm : Nat}
    (hlt : s.buffer_index < s.buffer_size)
    (h0 : s.buffer[s.buffer_index]? = some SX1302_PKT_SYNCWORD_BYTE_0)
    (h1 : s.buffer[s.buffer_index + 1]? = some SX1302_PKT_SYNCWORD_BYTE_1)
    (h2 : s.buffer[s.buffer_index + 2]? = some b2)
    (hm : s.buffer[s.buffer_index + TAKE_N_BITS_FROM b2 0 8 + 21]? = some bm) :
    rx_buffer_pop s pkt = pop_frame s { pkt with
      rxbytenb_modem := TAKE_N_BITS_FROM b2 0 8
      num_ts_metrics_stored := TAKE_N_BITS_FROM bm 0 8 } := by
  simp [rx_buffer_pop, Nat.not_le.mpr hlt, syncword_missing_false_iff.mpr ⟨h0, h1⟩,
    parse_lengths_eq pkt h2 hm]

theorem frame_len_bounds {N M : Nat} (hN : N < 256) (hM : M < 256) :
    23 ≤ frame_len N M ∧ frame_len N M < 65536 := by
  simp only [frame_len, SX1302_PKT_HEAD_METADATA, SX1302_PKT_TAIL_METADATA]
  omega

theorem pop_frame_truncated (s : rx_buffer_t) (pkt : rx_packet_t)
    (hN : pkt.rxbytenb_modem < 256) (hM : pkt.num_ts_metrics_stored < 256)
    (h : s.buffer_size < s.buffer_index + frame_len pkt.rxbytenb_modem pkt.num_ts_metrics_stored) :
    pop_frame s pkt = some (LGW_REG_ERROR, s, pkt) := by
  have hb := frame_len_bounds hN hM
  unfold frame_len at h hb
  simp only [pop_frame, Nat.mod_eq_of_lt hb.2]
  rw [if_pos (by omega)]

theorem pop_frame_complete (s : rx_buffer_t) (pkt : rx_packet_t)
    (hN : pkt.rxbytenb_modem < 256) (hM : pkt.num_ts_metrics_stored < 256)
    (h : s.buffer_index + frame_len pkt.rxbytenb_modem pkt.num_ts_metrics_stored ≤ s.buffer_size)
    (hcap : s.buffer_index + frame_len pkt.rxbytenb_modem pkt.num_ts_metrics_stored
      ≤ s.buffer.length) :
    pop_frame s pkt =
      if s.buffer.getD
            (s.buffer_index + frame_len pkt.rxbytenb_modem pkt.num_ts_metrics_stored - 1) 0
          ≠ byte_sum s.buffer s.buffer_index
              (frame_len pkt.rxbytenb_modem pkt.num_ts_metrics_stored - 1) then
        some (LGW_REG_ERROR, s, pkt)
      else if sanity_ok (metadata_of s.buffer s.buffer_index pkt) = false then
        some (LGW_REG_ERROR, s, metadata_of s.buffer s.buffer_index pkt)
      else
        some (LGW_REG_SUCCESS,
          { s with buffer_index := s.buffer_index
              + frame_len pkt.rxbytenb_modem pkt.num_ts_metrics_stored },
          { metadata_of s.buffer s.buffer_index pkt with
              payload := memcpy pkt.payload
                (s.buffer.drop (s.buffer_index + SX1302_PKT_HEAD_METADATA))
                pkt.rxbytenb_modem }) := by
  have hb := frame_len_bounds hN hM
  have hidx : (frame_len pkt.rxbytenb_modem pkt.num_ts_metrics_stored + 65535) % 65536
      = frame_len pkt.rxbytenb_modem pkt.num_ts_metrics_stored - 1 := by omega
  have hrd := read_some (show s.buffer_index
      + frame_len pkt.rxbytenb_modem pkt.num_ts_metrics_stored - 1 < s.buffer.length by omega)
  have hsum := checksum_loop_eq_sum s.buffer s.buffer_index
      (frame_len pkt.rxbytenb_modem pkt.num_ts_metrics_stored - 1) (by omega)
  have hmeta := parse_metadata_of_bound s.buffer s.buffer_index pkt (by
      unfold frame_len SX1302_PKT_HEAD_METADATA SX1302_PKT_TAIL_METADATA at hcap; omega)
  have hfl : SX1302_PKT_HEAD_METADATA + pkt.rxbytenb_modem + SX1302_PKT_TAIL_METADATA
      + 2 * pkt.num_ts_metrics_stored
      = frame_len pkt.rxbytenb_modem pkt.num_ts_metrics_stored := rfl
  simp only [pop_frame, hfl, Nat.mod_eq_of_lt hb.2, hidx, hrd, hsum, hmeta]
  rw [if_neg (by omega)]
  rfl

theorem pop_frame_cap {s : rx_buffer_t} {pkt : rx_packet_t}
    {r : Int × rx_buffer_t × rx_packet_t}
    (hN : pkt.rxbytenb_modem < 256) (hM : pkt.num_ts_metrics_stored < 256)
    (h : s.buffer_index + frame_len pkt.rxbytenb_modem pkt.num_ts_metrics_stored ≤ s.buffer_size)
    (hr : pop_frame s pkt = some r) :
    s.buffer_index + frame_len pkt.rxbytenb_modem pkt.num_ts_metrics_stored ≤ s.buffer.length := by
  have hb := frame_len_bounds hN hM
  have hfl : SX1302_PKT_HEAD_METADATA + pkt.rxbytenb_modem + SX1302_PKT_TAIL_METADATA
      + 2 * pkt.num_ts_metrics_stored
      = frame_len pkt.rxbytenb_modem pkt.num_ts_metrics_stored := rfl
  simp only [pop_frame, hfl, Nat.mod_eq_of_lt hb.2] at hr
  rw [if_neg (by omega)] at hr
  cases hrd : s.buffer[s.buffer_index
      + frame_len pkt.rxbytenb_modem pkt.num_ts_metrics_stored - 1]? with
  | none => rw [hrd] at hr; cases hr
  | some b =>
    have := read_bound hrd
    omega

/-- Everything a successful call establishes. -/
theorem pop_success_inv {s s1 : rx_buffer_t} {pkt pkt1 : rx_packet_t}
    (h : rx_buffer_pop s pkt = some (LGW_REG_SUCCESS, s1, pkt1)) :
    ∃ b2 bm,
      s.buffer_index < s.buffer_size
      ∧ s.buffer[s.buffer_index]? = some SX1302_PKT_SYNCWORD_BYTE_0
      ∧ s.buffer[s.buffer_index + 1]? = some SX1302_PKT_SYNCWORD_BYTE_1
      ∧ s.buffer[s.buffer_index + 2]? = some b2
      ∧ s.buffer[s.buffer_index + TAKE_N_BITS_FROM b2 0 8 + 21]? = some bm
      ∧ s.buffer_index + frame_len (TAKE_N_BITS_FROM b2 0 8) (TAKE_N_BITS_FROM bm 0 8)
          ≤ s.buffer_size
      ∧ s.buffer_index + frame_len (TAKE_N_BITS_FROM b2 0 8) (TAKE_N_BITS_FROM bm 0 8)
          ≤ s.buffer.length
      ∧ s.buffer.getD (s.buffer_index
            + frame_len (TAKE_N_BITS_FROM b2 0 8) (TAKE_N_BITS_FROM bm 0 8) - 1) 0
          = byte_sum s.buffer s.buffer_index
              (frame_len (TAKE_N_BITS_FROM b2 0 8) (TAKE_N_BITS_FROM bm 0 8) - 1)
      ∧ sanity_ok (metadata_of s.buffer s.buffer_index { pkt with
            rxbytenb_modem := TAKE_N_BITS_FROM b2 0 8
            num_ts_metrics_stored := TAKE_N_BITS_FROM bm 0 8 }) = true
      ∧ s1 = { s with buffer_index := s.buffer_index
            + frame_len (TAKE_N_BITS_FROM b2 0 8) (TAKE_N_BITS_FROM bm 0 8) }
      ∧ pkt1 = { metadata_of s.buffer s.buffer_index { pkt with
            rxbytenb_modem := TAKE_N_BITS_FROM b2 0 8
            num_ts_metrics_stored := TAKE_N_BITS_FROM bm 0 8 } with
          payload := memcpy pkt.payload
            (s.buffer.drop (s.buffer_index + SX1302_PKT_HEAD_METADATA))
            (TAKE_N_BITS_FROM b2 0 8) } := by
  have hne : LGW_REG_ERROR ≠ LGW_REG_SUCCESS := by decide
  unfold rx_buffer_pop at h
  by_cases hge : s.buffer_index ≥ s.buffer_size
  · rw [if_pos hge] at h
    injection h with h
    injection h with h _
    exact absurd h hne
  · rw [if_neg hge] at h
    cases hs : syncword_missing s.buffer s.buffer_index with
    | none => rw [hs] at h; cases h
    | some v =>
      cases v with
      | true =>
        rw [hs] at h
        injection h with h
        injection h with h _
        exact absurd h hne
      | false =>
        rw [hs] at h
        have hsync := syncword_missing_false_iff.mp hs
        cases hl : parse_lengths s.buffer s.buffer_index pkt with
        | none => rw [hl] at h; cases h
        | some p =>
          rw [hl] at h
          obtain ⟨b2, bm, h2, hm, hp⟩ := parse_lengths_inv hl
          subst hp
          have hN : TAKE_N_BITS_FROM b2 0 8 < 256 := take_bits_lt b2 0 8
          have hM : TAKE_N_BITS_FROM bm 0 8 < 256 := take_bits_lt bm 0 8
          simp only at h
          rcases Nat.lt_or_ge s.buffer_size (s.buffer_index
              + frame_len (TAKE_N_BITS_FROM b2 0 8) (TAKE_N_BITS_FROM bm 0 8)) with hlt | hle
          · rw [pop_frame_truncated s _ hN hM hlt] at h
            injection h with h
            injection h with h _
            exact absurd h hne
          · have hcap := pop_frame_cap (s := s) hN hM hle h
            rw [pop_frame_complete s _ hN hM hle hcap] at h
            refine ⟨b2, bm, Nat.lt_of_not_le hge, hsync.1, hsync.2, h2, hm, hle, hcap, ?_⟩
            split at h
            · injection h with h
              injection h with h _
              exact absurd h hne
            · rename_i hck
              split at h
              · injection h with h
                injection h with h _
                exact absurd h hne
              · rename_i hsan
                injection h with h
                injection h with _ h
                injection h with hs1 hp1
                refine ⟨by simpa using hck, by simpa using hsan, hs1.symm, hp1.symm⟩

/-! ## Frames held by a buffer -/

theorem frame_at_read {buffer f : List Nat} {idx i : Nat} (hf : frame_at buffer idx f)
    (hi : i < f.length) : buffer[idx + i]? = some (f.getD i 0) := by
  have h := congrArg (fun l : List Nat => l[i]?) hf
  simp only [List.getElem?_take_of_lt hi, List.getElem?_drop] at h
  rw [h]
  exact read_some hi

theorem frame_at_getD {buffer f : List Nat} {idx i : Nat} (hf : frame_at buffer idx f)
    (hi : i < f.length) : buffer.getD (idx + i) 0 = f.getD i 0 :=
  read_getD (frame_at_read hf hi)

theorem frame_at_cap {buffer f : List Nat} {idx : Nat} (hf : frame_at buffer idx f)
    (hpos : 0 < f.length) : idx + f.length ≤ buffer.length := by
  have h := read_bound (frame_at_read hf (show f.length - 1 < f.length by omega))
  omega

theorem frame_at_take {buffer f : List Nat} {idx k : Nat} (hf : frame_at buffer idx f)
    (hk : k ≤ f.length) : (buffer.drop idx).take k = f.take k := by
  have h := congrArg (fun l : List Nat => l.take k) hf
  simp only [List.take_take, Nat.min_eq_left hk] at h
  exact h

theorem frame_at_sum {buffer f : List Nat} {idx k : Nat} (hf : frame_at buffer idx f)
    (hk : k ≤ f.length) : byte_sum buffer idx k = (f.take k).sum % 256 := by
  unfold byte_sum
  rw [frame_at_take hf hk]

theorem frame_at_append (pre f rest : List Nat) : frame_at (pre ++ (f ++ rest)) pre.length f := by
  unfold frame_at
  rw [List.drop_left, List.take_left]

theorem frame_at_payload {buffer f : List Nat} {idx k : Nat} (hf : frame_at buffer idx f)
    (hk : 9 + k ≤ f.length) : (buffer.drop (idx + 9)).take k = (f.drop 9).take k := by
  have h := congrArg (fun l : List Nat => (l.drop 9).take k) hf
  simp only [List.drop_take, List.take_take, List.drop_drop] at h
  rw [Nat.min_eq_left (by omega)] at h
  rw [← h, Nat.add_comm]

theorem sanity_ok_iff (p : rx_packet_t) :
    sanity_ok p = true ↔
      p.modem_id ≤ SX1302_FSK_MODEM_ID
        ∧ (p.modem_id ≤ SX1302_LORA_STD_MODEM_ID →
            p.rx_channel_in ≤ 9 ∧ 5 ≤ p.rx_rate_sf ∧ p.rx_rate_sf ≤ 12) := by
  unfold sanity_ok
  split
  · simp; omega
  · split
    · split
      · simp; omega
      · split
        · simp; omega
        · simp; omega
    · simp; omega

theorem getD_byte {l : List Nat} (hl : bytes_ok l) (i : Nat) : l.getD i 0 < 256 := by
  rcases Nat.lt_or_ge i l.length with hi | hi
  · exact read_byte hl (read_some hi)
  · rw [List.getD_eq_default _ _ hi]
    decide

theorem frame_shape_len {f : List Nat} (h : frame_shape f) :
    f.length = 23 + frame_N f + 2 * frame_M f := by
  have := h.2.1
  simp only [frame_len, SX1302_PKT_HEAD_METADATA, SX1302_PKT_TAIL_METADATA] at this
  omega

theorem sanity_of_frame {buffer f : List Nat} {idx : Nat} (pkt : rx_packet_t)
    (hb : bytes_ok f) (hat : frame_at buffer idx f) (hlen : 23 ≤ f.length) :
    sanity_ok (metadata_of buffer idx pkt) = true ↔ frame_sane f := by
  have h3 : cell_bits buffer (idx + 3) 0 8 = f.getD 3 0 := by
    rw [cell_bits, frame_at_getD hat (by omega), take_bits_byte _ (getD_byte hb 3)]
  have h5 : cell_bits buffer (idx + 5) 0 8 = f.getD 5 0 := by
    rw [cell_bits, frame_at_getD hat (by omega), take_bits_byte _ (getD_byte hb 5)]
  have h4 : cell_bits buffer (idx + 4) 4 4 = f.getD 4 0 / 16 := by
    rw [cell_bits, frame_at_getD hat (by omega)]
    have := getD_byte hb 4
    simp only [TAKE_N_BITS_FROM]
    omega
  rw [sanity_ok_iff]
  simp only [metadata_of, h3, h4, h5, frame_sane]

/-- What `rx_buffer_pop` returns when the cursor is on a frame of consistent
shape that lies within the logical length. -/
theorem pop_on_frame (s : rx_buffer_t) (pkt : rx_packet_t) {f : List Nat}
    (hsh : frame_shape f) (hat : frame_at s.buffer s.buffer_index f)
    (hsz : s.buffer_index + f.length ≤ s.buffer_size) :
    rx_buffer_pop s pkt =
      if ¬ frame_checksum_ok f then
        some (LGW_REG_ERROR, s,
          { pkt with rxbytenb_modem := frame_N f, num_ts_metrics_stored := frame_M f })
      else if ¬ frame_sane f then
        some (LGW_REG_ERROR, s, metadata_of s.buffer s.buffer_index
          { pkt with rxbytenb_modem := frame_N f, num_ts_metrics_stored := frame_M f })
      else
        some (LGW_REG_SUCCESS, { s with buffer_index := s.buffer_index + f.length },
          { metadata_of s.buffer s.buffer_index
              { pkt with rxbytenb_modem := frame_N f, num_ts_metrics_stored := frame_M f } with
            payload := frame_payload f ++ pkt.payload.drop (frame_N f) }) := by
  have hL := frame_shape_len hsh
  obtain ⟨hb, hlen, hs0, hs1⟩ := hsh
  have hN : frame_N f < 256 := getD_byte hb 2
  have hM : frame_M f < 256 := getD_byte hb _
  have h0 : s.buffer[s.buffer_index]? = some SX1302_PKT_SYNCWORD_BYTE_0 := by
    have := frame_at_read hat (show 0 < f.length by omega)
    rwa [Nat.add_zero, hs0] at this
  have h1 : s.buffer[s.buffer_index + 1]? = some SX1302_PKT_SYNCWORD_BYTE_1 := by
    have := frame_at_read hat (show 1 < f.length by omega)
    rwa [hs1] at this
  have h2 : s.buffer[s.buffer_index + 2]? = some (frame_N f) :=
    frame_at_read hat (show 2 < f.length by omega)
  have hm : s.buffer[s.buffer_index + TAKE_N_BITS_FROM (frame_N f) 0 8 + 21]?
      = some (frame_M f) := by
    rw [take_bits_byte _ hN, Nat.add_assoc]
    exact frame_at_read hat (show frame_N f + 21 < f.length by omega)
  rw [pop_synced s pkt (by omega) h0 h1 h2 hm, take_bits_byte _ hN, take_bits_byte _ hM]
  have hcap := frame_at_cap hat (show 0 < f.length by omega)
  rw [pop_frame_complete s _ hN hM (by simpa only [← hlen] using hsz)
    (by simpa only [← hlen] using hcap)]
  simp only [← hlen]
  have hck : s.buffer.getD (s.buffer_index + f.length - 1) 0 = f.getD (f.length - 1) 0 := by
    rw [show s.buffer_index + f.length - 1 = s.buffer_index + (f.length - 1) by omega]
    exact frame_at_getD hat (by omega)
  have hsum := frame_at_sum hat (show f.length - 1 ≤ f.length by omega)
  have hsan := sanity_of_frame
    { pkt with rxbytenb_modem := frame_N f, num_ts_metrics_stored := frame_M f } hb hat
    (by omega)
  have hpay : memcpy pkt.payload (s.buffer.drop (s.buffer_index + SX1302_PKT_HEAD_METADATA))
      (frame_N f) = frame_payload f ++ pkt.payload.drop (frame_N f) := by
    unfold memcpy frame_payload SX1302_PKT_HEAD_METADATA
    rw [frame_at_payload hat (by omega)]
  rw [hck, hsum, hpay]
  by_cases hc : frame_checksum_ok f
  · have hc1 : ¬ (f.getD (f.length - 1) 0 ≠ (f.take (f.length - 1)).sum % 256) :=
      not_not.mpr hc
    rw [if_neg hc1, if_neg (not_not.mpr hc)]
    by_cases hsn : frame_sane f
    · have hv : ¬ (sanity_ok (metadata_of s.buffer s.buffer_index
          { pkt with rxbytenb_modem := frame_N f, num_ts_metrics_stored := frame_M f })
          = false) := by
        rw [hsan.mpr hsn]; decide
      rw [if_neg hv, if_neg (not_not.mpr hsn)]
    · have hv : sanity_ok (metadata_of s.buffer s.buffer_index
          { pkt with rxbytenb_modem := frame_N f, num_ts_metrics_stored := frame_M f })
          = false := by
        cases hv : sanity_ok (metadata_of s.buffer s.buffer_index
          { pkt with rxbytenb_modem := frame_N f, num_ts_metrics_stored := frame_M f }) with
        | false => rfl
        | true => exact absurd (hsan.mp hv) hsn
      rw [if_pos hv, if_pos hsn]
  · have hc1 : f.getD (f.length - 1) 0 ≠ (f.take (f.length - 1)).sum % 256 := hc
    rw [if_pos hc1, if_pos hc]

theorem frame_payload_length {f : List Nat} (h : frame_shape f) :
    (frame_payload f).length = frame_N f := by
  have hL := frame_shape_len h
  simp only [frame_payload, List.length_take, List.length_drop]
  omega

/-- Popping a well-formed frame that lies within the logical length. -/
theorem pop_well_formed (s : rx_buffer_t) (pkt : rx_packet_t) {f : List Nat}
    (hwf : well_formed_frame f) (hat : frame_at s.buffer s.buffer_index f)
    (hsz : s.buffer_index + f.length ≤ s.buffer_size) :
    ∃ p, rx_buffer_pop s pkt
        = some (LGW_REG_SUCCESS, { s with buffer_index := s.buffer_index + f.length }, p)
      ∧ p.rxbytenb_modem = frame_N f
      ∧ p.num_ts_metrics_stored = frame_M f
      ∧ p.payload = frame_payload f ++ pkt.payload.drop (frame_N f) := by
  obtain ⟨hsh, hck, hsn⟩ := hwf
  rw [pop_on_frame s pkt hsh hat hsz, if_neg (not_not.mpr hck), if_neg (not_not.mpr hsn)]
  exact ⟨_, rfl, rfl, rfl, rfl⟩

theorem pop_all_frames :
    ∀ (frames : List (List Nat)) (pre pad : List Nat) (pkt : rx_packet_t) (fuel : Nat),
      (∀ f ∈ frames, well_formed_frame f) → frames.length ≤ fuel →
      ∃ recs,
        pop_all fuel ⟨pre ++ (frames.flatten ++ pad), pre.length + frames.flatten.length,
            pre.length⟩ pkt
          = some (recs, ⟨pre ++ (frames.flatten ++ pad), pre.length + frames.flatten.length,
              pre.length + frames.flatten.length⟩)
        ∧ recs.map (fun r => (r.1, r.2.rxbytenb_modem, r.2.payload.take r.2.rxbytenb_modem))
          = frames.map (fun f => (LGW_REG_SUCCESS, frame_N f, frame_payload f)) := by
  intro frames
  induction frames with
  | nil =>
    intro pre pad pkt fuel _ _
    refine ⟨[], ?_, rfl⟩
    cases fuel with
    | zero => simp [pop_all]
    | succ n => simp [pop_all]
  | cons f fs ih =>
    intro pre pad pkt fuel hwf hfuel
    have hf : well_formed_frame f := hwf f (List.mem_cons_self _ _)
    have hfs : ∀ g ∈ fs, well_formed_frame g := fun g hg => hwf g (List.mem_cons_of_mem _ hg)
    have hL := frame_shape_len hf.1
    cases fuel with
    | zero => simp at hfuel
    | succ n =>
      have hn : fs.length ≤ n := by simpa using hfuel
      have hat : frame_at (pre ++ ((f :: fs).flatten ++ pad)) pre.length f := by
        have := frame_at_append pre f (fs.flatten ++ pad)
        simpa [List.flatten, List.append_assoc] using this
      obtain ⟨p, hpop, hpN, _, hpay⟩ := pop_well_formed
        ⟨pre ++ ((f :: fs).flatten ++ pad), pre.length + (f :: fs).flatten.length, pre.length⟩
        pkt hf hat (by simp [List.flatten])
      obtain ⟨recs, hrec, hmap⟩ := ih (pre ++ f) pad p n hfs hn
      have hbuf : pre ++ ((f :: fs).flatten ++ pad) = (pre ++ f) ++ (fs.flatten ++ pad) := by
        simp [List.flatten, List.append_assoc]
      have hlen : pre.length + (f :: fs).flatten.length
          = (pre ++ f).length + fs.flatten.length := by
        simp [List.flatten, Nat.add_assoc]
      refine ⟨(LGW_REG_SUCCESS, p) :: recs, ?_, ?_⟩
      · have hlt : pre.length < pre.length + (f :: fs).flatten.length := by
          simp [List.flatten]; omega
        simp only [pop_all, if_pos hlt, hpop]
        simp only [hbuf, hlen] at hrec ⊢
        rw [show pre.length + f.length = (pre ++ f).length by simp, hrec]
      · simp only [List.map_cons, hmap, hpN, hpay]
        rw [List.take_left' (frame_payload_length hf.1)]

theorem read_take_append {f rest : List Nat} {k i : Nat} (hi : i < k) (hk : k ≤ f.length) :
    (f.take k ++ rest)[i]? = some (f.getD i 0) := by
  have hlen : i < (f.take k).length := by rw [List.length_take]; omega
  rw [List.getElem?_append_left hlen, List.getElem?_take_of_lt hi]
  exact read_some (by omega)

theorem getD_set_ne (l : List Nat) {i j : Nat} (v : Nat) (h : i ≠ j) :
    (l.set i v).getD j 0 = l.getD j 0 := by
  simp only [List.getD_eq_getElem?_getD, List.getElem?_set_ne h]

theorem getD_set_eq (l : List Nat) {i : Nat} (v : Nat) (h : i < l.length) :
    (l.set i v).getD i 0 = v := by
  simp [List.getD_eq_getElem?_getD, List.getElem?_set, h]

theorem sum_set_add (l : List Nat) :
    ∀ (i v : Nat), i < l.length → (l.set i v).sum + l.getD i 0 = l.sum + v := by
  induction l with
  | nil => intro i v h; simp at h
  | cons a t ih =>
    intro i v h
    cases i with
    | zero => simp [List.set]; omega
    | succ j =>
      have hj : j < t.length := by simpa using h
      have := ih j v hj
      simp only [List.set, List.sum_cons, List.getD_cons_succ]
      omega

theorem bytes_ok_set {l : List Nat} (hl : bytes_ok l) (i : Nat) {v : Nat} (hv : v < 256) :
    bytes_ok (l.set i v) := by
  intro b hb
  rcases List.mem_or_eq_of_mem_set hb with h | h
  · exact hl b h
  · rw [h]; exact hv

/-- Changing one byte of a frame with a correct checksum, other than the two
length fields and the checksum, leaves the shape and breaks the checksum. -/
theorem set_breaks_checksum {f : List Nat} {i v : Nat} (hsh : frame_shape f)
    (hck : frame_checksum_ok f) (hi : i < f.length - 1) (h01 : 2 ≤ i) (hi2 : i ≠ 2)
    (him : i ≠ frame_N f + 21) (hv : v < 256) (hne : v ≠ f.getD i 0) :
    frame_shape (f.set i v) ∧ ¬ frame_checksum_ok (f.set i v) := by
  have hN : frame_N (f.set i v) = frame_N f := getD_set_ne f v hi2
  have hM : frame_M (f.set i v) = frame_M f := by
    unfold frame_M
    rw [hN]
    exact getD_set_ne f v him
  obtain ⟨hb, hlen, hs0, hs1⟩ := hsh
  refine ⟨⟨bytes_ok_set hb i hv, ?_, ?_, ?_⟩, ?_⟩
  · rw [List.length_set, hN, hM]; exact hlen
  · rw [getD_set_ne f v (by omega)]; exact hs0
  · rw [getD_set_ne f v (by omega)]; exact hs1
  · unfold frame_checksum_ok at hck ⊢
    rw [List.length_set, getD_set_ne f v (by omega), List.set_take, hck]
    have hlt : i < (f.take (f.length - 1)).length := by
      rw [List.length_take]; omega
    have hsum := sum_set_add (f.take (f.length - 1)) i v hlt
    have hget : (f.take (f.length - 1)).getD i 0 = f.getD i 0 := by
      simp only [List.getD_eq_getElem?_getD, List.getElem?_take_of_lt hi]
    rw [hget] at hsum
    have hbi := getD_byte hb i
    omega

/-- The record of an accepted frame, for a buffer of bytes: `N` and `M` are the
cells that hold the two length fields. -/
theorem pop_success_record {s s1 : rx_buffer_t} {pkt pkt1 : rx_packet_t}
    (hb : bytes_ok s.buffer)
    (h : rx_buffer_pop s pkt = some (LGW_REG_SUCCESS, s1, pkt1)) :
    ∃ N M,
      s.buffer[s.buffer_index + 2]? = some N
      ∧ s.buffer[s.buffer_index + N + 21]? = some M
      ∧ N < 256 ∧ M < 256
      ∧ s.buffer_index + (23 + N + 2 * M) ≤ s.buffer_size
      ∧ s.buffer_index + (23 + N + 2 * M) ≤ s.buffer.length
      ∧ pkt1 = { metadata_of s.buffer s.buffer_index
            { pkt with rxbytenb_modem := N, num_ts_metrics_stored := M } with
          payload := memcpy pkt.payload (s.buffer.drop (s.buffer_index + 9)) N } := by
  obtain ⟨b2, bm, _, _, _, h2, hm, hsz, hcap, _, _, _, hp1⟩ := pop_success_inv h
  have hN := read_byte hb h2
  have hM := read_byte hb hm
  rw [take_bits_byte b2 hN] at hm hsz hcap hp1
  rw [take_bits_byte bm hM] at hsz hcap hp1
  have hfl : frame_len b2 bm = 23 + b2 + 2 * bm := by
    simp only [frame_len, SX1302_PKT_HEAD_METADATA, SX1302_PKT_TAIL_METADATA]; omega
  rw [hfl] at hsz hcap
  exact ⟨b2, bm, h2, hm, hN, hM, hsz, hcap, hp1⟩

theorem cell_bits_byte {buffer : List Nat} {i b : Nat} (hb : bytes_ok buffer)
    (h : buffer[i]? = some b) : cell_bits buffer i 0 8 = b := by
  rw [cell_bits, read_getD h, take_bits_byte b (read_byte hb h)]

set_option maxRecDepth 100000 in
theorem shl0_mask : ∀ b, b < 256 → (b <<< 0) &&& 0xFF = b := by decide

set_option maxRecDepth 100000 in
theorem shl8_mask : ∀ b, b < 256 → (b <<< 8) &&& 0xFF00 = b * 256 := by decide

set_option maxRecDepth 100000 in
theorem shl16_mask : ∀ b, b < 256 → (b <<< 16) &&& 0x00FF0000 = b * 65536 := by decide

set_option maxRecDepth 100000 in
theorem shl24_mask : ∀ b, b < 256 → (b <<< 24) &&& 0xFF000000 = b * 16777216 := by decide

set_option maxRecDepth 100000 in
theorem and_0F : ∀ b, b < 256 → b &&& 0x0F = b % 16 := by decide

/-- Bytes placed at disjoint bit positions: the bitwise or is the sum. -/
theorem or_eq_add_of_lt {i b : Nat} (a : Nat) (h : b < 2 ^ i) : b ||| (a * 2 ^ i) = a * 2 ^ i + b := by
  rw [Nat.lor_comm, Nat.mul_comm a, ← Nat.mul_add_lt_is_or h]

theorem timestamp_of_bytes {b0 b1 b2 b3 : Nat} (h0 : b0 < 256) (h1 : b1 < 256) (h2 : b2 < 256)
    (h3 : b3 < 256) :
    timestamp_of b0 b1 b2 b3 = b0 + 2 ^ 8 * b1 + 2 ^ 16 * b2 + 2 ^ 24 * b3 := by
  unfold timestamp_of
  rw [shl0_mask b0 h0, shl8_mask b1 h1, shl16_mask b2 h2, shl24_mask b3 h3]
  rw [Nat.mod_eq_of_lt (by omega : b0 < 4294967296),
    Nat.mod_eq_of_lt (by omega : b1 * 256 < 4294967296),
    Nat.mod_eq_of_lt (by omega : b2 * 65536 < 4294967296),
    Nat.mod_eq_of_lt (by omega : b3 * 16777216 < 4294967296)]
  have e1 : b0 ||| b1 * 256 = b1 * 256 + b0 := or_eq_add_of_lt (i := 8) b1 (by omega)
  rw [e1]
  have e2 : (b1 * 256 + b0) ||| b2 * 65536 = b2 * 65536 + (b1 * 256 + b0) :=
    or_eq_add_of_lt (i := 16) b2 (by omega)
  rw [e2]
  have e3 : (b2 * 65536 + (b1 * 256 + b0)) ||| b3 * 16777216
      = b3 * 16777216 + (b2 * 65536 + (b1 * 256 + b0)) :=
    or_eq_add_of_lt (i := 24) b3 (by omega)
  rw [e3]
  omega

theorem rx_crc16_of_bytes {lo hi : Nat} (h0 : lo < 256) (h1 : hi < 256) :
    rx_crc16_of lo hi = lo + 256 * hi := by
  unfold rx_crc16_of
  rw [shl0_mask lo h0, shl8_mask hi h1, Nat.mod_eq_of_lt (by omega : lo < 65536),
    Nat.mod_eq_of_lt (by omega : hi * 256 < 65536)]
  have e1 : lo ||| hi * 256 = hi * 256 + lo := or_eq_add_of_lt (i := 8) hi (by omega)
  rw [e1]
  omega

/-- The 20-bit value assembled at line 250. -/
theorem freq_raw_eq {a b c : Nat} (hb : b < 256) (hc : c < 256) :
    (a <<< 16) ||| (b <<< 8) ||| (c <<< 0) = a * 65536 + b * 256 + c := by
  rw [Nat.shiftLeft_eq, Nat.shiftLeft_eq, Nat.shiftLeft_eq]
  have e1 : a * 2 ^ 16 ||| b * 2 ^ 8 = a * 2 ^ 16 + b * 2 ^ 8 := by
    rw [Nat.lor_comm]
    exact or_eq_add_of_lt (i := 16) a (by omega)
  rw [e1]
  have e2 : (a * 2 ^ 16 + b * 2 ^ 8) ||| c * 2 ^ 0 = a * 2 ^ 16 + b * 2 ^ 8 + c := by
    rw [Nat.pow_zero, Nat.mul_one, Nat.lor_comm]
    have := or_eq_add_of_lt (i := 8) (a * 2 ^ 8 + b) (show c < 2 ^ 8 by omega)
    have e : (a * 2 ^ 8 + b) * 2 ^ 8 = a * 2 ^ 16 + b * 2 ^ 8 := by omega
    rw [e] at this
    rw [this]
  rw [e2]
  omega

theorem fetch_size_bytes {msb lsb : Nat} (h0 : msb < 256) (h1 : lsb < 256) :
    fetch_size msb lsb = 256 * msb + lsb := by
  unfold fetch_size
  rw [shl8_mask msb h0, shl0_mask lsb h1, Nat.mod_eq_of_lt (by omega : msb * 256 < 65536),
    Nat.mod_eq_of_lt (by omega : lsb < 65536), Nat.lor_comm]
  have e : lsb ||| msb * 256 = msb * 256 + lsb := or_eq_add_of_lt (i := 8) msb (by omega)
  rw [e]
  omega

theorem mem_rb_into_length (buffer data : List Nat) (size : Nat) :
    (mem_rb_into buffer data size).length = buffer.length := by
  simp [mem_rb_into]

theorem mem_rb_into_zeroed (cap size i : Nat) (data : List Nat) (hi : i < cap) :
    (mem_rb_into (List.replicate cap 0) data size)[i]?
      = some (if i < size then data.getD i 0 else 0) := by
  have hz : (List.replicate cap 0).getD i 0 = 0 := by
    simp [List.getD_eq_getElem?_getD, List.getElem?_replicate, hi]
  simp only [mem_rb_into, List.length_replicate, List.getElem?_map, List.getElem?_range hi,
    Option.map_some', hz]

/-! ## The record of a frame, from its bytes -/

theorem cell_bits_frame {buffer f : List Nat} {idx k : Nat} (p n : Nat)
    (hat : frame_at buffer idx f) (hk : k < f.length) :
    cell_bits buffer (idx + k) p n = cell_bits f (0 + k) p n := by
  rw [cell_bits, cell_bits, frame_at_getD hat hk, Nat.zero_add]

/-- The metadata fields are those of the frame at the cursor, whatever the
array holds around it. -/
theorem metadata_of_frame {buffer f : List Nat} {idx : Nat} (pkt : rx_packet_t)
    (hat : frame_at buffer idx f) (hlen : pkt.rxbytenb_modem + 20 < f.length) :
    metadata_of buffer idx pkt = metadata_of f 0 pkt := by
  simp only [metadata_of, Nat.add_assoc,
    cell_bits_frame _ _ hat (show 3 < f.length by omega),
    cell_bits_frame _ _ hat (show 4 < f.length by omega),
    cell_bits_frame _ _ hat (show 5 < f.length by omega),
    cell_bits_frame _ _ hat (show 6 < f.length by omega),
    cell_bits_frame _ _ hat (show 7 < f.length by omega),
    cell_bits_frame _ _ hat (show 8 < f.length by omega),
    cell_bits_frame _ _ hat (show pkt.rxbytenb_modem + 9 < f.length by omega),
    cell_bits_frame _ _ hat (show pkt.rxbytenb_modem + 10 < f.length by omega),
    cell_bits_frame _ _ hat (show pkt.rxbytenb_modem + 11 < f.length by omega),
    cell_bits_frame _ _ hat (show pkt.rxbytenb_modem + 12 < f.length by omega),
    cell_bits_frame _ _ hat (show pkt.rxbytenb_modem + 15 < f.length by omega),
    cell_bits_frame _ _ hat (show pkt.rxbytenb_modem + 16 < f.length by omega),
    cell_bits_frame _ _ hat (show pkt.rxbytenb_modem + 17 < f.length by omega),
    cell_bits_frame _ _ hat (show pkt.rxbytenb_modem + 18 < f.length by omega),
    cell_bits_frame _ _ hat (show pkt.rxbytenb_modem + 19 < f.length by omega),
    cell_bits_frame _ _ hat (show pkt.rxbytenb_modem + 20 < f.length by omega)]

theorem freq_offset_of_bytes {b6 b7 b8 : Nat} (h6 : b6 < 256) (h7 : b7 < 256) (h8 : b8 < 256) :
    freq_offset_of (b8 % 16) b7 b6
      = (if freq_raw b6 b7 b8 < 2 ^ 19 then (freq_raw b6 b7 b8 : Int)
         else (freq_raw b6 b7 b8 : Int) - 2 ^ 20) := by
  have hraw : freq_raw b6 b7 b8 = b8 % 16 * 65536 + b7 * 256 + b6 := by
    unfold freq_raw
    rw [and_0F _ h8]
    have := freq_raw_eq (a := b8 % 16) h7 h6
    rw [Nat.shiftLeft_zero] at this
    exact this
  have hmodel := freq_raw_eq (a := b8 % 16) h7 h6
  simp only [freq_offset_of, hmodel]
  rw [hraw]
  have hlt : b8 % 16 < 16 := Nat.mod_lt _ (by decide)
  have e19 : (1 <<< 19 : Nat) = 524288 := by decide
  have e20 : (1 <<< 20 : Nat) = 1048576 := by decide
  rw [e19, e20]
  have p19 : (2 : Nat) ^ 19 = 524288 := by decide
  have q20 : (2 : Int) ^ 20 = 1048576 := by decide
  rw [p19, q20]
  split <;> split <;> omega

theorem to_int8_byte {b : Nat} (h : b < 256) :
    to_int8 b = (if b < 128 then (b : Int) else (b : Int) - 256) := by
  unfold to_int8
  rw [Nat.mod_eq_of_lt h]
  split <;> split <;> omega

/-- The fields of `metadata_of` for a frame of bytes at cursor 0, as arithmetic
on the bytes of the frame. -/
theorem metadata_of_bytes {f : List Nat} (hb : bytes_ok f) (pkt : rx_packet_t) :
    metadata_of f 0 pkt =
      { rxbytenb_modem := pkt.rxbytenb_modem
        rx_channel_in := f.getD 3 0
        crc_en := f.getD 4 0 % 2
        coding_rate := f.getD 4 0 / 2 % 8
        rx_rate_sf := f.getD 4 0 / 16 % 16
        modem_id := f.getD 5 0
        frequency_offset_error :=
          if freq_raw (f.getD 6 0) (f.getD 7 0) (f.getD 8 0) < 2 ^ 19
          then (freq_raw (f.getD 6 0) (f.getD 7 0) (f.getD 8 0) : Int)
          else (freq_raw (f.getD 6 0) (f.getD 7 0) (f.getD 8 0) : Int) - 2 ^ 20
        payload := pkt.payload
        payload_crc_error := f.getD (pkt.rxbytenb_modem + 9) 0 % 2
        sync_error := f.getD (pkt.rxbytenb_modem + 9) 0 / 4 % 2
        header_error := f.getD (pkt.rxbytenb_modem + 9) 0 / 8 % 2
        timing_set := f.getD (pkt.rxbytenb_modem + 9) 0 / 16 % 2
        snr_average :=
          if f.getD (pkt.rxbytenb_modem + 10) 0 < 128
          then (f.getD (pkt.rxbytenb_modem + 10) 0 : Int)
          else (f.getD (pkt.rxbytenb_modem + 10) 0 : Int) - 256
        rssi_chan_avg := f.getD (pkt.rxbytenb_modem + 11) 0
        rssi_signal_avg := f.getD (pkt.rxbytenb_modem + 12) 0
        timestamp_cnt :=
          f.getD (pkt.rxbytenb_modem + 15) 0 + 2 ^ 8 * f.getD (pkt.rxbytenb_modem + 16) 0
            + 2 ^ 16 * f.getD (pkt.rxbytenb_modem + 17) 0
            + 2 ^ 24 * f.getD (pkt.rxbytenb_modem + 18) 0
        rx_crc16_value :=
          f.getD (pkt.rxbytenb_modem + 19) 0 + 256 * f.getD (pkt.rxbytenb_modem + 20) 0
        num_ts_metrics_stored := pkt.num_ts_metrics_stored } := by
  have e8 : ∀ i, cell_bits f i 0 8 = f.getD i 0 := fun i => by
    rw [cell_bits, take_bits_byte _ (getD_byte hb i)]
  have e4 : cell_bits f 8 0 4 = f.getD 8 0 % 16 := by
    simp only [cell_bits, TAKE_N_BITS_FROM, Nat.pow_zero, Nat.div_one]
    rfl
  have e1 : ∀ i, cell_bits f i 0 1 = f.getD i 0 % 2 := fun i => by
    simp only [cell_bits, TAKE_N_BITS_FROM, Nat.pow_zero, Nat.div_one]
    rfl
  simp only [metadata_of, Nat.zero_add, e8, e4, e1,
    freq_offset_of_bytes (getD_byte hb 6) (getD_byte hb 7) (getD_byte hb 8),
    to_int8_byte (getD_byte hb _),
    timestamp_of_bytes (getD_byte hb _) (getD_byte hb _) (getD_byte hb _) (getD_byte hb _),
    rx_crc16_of_bytes (getD_byte hb _) (getD_byte hb _)]
  rfl

/-! ## The claims -/

/-- C1: for every list of well-formed frames whose concatenation fits the
buffer, loading the concatenation as the snapshot (cursor 0, logical length =
total length) and calling `rx_buffer_pop` while cursor < logical length yields
exactly one successful record per frame, in order, each with `rxbytenb_modem`
equal to the payload length of its frame and the payload bytes of that frame,
and ends with cursor = logical length. Any number of calls allowed beyond the
number of frames gives the same result. -/
theorem C1_concatenated_frames_decode (frames : List (List Nat)) (pad : List Nat)
    (pkt : rx_packet_t) (fuel : Nat)
    (hwf : ∀ f ∈ frames, well_formed_frame f) (hfuel : frames.length ≤ fuel) :
    ∃ recs,
      pop_all fuel ⟨frames.flatten ++ pad, frames.flatten.length, 0⟩ pkt
        = some (recs, ⟨frames.flatten ++ pad, frames.flatten.length, frames.flatten.length⟩)
      ∧ recs.map (fun r => (r.1, r.2.rxbytenb_modem, r.2.payload.take r.2.rxbytenb_modem))
        = frames.map (fun f => (LGW_REG_SUCCESS, frame_N f, frame_payload f)) := by
  have h := pop_all_frames frames [] pad pkt fuel hwf hfuel
  simpa using h

theorem C1_concatenated_frames_decode_witness :
    (∀ f ∈ [ex_frame_lora, ex_frame_fsk, ex_frame_short], well_formed_frame f)
      ∧ ∃ recs,
        pop_all 5 ⟨[ex_frame_lora, ex_frame_fsk, ex_frame_short].flatten ++ [0, 0],
            [ex_frame_lora, ex_frame_fsk, ex_frame_short].flatten.length, 0⟩ pkt0
          = some (recs, ⟨[ex_frame_lora, ex_frame_fsk, ex_frame_short].flatten ++ [0, 0],
              [ex_frame_lora, ex_frame_fsk, ex_frame_short].flatten.length,
              [ex_frame_lora, ex_frame_fsk, ex_frame_short].flatten.length⟩)
        ∧ recs.map (fun r => (r.1, r.2.rxbytenb_modem, r.2.payload.take r.2.rxbytenb_modem))
          = [ex_frame_lora, ex_frame_fsk, ex_frame_short].map
              (fun f => (LGW_REG_SUCCESS, frame_N f, frame_payload f)) :=
  ⟨by decide, C1_concatenated_frames_decode [ex_frame_lora, ex_frame_fsk, ex_frame_short]
    [0, 0] pkt0 5 (by decide) (by decide)⟩

/-- C2: whenever `rx_buffer_pop` returns success from a state with cursor `c`
(all cells being bytes), the four validations hold: the cells `c`, `c+1` are
the sync word; the frame of length `9+N+14+2M`, with `N` the cell `c+2` and `M`
the cell `c+21+N`, lies within the logical length; the last byte of the frame
is the sum modulo 256 of the bytes before it; and the sanity check passes on
modem id (cell `c+5`), channel (cell `c+3`) and spreading factor (high nibble
of cell `c+4`). -/
theorem C2_success_is_fully_validated (s s1 : rx_buffer_t) (pkt pkt1 : rx_packet_t)
    (hb : bytes_ok s.buffer)
    (h : rx_buffer_pop s pkt = some (LGW_REG_SUCCESS, s1, pkt1)) :
    ∃ N M modem chan b4,
      s.buffer[s.buffer_index]? = some 0xA5
      ∧ s.buffer[s.buffer_index + 1]? = some 0xC0
      ∧ s.buffer[s.buffer_index + 2]? = some N
      ∧ s.buffer[s.buffer_index + 21 + N]? = some M
      ∧ s.buffer_index + (9 + N + 14 + 2 * M) ≤ s.buffer_size
      ∧ s.buffer[s.buffer_index + (9 + N + 14 + 2 * M) - 1]?
          = some (((s.buffer.drop s.buffer_index).take (9 + N + 14 + 2 * M - 1)).sum % 256)
      ∧ s.buffer[s.buffer_index + 5]? = some modem
      ∧ s.buffer[s.buffer_index + 3]? = some chan
      ∧ s.buffer[s.buffer_index + 4]? = some b4
      ∧ modem ≤ 13
      ∧ (modem ≤ 12 → chan ≤ 9 ∧ 5 ≤ b4 / 16 ∧ b4 / 16 ≤ 12) := by
  obtain ⟨b2, bm, _, h0, h1, h2, hm, hsz, hcap, hck, hsan, _, _⟩ := pop_success_inv h
  have hN := take_bits_byte b2 (read_byte hb h2)
  have hM := take_bits_byte bm (read_byte hb hm)
  rw [hN] at hm hsz hcap hck hsan
  rw [hM] at hsz hcap hck hsan
  have hfl : frame_len b2 bm = 9 + b2 + 14 + 2 * bm := rfl
  rw [hfl] at hsz hcap hck
  have r3 := read_some (show s.buffer_index + 3 < s.buffer.length by omega)
  have r4 := read_some (show s.buffer_index + 4 < s.buffer.length by omega)
  have r5 := read_some (show s.buffer_index + 5 < s.buffer.length by omega)
  have rck := read_some
    (show s.buffer_index + (9 + b2 + 14 + 2 * bm) - 1 < s.buffer.length by omega)
  have b3 := read_byte hb r3
  have b4 := read_byte hb r4
  have b5 := read_byte hb r5
  rw [sanity_ok_iff] at hsan
  simp only [metadata_of, cell_bits, take_bits_byte _ b3, take_bits_byte _ b5,
    SX1302_FSK_MODEM_ID, SX1302_LORA_STD_MODEM_ID] at hsan
  have hsf : TAKE_N_BITS_FROM (s.buffer.getD (s.buffer_index + 4) 0) 4 4
      = s.buffer.getD (s.buffer_index + 4) 0 / 16 := by
    simp only [TAKE_N_BITS_FROM]; omega
  rw [hsf] at hsan
  refine ⟨b2, bm, _, _, _, h0, h1, h2, ?_, hsz, ?_, r5, r3, r4, hsan.1, hsan.2⟩
  · rw [show s.buffer_index + 21 + b2 = s.buffer_index + b2 + 21 by omega]; exact hm
  · rw [rck, hck]; rfl

theorem C2_success_is_fully_validated_witness :
    bytes_ok ex_frame_lora
      ∧ ∃ N M modem chan b4,
        ex_frame_lora[0]? = some 0xA5
        ∧ ex_frame_lora[0 + 1]? = some 0xC0
        ∧ ex_frame_lora[0 + 2]? = some N
        ∧ ex_frame_lora[0 + 21 + N]? = some M
        ∧ 0 + (9 + N + 14 + 2 * M) ≤ 28
        ∧ ex_frame_lora[0 + (9 + N + 14 + 2 * M) - 1]?
            = some (((ex_frame_lora.drop 0).take (9 + N + 14 + 2 * M - 1)).sum % 256)
        ∧ ex_frame_lora[0 + 5]? = some modem
        ∧ ex_frame_lora[0 + 3]? = some chan
        ∧ ex_frame_lora[0 + 4]? = some b4
        ∧ modem ≤ 13
        ∧ (modem ≤ 12 → chan ≤ 9 ∧ 5 ≤ b4 / 16 ∧ b4 / 16 ≤ 12) :=
  ⟨by decide, C2_success_is_fully_validated ⟨ex_frame_lora, 28, 0⟩
    ⟨ex_frame_lora, 28, 28⟩ pkt0
    { metadata_of ex_frame_lora 0 { pkt0 with rxbytenb_modem := 3, num_ts_metrics_stored := 1 }
        with payload := [17, 34, 51] ++ List.replicate 252 0 }
    (by decide) rfl⟩

/-- C3: for every buffer state with cursor `c` below the logical length in
which the two cells at `c`, `c+1` are not the sync word (0xA5, 0xC0),
`rx_buffer_pop` returns an error and advances the cursor by exactly 1; the
contents and the logical length of the buffer, and the record, are unchanged. -/
theorem C3_sync_failure_advances_by_one (s : rx_buffer_t) (pkt : rx_packet_t) (b0 b1 : Nat)
    (hlt : s.buffer_index < s.buffer_size)
    (h0 : s.buffer[s.buffer_index]? = some b0)
    (h1 : s.buffer[s.buffer_index + 1]? = some b1)
    (h : ¬ (b0 = 0xA5 ∧ b1 = 0xC0)) :
    rx_buffer_pop s pkt
      = some (LGW_REG_ERROR,
          { buffer := s.buffer, buffer_size := s.buffer_size,
            buffer_index := s.buffer_index + 1 }, pkt) :=
  pop_sync_fail s pkt hlt h0 h1 h

theorem C3_sync_failure_advances_by_one_witness :
    rx_buffer_pop ⟨[0xA5, 0xC1, 7, 9], 4, 0⟩ pkt0
      = some (LGW_REG_ERROR,
          { buffer := [0xA5, 0xC1, 7, 9], buffer_size := 4, buffer_index := 0 + 1 }, pkt0) :=
  C3_sync_failure_advances_by_one ⟨[0xA5, 0xC1, 7, 9], 4, 0⟩ pkt0 0xA5 0xC1
    (by decide) (by decide) (by decide) (by decide)

/-- C4: for every well-formed frame `f` with payload length `N` placed at
cursor 0 and every cut point `k` with `9 + N ≤ k < f.length`, `rx_buffer_pop` on
the snapshot holding only the first `k` bytes (logical length `k`, whatever the
array holds beyond them) returns an error and leaves the buffer, cursor
included, unchanged; and `rx_buffer_pop` on the completed snapshot (logical
length `f.length`) succeeds, moves the cursor to the end of the frame and
returns the full record of the frame, every field of which is given here from
the bytes of `f`: the channel, the three bit fields of byte 4 and the modem id;
the frequency offset as the 20-bit two's complement value of bytes 6 to 8; the
payload, bytes `9 .. 9+N-1`, followed by the cells of the payload array that
the copy does not reach; the four flags of byte `9+N`; the SNR as the 8-bit
two's complement value of byte `10+N`; the two RSSI bytes; the timestamp from
bytes `15+N .. 18+N` and the payload CRC from bytes `19+N`, `20+N`, both little
endian; and the two length fields. -/
theorem C4_truncated_then_completed (f rest pad : List Nat) (k : Nat) (pkt pkt2 : rx_packet_t)
    (hwf : well_formed_frame f) (hk1 : 9 + frame_N f ≤ k) (hk2 : k < f.length)
    (hcap : f.length ≤ k + rest.length) :
    (∃ p, rx_buffer_pop ⟨f.take k ++ rest, k, 0⟩ pkt
        = some (LGW_REG_ERROR, ⟨f.take k ++ rest, k, 0⟩, p))
      ∧ rx_buffer_pop ⟨f ++ pad, f.length, 0⟩ pkt2
          = some (LGW_REG_SUCCESS, ⟨f ++ pad, f.length, f.length⟩,
              { rxbytenb_modem := frame_N f
                rx_channel_in := f.getD 3 0
                crc_en := f.getD 4 0 % 2
                coding_rate := f.getD 4 0 / 2 % 8
                rx_rate_sf := f.getD 4 0 / 16 % 16
                modem_id := f.getD 5 0
                frequency_offset_error :=
                  if freq_raw (f.getD 6 0) (f.getD 7 0) (f.getD 8 0) < 2 ^ 19
                  then (freq_raw (f.getD 6 0) (f.getD 7 0) (f.getD 8 0) : Int)
                  else (freq_raw (f.getD 6 0) (f.getD 7 0) (f.getD 8 0) : Int) - 2 ^ 20
                payload := frame_payload f ++ pkt2.payload.drop (frame_N f)
                payload_crc_error := f.getD (frame_N f + 9) 0 % 2
                sync_error := f.getD (frame_N f + 9) 0 / 4 % 2
                header_error := f.getD (frame_N f + 9) 0 / 8 % 2
                timing_set := f.getD (frame_N f + 9) 0 / 16 % 2
                snr_average :=
                  if f.getD (frame_N f + 10) 0 < 128
                  then (f.getD (frame_N f + 10) 0 : Int)
                  else (f.getD (frame_N f + 10) 0 : Int) - 256
                rssi_chan_avg := f.getD (frame_N f + 11) 0
                rssi_signal_avg := f.getD (frame_N f + 12) 0
                timestamp_cnt :=
                  f.getD (frame_N f + 15) 0 + 2 ^ 8 * f.getD (frame_N f + 16) 0
                    + 2 ^ 16 * f.getD (frame_N f + 17) 0
                    + 2 ^ 24 * f.getD (frame_N f + 18) 0
                rx_crc16_value :=
                  f.getD (frame_N f + 19) 0 + 256 * f.getD (frame_N f + 20) 0
                num_ts_metrics_stored := frame_M f }) := by
  have hL := frame_shape_len hwf.1
  have hb := hwf.1.1
  have hN : frame_N f < 256 := getD_byte hb 2
  constructor
  · have hB : (f.take k ++ rest).length = k + rest.length := by
      rw [List.length_append, List.length_take]; omega
    have h0 : (f.take k ++ rest)[0]? = some SX1302_PKT_SYNCWORD_BYTE_0 := by
      rw [read_take_append (by omega) (by omega), hwf.1.2.2.1]
    have h1 : (f.take k ++ rest)[0 + 1]? = some SX1302_PKT_SYNCWORD_BYTE_1 := by
      rw [read_take_append (by omega) (by omega), hwf.1.2.2.2]
    have h2 : (f.take k ++ rest)[0 + 2]? = some (frame_N f) :=
      read_take_append (by omega) (by omega)
    have hm := read_some
      (show 0 + TAKE_N_BITS_FROM (frame_N f) 0 8 + 21 < (f.take k ++ rest).length by
        rw [take_bits_byte _ hN]; omega)
    have hpop := pop_synced ⟨f.take k ++ rest, k, 0⟩ pkt (show 0 < k by omega) h0 h1 h2 hm
    rw [hpop]
    refine ⟨_, pop_frame_truncated _ _ (take_bits_lt _ 0 8) (take_bits_lt _ 0 8) ?_⟩
    show k < 0 + frame_len (TAKE_N_BITS_FROM (frame_N f) 0 8) (TAKE_N_BITS_FROM
      ((f.take k ++ rest).getD (0 + TAKE_N_BITS_FROM (frame_N f) 0 8 + 21) 0) 0 8)
    rw [take_bits_byte _ hN]
    simp only [frame_len, SX1302_PKT_HEAD_METADATA, SX1302_PKT_TAIL_METADATA]
    rcases Nat.lt_or_ge (frame_N f + 21) k with hlt | hge
    · have hread : (f.take k ++ rest)[0 + frame_N f + 21]? = some (frame_M f) := by
        rw [show 0 + frame_N f + 21 = frame_N f + 21 by omega]
        exact read_take_append hlt (by omega)
      have hM : frame_M f < 256 := getD_byte hb _
      rw [read_getD hread, take_bits_byte _ hM]
      omega
    · omega
  · have hat : frame_at (f ++ pad) 0 f := by
      have := frame_at_append [] f pad
      simpa using this
    have hpop := pop_on_frame ⟨f ++ pad, f.length, 0⟩ pkt2 hwf.1 hat (by simp)
    rw [if_neg (not_not.mpr hwf.2.1), if_neg (not_not.mpr hwf.2.2)] at hpop
    have hmeta := metadata_of_frame
      { pkt2 with rxbytenb_modem := frame_N f, num_ts_metrics_stored := frame_M f } hat
      (show frame_N f + 20 < f.length by omega)
    dsimp only at hpop hmeta
    rw [hpop, hmeta, metadata_of_bytes hb, Nat.zero_add]

theorem C4_truncated_then_completed_witness :
    (well_formed_frame ex_frame_lora ∧ 9 + frame_N ex_frame_lora ≤ 20
        ∧ 20 < ex_frame_lora.length)
      ∧ (∃ p, rx_buffer_pop ⟨ex_frame_lora.take 20 ++ [9, 9, 9, 9, 9, 9, 9, 9], 20, 0⟩ pkt0
          = some (LGW_REG_ERROR, ⟨ex_frame_lora.take 20 ++ [9, 9, 9, 9, 9, 9, 9, 9], 20, 0⟩, p))
      ∧ rx_buffer_pop ⟨ex_frame_lora ++ [], 28, 0⟩ pkt0
          = some (LGW_REG_SUCCESS, ⟨ex_frame_lora ++ [], 28, 28⟩,
              { rxbytenb_modem := 3, rx_channel_in := 2, crc_en := 1, coding_rate := 0,
                rx_rate_sf := 7, modem_id := 4, frequency_offset_error := 16,
                payload := [17, 34, 51] ++ List.replicate 252 0,
                payload_crc_error := 0, sync_error := 0, header_error := 0, timing_set := 1,
                snr_average := -10, rssi_chan_avg := 90, rssi_signal_avg := 91,
                timestamp_cnt := 305419896, rx_crc16_value := 43981,
                num_ts_metrics_stored := 1 }) :=
  ⟨by decide, C4_truncated_then_completed ex_frame_lora [9, 9, 9, 9, 9, 9, 9, 9] [] 20 pkt0 pkt0
    (by decide) (by decide) (by decide) (by decide)⟩

/-- C5 (as stated, refuted): the snapshot that holds exactly the 28 bytes of a
well-formed frame at cursor 0 has `c + total + 1 > logical length`, yet
`rx_buffer_pop` accepts the frame. -/
theorem C5_exact_fit_is_accepted :
    ex_frame_lora[0]? = some 0xA5 ∧ ex_frame_lora[1]? = some 0xC0
      ∧ ex_frame_lora[2]? = some 3 ∧ ex_frame_lora[21 + 3]? = some 1
      ∧ 0 + (9 + 3 + 14 + 2 * 1) + 1 > 28
      ∧ (rx_buffer_pop ⟨ex_frame_lora, 28, 0⟩ pkt0).map (fun r => (r.1, r.2.1.buffer_index))
          = some (LGW_REG_SUCCESS, 28) := by
  decide

/-- C5 (amended): for every buffer state whose cells at cursor `c` are the sync
word, with `N` the payload length field, `M` the metric count field and
`total = 9 + N + 14 + 2M`: if `c + total > logical length` then `rx_buffer_pop`
returns an error and leaves the buffer, cursor included, unchanged. -/
theorem C5_truncated_frame_rejected (s : rx_buffer_t) (pkt : rx_packet_t) (N M : Nat)
    (hb : bytes_ok s.buffer)
    (h0 : s.buffer[s.buffer_index]? = some 0xA5)
    (h1 : s.buffer[s.buffer_index + 1]? = some 0xC0)
    (h2 : s.buffer[s.buffer_index + 2]? = some N)
    (hm : s.buffer[s.buffer_index + 21 + N]? = some M)
    (hlen : s.buffer_index + (9 + N + 14 + 2 * M) > s.buffer_size) :
    ∃ p, rx_buffer_pop s pkt = some (LGW_REG_ERROR, s, p) := by
  rcases Nat.lt_or_ge s.buffer_index s.buffer_size with hlt | hge
  · have hN := take_bits_byte N (read_byte hb h2)
    have hM := take_bits_byte M (read_byte hb hm)
    have hm1 : s.buffer[s.buffer_index + TAKE_N_BITS_FROM N 0 8 + 21]? = some M := by
      rw [hN, show s.buffer_index + N + 21 = s.buffer_index + 21 + N by omega]; exact hm
    rw [pop_synced s pkt hlt h0 h1 h2 hm1]
    refine ⟨_, pop_frame_truncated s _ (take_bits_lt _ 0 8) (take_bits_lt _ 0 8) ?_⟩
    show s.buffer_size
      < s.buffer_index + frame_len (TAKE_N_BITS_FROM N 0 8) (TAKE_N_BITS_FROM M 0 8)
    rw [hN, hM]
    exact hlen
  · exact ⟨pkt, pop_no_data s pkt hge⟩

theorem C5_truncated_frame_rejected_witness :
    ∃ p, rx_buffer_pop ⟨ex_frame_lora, 27, 0⟩ pkt0
      = some (LGW_REG_ERROR, ⟨ex_frame_lora, 27, 0⟩, p) :=
  C5_truncated_frame_rejected ⟨ex_frame_lora, 27, 0⟩ pkt0 3 1 (by decide) (by decide)
    (by decide) (by decide) (by decide) (by decide)

/-- C6 (as stated, refuted): on the snapshot that holds exactly one well-formed
frame with `N = 3` and `M = 1` the call succeeds and leaves the cursor at
`28 = c + total`, not at `c + total + 1 = 29`. -/
theorem C6_cursor_not_past_total_plus_one :
    (rx_buffer_pop ⟨ex_frame_lora ++ ex_frame_fsk, 51, 0⟩ pkt0).map
        (fun r => (r.1, r.2.1.buffer_index, r.2.2.rxbytenb_modem, r.2.2.num_ts_metrics_stored))
      = some (LGW_REG_SUCCESS, 28, 3, 1)
      ∧ 28 ≠ 0 + (9 + 3 + 14 + 2 * 1) + 1 := by
  decide

/-- C6 (amended): whenever `rx_buffer_pop` accepts a frame at cursor `c`, the
cursor afterwards is `c + total` where `total = 9 + N + 14 + 2M`, `N` being the
decoded payload length and `M` the decoded count of timing metrics; `total`
counts the checksum byte. Contents and logical length are unchanged. -/
theorem C6_accept_advances_by_total (s s1 : rx_buffer_t) (pkt pkt1 : rx_packet_t)
    (h : rx_buffer_pop s pkt = some (LGW_REG_SUCCESS, s1, pkt1)) :
    s1.buffer_index
        = s.buffer_index + (9 + pkt1.rxbytenb_modem + 14 + 2 * pkt1.num_ts_metrics_stored)
      ∧ s1.buffer = s.buffer ∧ s1.buffer_size = s.buffer_size := by
  obtain ⟨b2, bm, _, _, _, _, _, _, _, _, _, hs1, hp1⟩ := pop_success_inv h
  subst hs1
  subst hp1
  exact ⟨rfl, rfl, rfl⟩

theorem C6_accept_advances_by_total_witness :
    (⟨ex_frame_lora, 28, 28⟩ : rx_buffer_t).buffer_index
        = (⟨ex_frame_lora, 28, 0⟩ : rx_buffer_t).buffer_index + (9 + 3 + 14 + 2 * 1)
      ∧ (⟨ex_frame_lora, 28, 28⟩ : rx_buffer_t).buffer
        = (⟨ex_frame_lora, 28, 0⟩ : rx_buffer_t).buffer
      ∧ (⟨ex_frame_lora, 28, 28⟩ : rx_buffer_t).buffer_size
        = (⟨ex_frame_lora, 28, 0⟩ : rx_buffer_t).buffer_size :=
  C6_accept_advances_by_total ⟨ex_frame_lora, 28, 0⟩ ⟨ex_frame_lora, 28, 28⟩ pkt0
    { metadata_of ex_frame_lora 0 { pkt0 with rxbytenb_modem := 3, num_ts_metrics_stored := 1 }
        with payload := [17, 34, 51] ++ List.replicate 252 0 }
    rfl

/-- C7 (as stated, refuted): a frame with a valid sync word that lies fully
within the logical length (one more frame follows it) and whose checksum byte
does not match: `rx_buffer_pop` returns an error and the cursor stays at 0; it
does not advance to `c + total + 1 = 29`, nor to `c + total = 28`. -/
theorem C7_checksum_mismatch_does_not_advance :
    frame_shape ex_frame_corrupt
      ∧ frame_at (ex_frame_corrupt ++ ex_frame_fsk) 0 ex_frame_corrupt
      ∧ 0 + (9 + 3 + 14 + 2 * 1) + 1 ≤ 51
      ∧ ¬ frame_checksum_ok ex_frame_corrupt
      ∧ (ex_frame_corrupt ++ ex_frame_fsk).getD 28 0
          ≠ byte_sum (ex_frame_corrupt ++ ex_frame_fsk) 0 28
      ∧ (rx_buffer_pop ⟨ex_frame_corrupt ++ ex_frame_fsk, 51, 0⟩ pkt0).map
          (fun r => (r.1, r.2.1.buffer_index)) = some (LGW_REG_ERROR, 0) := by
  decide

/-- C7 (amended): for every buffer state in which the frame at cursor `c` has a
valid sync word and consistent length fields, lies fully within the logical
length, and has a checksum byte that differs from the computed sum,
`rx_buffer_pop` returns an error and leaves the buffer, cursor included,
unchanged; only the two length fields of the record are written. -/
theorem C7_checksum_mismatch_keeps_cursor (s : rx_buffer_t) (pkt : rx_packet_t) (f : List Nat)
    (hsh : frame_shape f) (hat : frame_at s.buffer s.buffer_index f)
    (hsz : s.buffer_index + f.length ≤ s.buffer_size) (hck : ¬ frame_checksum_ok f) :
    rx_buffer_pop s pkt
      = some (LGW_REG_ERROR, s,
          { pkt with rxbytenb_modem := frame_N f, num_ts_metrics_stored := frame_M f }) := by
  rw [pop_on_frame s pkt hsh hat hsz, if_pos hck]

theorem C7_checksum_mismatch_keeps_cursor_witness :
    rx_buffer_pop ⟨ex_frame_corrupt ++ ex_frame_fsk, 51, 0⟩ pkt0
      = some (LGW_REG_ERROR, ⟨ex_frame_corrupt ++ ex_frame_fsk, 51, 0⟩,
          { pkt0 with rxbytenb_modem := frame_N ex_frame_corrupt,
                      num_ts_metrics_stored := frame_M ex_frame_corrupt }) :=
  C7_checksum_mismatch_keeps_cursor ⟨ex_frame_corrupt ++ ex_frame_fsk, 51, 0⟩ pkt0
    ex_frame_corrupt (by decide) (by decide) (by decide) (by decide)

/-- C8 (as stated, refuted): `ex_frame_short` is well formed; replacing its
payload length byte (offset 2, inside the checksum span) 1 by 0 and leaving the
checksum byte unchanged gives a snapshot that `rx_buffer_pop` accepts, as a
frame of 23 bytes with an empty payload. -/
theorem C8_length_byte_change_accepted :
    well_formed_frame ex_frame_short
      ∧ 2 < ex_frame_short.length - 1
      ∧ 0 ≠ ex_frame_short.getD 2 0
      ∧ (ex_frame_short.set 2 0).getD 23 0 = ex_frame_short.getD 23 0
      ∧ (rx_buffer_pop ⟨ex_frame_short.set 2 0, 24, 0⟩ pkt0).map
          (fun r => (r.1, r.2.1.buffer_index, r.2.2.rxbytenb_modem))
        = some (LGW_REG_SUCCESS, 23, 0) := by
  decide

/-- C8 (amended): for every well-formed frame in a snapshot, every byte
position `i` of its checksum span other than the payload length byte (offset 2)
and the metric count byte (offset `21 + N`), and every replacement byte
different from the original, `rx_buffer_pop` at the start of the modified frame
returns an error, never a record (at the sync check for `i < 2`, at the
checksum check otherwise). -/
theorem C8_single_byte_change_rejected (s : rx_buffer_t) (pkt : rx_packet_t) (f : List Nat)
    (i v : Nat) (hwf : well_formed_frame f)
    (hat : frame_at s.buffer s.buffer_index (f.set i v))
    (hsz : s.buffer_index + f.length ≤ s.buffer_size)
    (hi : i < f.length - 1) (hi2 : i ≠ 2) (him : i ≠ frame_N f + 21)
    (hv : v < 256) (hne : v ≠ f.getD i 0) :
    ∃ s1 p, rx_buffer_pop s pkt = some (LGW_REG_ERROR, s1, p) := by
  have hL := frame_shape_len hwf.1
  have hlen : (f.set i v).length = f.length := List.length_set f i v
  rcases Nat.lt_or_ge i 2 with hlt | hge
  · have r0 := frame_at_read hat (show 0 < (f.set i v).length by omega)
    have r1 := frame_at_read hat (show 1 < (f.set i v).length by omega)
    rw [Nat.add_zero] at r0
    refine ⟨_, _, pop_sync_fail s pkt (by omega) r0 r1 ?_⟩
    rintro ⟨e0, e1⟩
    rcases Nat.lt_or_ge i 1 with h0 | h1
    · have hi0 : i = 0 := by omega
      subst hi0
      rw [getD_set_eq f v (by omega)] at e0
      exact hne (by rw [e0, hwf.1.2.2.1])
    · have hi1 : i = 1 := by omega
      subst hi1
      rw [getD_set_eq f v (by omega)] at e1
      exact hne (by rw [e1, hwf.1.2.2.2])
  · obtain ⟨hsh1, hck1⟩ := set_breaks_checksum hwf.1 hwf.2.1 hi hge hi2 him hv hne
    have hpop := pop_on_frame s pkt hsh1 hat (by rw [hlen]; exact hsz)
    rw [if_pos hck1] at hpop
    exact ⟨_, _, hpop⟩

theorem C8_single_byte_change_rejected_witness :
    ∃ s1 p, rx_buffer_pop ⟨ex_frame_lora.set 10 35 ++ ex_frame_fsk, 51, 0⟩ pkt0
      = some (LGW_REG_ERROR, s1, p) :=
  C8_single_byte_change_rejected ⟨ex_frame_lora.set 10 35 ++ ex_frame_fsk, 51, 0⟩ pkt0
    ex_frame_lora 10 35 (by decide) (by decide) (by decide) (by decide) (by decide)
    (by decide) (by decide) (by decide)

/-- C9 (as stated, refuted): a frame that passes the sync, length and checksum
checks and has modem id 14, followed by another frame: `rx_buffer_pop` returns
an error and the cursor stays at 0; it does not advance past the frame. -/
theorem C9_sanity_failure_does_not_advance :
    frame_shape ex_frame_badmodem ∧ frame_checksum_ok ex_frame_badmodem
      ∧ ¬ frame_sane ex_frame_badmodem
      ∧ frame_at (ex_frame_badmodem ++ ex_frame_fsk) 0 ex_frame_badmodem
      ∧ 0 + ex_frame_badmodem.length + 1 ≤ 48
      ∧ (rx_buffer_pop ⟨ex_frame_badmodem ++ ex_frame_fsk, 48, 0⟩ pkt0).map
          (fun r => (r.1, r.2.1.buffer_index)) = some (LGW_REG_ERROR, 0) := by
  decide

/-- C9 (amended): for every frame at cursor `c` that passes the sync, length
and checksum checks but fails the sanity validation (modem id, channel or
spreading factor out of range), `rx_buffer_pop` returns an error and leaves the
buffer, cursor included, unchanged; the metadata fields of the record are
already written. -/
theorem C9_sanity_failure_keeps_cursor (s : rx_buffer_t) (pkt : rx_packet_t) (f : List Nat)
    (hsh : frame_shape f) (hat : frame_at s.buffer s.buffer_index f)
    (hsz : s.buffer_index + f.length ≤ s.buffer_size) (hck : frame_checksum_ok f)
    (hsn : ¬ frame_sane f) :
    rx_buffer_pop s pkt
      = some (LGW_REG_ERROR, s, metadata_of s.buffer s.buffer_index
          { pkt with rxbytenb_modem := frame_N f, num_ts_metrics_stored := frame_M f }) := by
  rw [pop_on_frame s pkt hsh hat hsz, if_neg (not_not.mpr hck), if_pos hsn]

theorem C9_sanity_failure_keeps_cursor_witness :
    rx_buffer_pop ⟨ex_frame_badmodem ++ ex_frame_fsk, 48, 0⟩ pkt0
      = some (LGW_REG_ERROR, ⟨ex_frame_badmodem ++ ex_frame_fsk, 48, 0⟩,
          metadata_of (ex_frame_badmodem ++ ex_frame_fsk) 0
            { pkt0 with rxbytenb_modem := frame_N ex_frame_badmodem,
                        num_ts_metrics_stored := frame_M ex_frame_badmodem }) :=
  C9_sanity_failure_keeps_cursor ⟨ex_frame_badmodem ++ ex_frame_fsk, 48, 0⟩ pkt0
    ex_frame_badmodem (by decide) (by decide) (by decide) (by decide) (by decide)

/-- C10: for every frame that passes the sync, length and checksum checks and
whose modem id byte (offset 5) is greater than the FSK modem id 13,
`rx_buffer_pop` returns an error, whatever the other bytes of the frame are. -/
theorem C10_modem_id_above_fsk_rejected (s : rx_buffer_t) (pkt : rx_packet_t) (f : List Nat)
    (hsh : frame_shape f) (hat : frame_at s.buffer s.buffer_index f)
    (hsz : s.buffer_index + f.length ≤ s.buffer_size) (hck : frame_checksum_ok f)
    (hid : f.getD 5 0 > SX1302_FSK_MODEM_ID) :
    ∃ s1 p, rx_buffer_pop s pkt = some (LGW_REG_ERROR, s1, p) := by
  have hsn : ¬ frame_sane f := fun h => Nat.lt_irrefl _ (Nat.lt_of_lt_of_le hid h.1)
  have hpop := pop_on_frame s pkt hsh hat hsz
  rw [if_neg (not_not.mpr hck), if_pos hsn] at hpop
  exact ⟨_, _, hpop⟩

theorem C10_modem_id_above_fsk_rejected_witness :
    ex_frame_badmodem.getD 5 0 > SX1302_FSK_MODEM_ID
      ∧ ∃ s1 p, rx_buffer_pop ⟨ex_frame_badmodem, 25, 0⟩ pkt0 = some (LGW_REG_ERROR, s1, p) :=
  ⟨by decide, C10_modem_id_above_fsk_rejected ⟨ex_frame_badmodem, 25, 0⟩ pkt0
    ex_frame_badmodem (by decide) (by decide) (by decide) (by decide) (by decide)⟩

/-- C11: for every frame that passes the sync, length and checksum checks,
with a modem id in the LoRa range (at most the LoRa standard id 12) and a
channel in range: if its 4-bit spreading factor field (high nibble of the cell
at offset 4) lies outside 5..12, as 4 and 13 do, `rx_buffer_pop` returns an
error; if it lies in 5..12, as 5 and 12 do, `rx_buffer_pop` accepts the frame. -/
theorem C11_spreading_factor_range (s : rx_buffer_t) (pkt : rx_packet_t) (f : List Nat)
    (hsh : frame_shape f) (hat : frame_at s.buffer s.buffer_index f)
    (hsz : s.buffer_index + f.length ≤ s.buffer_size) (hck : frame_checksum_ok f)
    (hid : f.getD 5 0 ≤ SX1302_LORA_STD_MODEM_ID) (hch : f.getD 3 0 ≤ 9) :
    ((f.getD 4 0 / 16 < 5 ∨ 12 < f.getD 4 0 / 16) →
        ∃ s1 p, rx_buffer_pop s pkt = some (LGW_REG_ERROR, s1, p))
      ∧ ((5 ≤ f.getD 4 0 / 16 ∧ f.getD 4 0 / 16 ≤ 12) →
        ∃ p, rx_buffer_pop s pkt
          = some (LGW_REG_SUCCESS, { s with buffer_index := s.buffer_index + f.length }, p)) := by
  have hpop := pop_on_frame s pkt hsh hat hsz
  rw [if_neg (not_not.mpr hck)] at hpop
  constructor
  · intro hsf
    have hsn : ¬ frame_sane f := by
      intro h
      have := h.2 hid
      omega
    rw [if_pos hsn] at hpop
    exact ⟨_, _, hpop⟩
  · intro hsf
    have hsn : frame_sane f := by
      refine ⟨?_, fun _ => ⟨hch, hsf.1, hsf.2⟩⟩
      simp only [SX1302_FSK_MODEM_ID, SX1302_LORA_STD_MODEM_ID] at hid ⊢
      omega
    rw [if_neg (not_not.mpr hsn)] at hpop
    exact ⟨_, hpop⟩

theorem C11_spreading_factor_range_witness :
    (ex_frame_lora.getD 4 0 / 16 = 7)
      ∧ ((ex_frame_lora.getD 4 0 / 16 < 5 ∨ 12 < ex_frame_lora.getD 4 0 / 16) →
          ∃ s1 p, rx_buffer_pop ⟨ex_frame_lora, 28, 0⟩ pkt0 = some (LGW_REG_ERROR, s1, p))
      ∧ ((5 ≤ ex_frame_lora.getD 4 0 / 16 ∧ ex_frame_lora.getD 4 0 / 16 ≤ 12) →
          ∃ p, rx_buffer_pop ⟨ex_frame_lora, 28, 0⟩ pkt0
            = some (LGW_REG_SUCCESS, ⟨ex_frame_lora, 28, 0 + ex_frame_lora.length⟩, p)) :=
  ⟨by decide, C11_spreading_factor_range ⟨ex_frame_lora, 28, 0⟩ pkt0 ex_frame_lora
    (by decide) (by decide) (by decide) (by decide) (by decide) (by decide)⟩

/-- C12: for every frame that passes the sync, length and checksum checks and
whose modem id equals the FSK modem id 13, `rx_buffer_pop` accepts the frame
whatever its channel byte and its data rate field are. -/
theorem C12_fsk_not_range_checked (s : rx_buffer_t) (pkt : rx_packet_t) (f : List Nat)
    (hsh : frame_shape f) (hat : frame_at s.buffer s.buffer_index f)
    (hsz : s.buffer_index + f.length ≤ s.buffer_size) (hck : frame_checksum_ok f)
    (hid : f.getD 5 0 = SX1302_FSK_MODEM_ID) :
    ∃ p, rx_buffer_pop s pkt
      = some (LGW_REG_SUCCESS, { s with buffer_index := s.buffer_index + f.length }, p) := by
  have hpop := pop_on_frame s pkt hsh hat hsz
  have hsn : frame_sane f := by
    refine ⟨Nat.le_of_eq hid, fun h => ?_⟩
    rw [hid] at h
    exact absurd h (by decide)
  rw [if_neg (not_not.mpr hck), if_neg (not_not.mpr hsn)] at hpop
  exact ⟨_, hpop⟩

theorem C12_fsk_not_range_checked_witness :
    (ex_frame_fsk.getD 3 0 = 200 ∧ ex_frame_fsk.getD 4 0 / 16 = 0)
      ∧ ∃ p, rx_buffer_pop ⟨ex_frame_fsk, 23, 0⟩ pkt0
          = some (LGW_REG_SUCCESS, ⟨ex_frame_fsk, 23, 0 + ex_frame_fsk.length⟩, p) :=
  ⟨by decide, C12_fsk_not_range_checked ⟨ex_frame_fsk, 23, 0⟩ pkt0 ex_frame_fsk
    (by decide) (by decide) (by decide) (by decide) (by decide)⟩

/-- C13: for every accepted frame at cursor `c` of a buffer of bytes, with
`raw` the 20-bit value `((buffer[c+8] & 0x0F) << 16) | (buffer[c+7] << 8) |
buffer[c+6]`, the decoded `frequency_offset_error` is `raw` when `raw < 2^19`
and `raw - 2^20` otherwise; it lies in `[-2^19, 2^19 - 1]` and is congruent to
`raw` modulo `2^20`. -/
theorem C13_frequency_offset_sign_extension (s s1 : rx_buffer_t) (pkt pkt1 : rx_packet_t)
    (hb : bytes_ok s.buffer)
    (h : rx_buffer_pop s pkt = some (LGW_REG_SUCCESS, s1, pkt1)) :
    ∃ b6 b7 b8,
      s.buffer[s.buffer_index + 6]? = some b6
      ∧ s.buffer[s.buffer_index + 7]? = some b7
      ∧ s.buffer[s.buffer_index + 8]? = some b8
      ∧ freq_raw b6 b7 b8 < 2 ^ 20
      ∧ pkt1.frequency_offset_error
          = (if freq_raw b6 b7 b8 < 2 ^ 19 then (freq_raw b6 b7 b8 : Int)
             else (freq_raw b6 b7 b8 : Int) - 2 ^ 20)
      ∧ -(2 ^ 19 : Int) ≤ pkt1.frequency_offset_error
      ∧ pkt1.frequency_offset_error ≤ 2 ^ 19 - 1
      ∧ pkt1.frequency_offset_error % 2 ^ 20 = (freq_raw b6 b7 b8 : Int) := by
  obtain ⟨N, M, _, _, _, _, _, hcap, hp1⟩ := pop_success_record hb h
  have r6 := read_some (show s.buffer_index + 6 < s.buffer.length by omega)
  have r7 := read_some (show s.buffer_index + 7 < s.buffer.length by omega)
  have r8 := read_some (show s.buffer_index + 8 < s.buffer.length by omega)
  have h6 := read_byte hb r6
  have h7 := read_byte hb r7
  have h8 := read_byte hb r8
  refine ⟨_, _, _, r6, r7, r8, ?_⟩
  have hfo : pkt1.frequency_offset_error
      = freq_offset_of (cell_bits s.buffer (s.buffer_index + 8) 0 4)
          (cell_bits s.buffer (s.buffer_index + 7) 0 8)
          (cell_bits s.buffer (s.buffer_index + 6) 0 8) := by
    rw [hp1]; rfl
  have e8 : cell_bits s.buffer (s.buffer_index + 8) 0 4
      = s.buffer.getD (s.buffer_index + 8) 0 % 16 := by
    simp only [cell_bits, TAKE_N_BITS_FROM, Nat.pow_zero, Nat.div_one]
    rfl
  rw [cell_bits_byte hb r7, cell_bits_byte hb r6, e8] at hfo
  have hraw : freq_raw (s.buffer.getD (s.buffer_index + 6) 0)
      (s.buffer.getD (s.buffer_index + 7) 0) (s.buffer.getD (s.buffer_index + 8) 0)
      = s.buffer.getD (s.buffer_index + 8) 0 % 16 * 65536
        + s.buffer.getD (s.buffer_index + 7) 0 * 256
        + s.buffer.getD (s.buffer_index + 6) 0 := by
    unfold freq_raw
    rw [and_0F _ h8]
    have := freq_raw_eq (a := s.buffer.getD (s.buffer_index + 8) 0 % 16) h7 h6
    rw [Nat.shiftLeft_zero] at this
    exact this
  have hmodel := freq_raw_eq (a := s.buffer.getD (s.buffer_index + 8) 0 % 16) h7 h6
  simp only [freq_offset_of, hmodel] at hfo
  rw [hraw, hfo]
  have hlt : s.buffer.getD (s.buffer_index + 8) 0 % 16 < 16 := Nat.mod_lt _ (by decide)
  have e19 : (1 <<< 19 : Nat) = 524288 := by decide
  have e20 : (1 <<< 20 : Nat) = 1048576 := by decide
  rw [e19, e20]
  have p19 : (2 : Nat) ^ 19 = 524288 := by decide
  have p20 : (2 : Nat) ^ 20 = 1048576 := by decide
  have q19 : (2 : Int) ^ 19 = 524288 := by decide
  have q20 : (2 : Int) ^ 20 = 1048576 := by decide
  rw [p19, p20, q19, q20]
  refine ⟨by omega, ?_⟩
  split <;> split <;> omega

theorem C13_frequency_offset_sign_extension_witness :
    ((rx_buffer_pop ⟨ex_frame_fsk, 23, 0⟩ pkt0).map (fun r => r.2.2.frequency_offset_error)
        = some (-524288)
      ∧ freq_raw 0 0 8 = 0x80000
      ∧ (rx_buffer_pop ⟨ex_frame_lora, 28, 0⟩ pkt0).map (fun r => r.2.2.frequency_offset_error)
        = some 16)
      ∧ ∃ b6 b7 b8,
        ex_frame_fsk[0 + 6]? = some b6
        ∧ ex_frame_fsk[0 + 7]? = some b7
        ∧ ex_frame_fsk[0 + 8]? = some b8
        ∧ freq_raw b6 b7 b8 < 2 ^ 20
        ∧ (metadata_of ex_frame_fsk 0 pkt0).frequency_offset_error
            = (if freq_raw b6 b7 b8 < 2 ^ 19 then (freq_raw b6 b7 b8 : Int)
               else (freq_raw b6 b7 b8 : Int) - 2 ^ 20)
        ∧ -(2 ^ 19 : Int) ≤ (metadata_of ex_frame_fsk 0 pkt0).frequency_offset_error
        ∧ (metadata_of ex_frame_fsk 0 pkt0).frequency_offset_error ≤ 2 ^ 19 - 1
        ∧ (metadata_of ex_frame_fsk 0 pkt0).frequency_offset_error % 2 ^ 20
            = (freq_raw b6 b7 b8 : Int) :=
  ⟨by decide, C13_frequency_offset_sign_extension ⟨ex_frame_fsk, 23, 0⟩ ⟨ex_frame_fsk, 23, 23⟩
    pkt0 { metadata_of ex_frame_fsk 0 pkt0 with payload := pkt0.payload } (by decide) rfl⟩

/-- C14: for every frame `f` at cursor `c` that passes the sync and length
checks, the two values compared at line 227 are the trailing byte of the frame
(read at line 219) and the sum modulo 256 of every byte of the frame before it,
from the first sync byte to the last timing metric byte (computed by the loop
of lines 222-224): they depend on the bytes of the frame only. When they differ
`rx_buffer_pop` returns the checksum error; when they agree it goes on to the
range checks and the acceptance. -/
theorem C14_checksum_is_sum_of_frame_bytes (s : rx_buffer_t) (pkt : rx_packet_t) (f : List Nat)
    (hsh : frame_shape f) (hat : frame_at s.buffer s.buffer_index f)
    (hsz : s.buffer_index + f.length ≤ s.buffer_size) :
    s.buffer[s.buffer_index + f.length - 1]? = some (f.getD (f.length - 1) 0)
      ∧ checksum_loop s.buffer s.buffer_index ((f.length + 65535) % 65536)
          = some ((f.take (f.length - 1)).sum % 256)
      ∧ (f.getD (f.length - 1) 0 ≠ (f.take (f.length - 1)).sum % 256 →
          rx_buffer_pop s pkt = some (LGW_REG_ERROR, s,
            { pkt with rxbytenb_modem := frame_N f, num_ts_metrics_stored := frame_M f }))
      ∧ (f.getD (f.length - 1) 0 = (f.take (f.length - 1)).sum % 256 →
          rx_buffer_pop s pkt =
            if ¬ frame_sane f then
              some (LGW_REG_ERROR, s, metadata_of s.buffer s.buffer_index
                { pkt with rxbytenb_modem := frame_N f, num_ts_metrics_stored := frame_M f })
            else
              some (LGW_REG_SUCCESS, { s with buffer_index := s.buffer_index + f.length },
                { metadata_of s.buffer s.buffer_index
                    { pkt with rxbytenb_modem := frame_N f,
                               num_ts_metrics_stored := frame_M f } with
                  payload := frame_payload f ++ pkt.payload.drop (frame_N f) })) := by
  have hL := frame_shape_len hsh
  have hN : frame_N f < 256 := getD_byte hsh.1 2
  have hM : frame_M f < 256 := getD_byte hsh.1 _
  have hcap := frame_at_cap hat (show 0 < f.length by omega)
  have hidx : (f.length + 65535) % 65536 = f.length - 1 := by omega
  have hpop := pop_on_frame s pkt hsh hat hsz
  refine ⟨?_, ?_, ?_, ?_⟩
  · rw [show s.buffer_index + f.length - 1 = s.buffer_index + (f.length - 1) by omega]
    exact frame_at_read hat (by omega)
  · rw [hidx, checksum_loop_eq_sum s.buffer s.buffer_index (f.length - 1) (by omega),
      frame_at_sum hat (by omega)]
  · intro hne
    rw [hpop, if_pos (show ¬ frame_checksum_ok f from hne)]
  · intro heq
    rw [hpop, if_neg (not_not.mpr (show frame_checksum_ok f from heq))]

theorem C14_checksum_is_sum_of_frame_bytes_witness :
    (frame_shape ex_frame_corrupt ∧ ¬ frame_checksum_ok ex_frame_corrupt)
      ∧ (ex_frame_corrupt ++ ex_frame_fsk)[0 + ex_frame_corrupt.length - 1]?
          = some (ex_frame_corrupt.getD (ex_frame_corrupt.length - 1) 0)
      ∧ checksum_loop (ex_frame_corrupt ++ ex_frame_fsk) 0
            ((ex_frame_corrupt.length + 65535) % 65536)
          = some ((ex_frame_corrupt.take (ex_frame_corrupt.length - 1)).sum % 256)
      ∧ (ex_frame_corrupt.getD (ex_frame_corrupt.length - 1) 0
            ≠ (ex_frame_corrupt.take (ex_frame_corrupt.length - 1)).sum % 256 →
          rx_buffer_pop ⟨ex_frame_corrupt ++ ex_frame_fsk, 51, 0⟩ pkt0
            = some (LGW_REG_ERROR, ⟨ex_frame_corrupt ++ ex_frame_fsk, 51, 0⟩,
                { pkt0 with rxbytenb_modem := frame_N ex_frame_corrupt,
                            num_ts_metrics_stored := frame_M ex_frame_corrupt }))
      ∧ (ex_frame_corrupt.getD (ex_frame_corrupt.length - 1) 0
            = (ex_frame_corrupt.take (ex_frame_corrupt.length - 1)).sum % 256 →
          rx_buffer_pop ⟨ex_frame_corrupt ++ ex_frame_fsk, 51, 0⟩ pkt0 =
            if ¬ frame_sane ex_frame_corrupt then
              some (LGW_REG_ERROR, ⟨ex_frame_corrupt ++ ex_frame_fsk, 51, 0⟩,
                metadata_of (ex_frame_corrupt ++ ex_frame_fsk) 0
                  { pkt0 with rxbytenb_modem := frame_N ex_frame_corrupt,
                              num_ts_metrics_stored := frame_M ex_frame_corrupt })
            else
              some (LGW_REG_SUCCESS,
                ⟨ex_frame_corrupt ++ ex_frame_fsk, 51, 0 + ex_frame_corrupt.length⟩,
                { metadata_of (ex_frame_corrupt ++ ex_frame_fsk) 0
                    { pkt0 with rxbytenb_modem := frame_N ex_frame_corrupt,
                                num_ts_metrics_stored := frame_M ex_frame_corrupt } with
                  payload := frame_payload ex_frame_corrupt
                    ++ pkt0.payload.drop (frame_N ex_frame_corrupt) })) :=
  ⟨by decide, C14_checksum_is_sum_of_frame_bytes ⟨ex_frame_corrupt ++ ex_frame_fsk, 51, 0⟩ pkt0
    ex_frame_corrupt (by decide) (by decide) (by decide)⟩

/-- C15: for every accepted frame at cursor `c` of a buffer of bytes, with `N`
the cell `c+2`, the record has `rxbytenb_modem = N` and its payload cells
`0 .. N-1` are, byte for byte, the cells `c+9 .. c+9+N-1` of the buffer; the
cells of the payload array from `N` on keep their content, so for `N = 0` no
payload byte is written. -/
theorem C15_payload_copied_verbatim (s s1 : rx_buffer_t) (pkt pkt1 : rx_packet_t)
    (hb : bytes_ok s.buffer)
    (h : rx_buffer_pop s pkt = some (LGW_REG_SUCCESS, s1, pkt1)) :
    ∃ N,
      s.buffer[s.buffer_index + 2]? = some N
      ∧ pkt1.rxbytenb_modem = N
      ∧ (∀ i, i < N → ∃ b, s.buffer[s.buffer_index + 9 + i]? = some b
            ∧ pkt1.payload[i]? = some b)
      ∧ pkt1.payload.drop N = pkt.payload.drop N
      ∧ (N = 0 → pkt1.payload = pkt.payload) := by
  obtain ⟨N, M, h2, _, _, _, _, hcap, hp1⟩ := pop_success_record hb h
  have hpay : pkt1.payload
      = (s.buffer.drop (s.buffer_index + 9)).take N ++ pkt.payload.drop N := by
    rw [hp1]; rfl
  have hlen : ((s.buffer.drop (s.buffer_index + 9)).take N).length = N := by
    rw [List.length_take, List.length_drop]; omega
  refine ⟨N, h2, by rw [hp1]; rfl, ?_, ?_, ?_⟩
  · intro i hi
    refine ⟨_, read_some (show s.buffer_index + 9 + i < s.buffer.length by omega), ?_⟩
    rw [hpay, List.getElem?_append_left (by rw [hlen]; exact hi),
      List.getElem?_take_of_lt hi, List.getElem?_drop]
    exact read_some (by omega)
  · rw [hpay, List.drop_left' hlen]
  · intro h0
    rw [hpay, h0]
    simp

theorem C15_payload_copied_verbatim_witness :
    (rx_buffer_pop ⟨ex_frame_lora, 28, 0⟩ pkt0).map (fun r => r.2.2.payload.take 4)
        = some [17, 34, 51, 0]
      ∧ ∃ N,
        ex_frame_lora[0 + 2]? = some N
        ∧ 3 = N
        ∧ (∀ i, i < N → ∃ b, ex_frame_lora[0 + 9 + i]? = some b
              ∧ ([17, 34, 51] ++ List.replicate 252 0)[i]? = some b)
        ∧ ([17, 34, 51] ++ List.replicate 252 0).drop N = pkt0.payload.drop N
        ∧ (N = 0 → [17, 34, 51] ++ List.replicate 252 0 = pkt0.payload) :=
  ⟨by decide, C15_payload_copied_verbatim ⟨ex_frame_lora, 28, 0⟩ ⟨ex_frame_lora, 28, 28⟩ pkt0
    { metadata_of ex_frame_lora 0 { pkt0 with rxbytenb_modem := 3, num_ts_metrics_stored := 1 }
        with payload := [17, 34, 51] ++ List.replicate 252 0 }
    (by decide) rfl⟩

/-- C16: for every accepted frame of a buffer of bytes, with payload length
`N`, the decoded `timestamp_cnt` is the 32-bit little-endian value of the four
cells `b0 .. b3` at offsets `c+15+N .. c+18+N`, that is
`b0 + 2^8*b1 + 2^16*b2 + 2^24*b3`, an unsigned value below `2^32`, also when
`b3 ≥ 128`. -/
theorem C16_timestamp_little_endian (s s1 : rx_buffer_t) (pkt pkt1 : rx_packet_t)
    (hb : bytes_ok s.buffer)
    (h : rx_buffer_pop s pkt = some (LGW_REG_SUCCESS, s1, pkt1)) :
    ∃ N b0 b1 b2 b3,
      s.buffer[s.buffer_index + 2]? = some N
      ∧ s.buffer[s.buffer_index + 15 + N]? = some b0
      ∧ s.buffer[s.buffer_index + 16 + N]? = some b1
      ∧ s.buffer[s.buffer_index + 17 + N]? = some b2
      ∧ s.buffer[s.buffer_index + 18 + N]? = some b3
      ∧ pkt1.timestamp_cnt = b0 + 2 ^ 8 * b1 + 2 ^ 16 * b2 + 2 ^ 24 * b3
      ∧ pkt1.timestamp_cnt < 2 ^ 32 := by
  obtain ⟨N, M, h2, _, _, _, _, hcap, hp1⟩ := pop_success_record hb h
  have r0 := read_some (show s.buffer_index + N + 15 < s.buffer.length by omega)
  have r1 := read_some (show s.buffer_index + N + 16 < s.buffer.length by omega)
  have r2 := read_some (show s.buffer_index + N + 17 < s.buffer.length by omega)
  have r3 := read_some (show s.buffer_index + N + 18 < s.buffer.length by omega)
  have hts : pkt1.timestamp_cnt
      = timestamp_of (cell_bits s.buffer (s.buffer_index + N + 15) 0 8)
          (cell_bits s.buffer (s.buffer_index + N + 16) 0 8)
          (cell_bits s.buffer (s.buffer_index + N + 17) 0 8)
          (cell_bits s.buffer (s.buffer_index + N + 18) 0 8) := by
    rw [hp1]; rfl
  rw [cell_bits_byte hb r0, cell_bits_byte hb r1, cell_bits_byte hb r2, cell_bits_byte hb r3,
    timestamp_of_bytes (read_byte hb r0) (read_byte hb r1) (read_byte hb r2)
      (read_byte hb r3)] at hts
  have q0 := read_byte hb r0
  have q1 := read_byte hb r1
  have q2 := read_byte hb r2
  have q3 := read_byte hb r3
  refine ⟨N, _, _, _, _, h2, ?_, ?_, ?_, ?_, hts, ?_⟩
  · rw [show s.buffer_index + 15 + N = s.buffer_index + N + 15 by omega]; exact r0
  · rw [show s.buffer_index + 16 + N = s.buffer_index + N + 16 by omega]; exact r1
  · rw [show s.buffer_index + 17 + N = s.buffer_index + N + 17 by omega]; exact r2
  · rw [show s.buffer_index + 18 + N = s.buffer_index + N + 18 by omega]; exact r3
  · rw [hts]
    have p8 : (2 : Nat) ^ 8 = 256 := by decide
    have p16 : (2 : Nat) ^ 16 = 65536 := by decide
    have p24 : (2 : Nat) ^ 24 = 16777216 := by decide
    have p32 : (2 : Nat) ^ 32 = 4294967296 := by decide
    rw [p8, p16, p24, p32]
    omega

theorem C16_timestamp_little_endian_witness :
    (rx_buffer_pop ⟨ex_frame_fsk, 23, 0⟩ pkt0).map (fun r => r.2.2.timestamp_cnt)
        = some (1 + 2 ^ 8 * 2 + 2 ^ 16 * 3 + 2 ^ 24 * 132)
      ∧ ∃ N b0 b1 b2 b3,
        ex_frame_fsk[0 + 2]? = some N
        ∧ ex_frame_fsk[0 + 15 + N]? = some b0
        ∧ ex_frame_fsk[0 + 16 + N]? = some b1
        ∧ ex_frame_fsk[0 + 17 + N]? = some b2
        ∧ ex_frame_fsk[0 + 18 + N]? = some b3
        ∧ (metadata_of ex_frame_fsk 0 pkt0).timestamp_cnt
            = b0 + 2 ^ 8 * b1 + 2 ^ 16 * b2 + 2 ^ 24 * b3
        ∧ (metadata_of ex_frame_fsk 0 pkt0).timestamp_cnt < 2 ^ 32 :=
  ⟨by decide, C16_timestamp_little_endian ⟨ex_frame_fsk, 23, 0⟩ ⟨ex_frame_fsk, 23, 23⟩
    pkt0 { metadata_of ex_frame_fsk 0 pkt0 with payload := pkt0.payload } (by decide) rfl⟩

/-- C17: for every accepted frame of a buffer of bytes, with payload length
`N`, the decoded `snr_average` is the 8-bit two's complement reading of the
cell `b` at offset `c+10+N`: `b` when `b < 128`, `b - 256` otherwise; it lies in
`[-128, 127]`. -/
theorem C17_snr_twos_complement (s s1 : rx_buffer_t) (pkt pkt1 : rx_packet_t)
    (hb : bytes_ok s.buffer)
    (h : rx_buffer_pop s pkt = some (LGW_REG_SUCCESS, s1, pkt1)) :
    ∃ N b,
      s.buffer[s.buffer_index + 2]? = some N
      ∧ s.buffer[s.buffer_index + 10 + N]? = some b
      ∧ pkt1.snr_average = (if b < 128 then (b : Int) else (b : Int) - 256)
      ∧ -128 ≤ pkt1.snr_average ∧ pkt1.snr_average ≤ 127 := by
  obtain ⟨N, M, h2, _, _, _, _, hcap, hp1⟩ := pop_success_record hb h
  have r := read_some (show s.buffer_index + N + 10 < s.buffer.length by omega)
  have q := read_byte hb r
  have hsnr : pkt1.snr_average
      = to_int8 (cell_bits s.buffer (s.buffer_index + N + 10) 0 8) := by
    rw [hp1]; rfl
  rw [cell_bits_byte hb r] at hsnr
  refine ⟨N, s.buffer.getD (s.buffer_index + N + 10) 0, h2, ?_, ?_⟩
  · rw [show s.buffer_index + 10 + N = s.buffer_index + N + 10 by omega]; exact r
  · rw [hsnr]
    unfold to_int8
    rw [Nat.mod_eq_of_lt q]
    split <;> split <;> omega

theorem C17_snr_twos_complement_witness :
    (rx_buffer_pop ⟨ex_frame_lora, 28, 0⟩ pkt0).map (fun r => r.2.2.snr_average)
        = some (-10)
      ∧ ∃ (N b : Nat),
        ex_frame_lora[0 + 2]? = some N
        ∧ ex_frame_lora[0 + 10 + N]? = some b
        ∧ (metadata_of ex_frame_lora 0
              { pkt0 with rxbytenb_modem := 3, num_ts_metrics_stored := 1 }).snr_average
            = (if b < 128 then (b : Int) else (b : Int) - 256)
        ∧ -128 ≤ (metadata_of ex_frame_lora 0
              { pkt0 with rxbytenb_modem := 3, num_ts_metrics_stored := 1 }).snr_average
        ∧ (metadata_of ex_frame_lora 0
              { pkt0 with rxbytenb_modem := 3, num_ts_metrics_stored := 1 }).snr_average ≤ 127 :=
  ⟨by decide, C17_snr_twos_complement ⟨ex_frame_lora, 28, 0⟩ ⟨ex_frame_lora, 28, 28⟩ pkt0
    { metadata_of ex_frame_lora 0 { pkt0 with rxbytenb_modem := 3, num_ts_metrics_stored := 1 }
        with payload := [17, 34, 51] ++ List.replicate 252 0 }
    (by decide) rfl⟩

/-- C18: for every buffer state, `rx_buffer_new` succeeds and leaves every
cell of the array equal to 0 (the array keeps its capacity), the logical length
equal to 0 and the cursor equal to 0; a following `rx_buffer_pop` returns an
error, and leaves the buffer and the record as they are. -/
theorem C18_new_resets_buffer (s : rx_buffer_t) (pkt : rx_packet_t) :
    (rx_buffer_new s).1 = LGW_REG_SUCCESS
      ∧ (rx_buffer_new s).2.buffer.length = s.buffer.length
      ∧ (∀ b ∈ (rx_buffer_new s).2.buffer, b = 0)
      ∧ (rx_buffer_new s).2.buffer_size = 0
      ∧ (rx_buffer_new s).2.buffer_index = 0
      ∧ rx_buffer_pop (rx_buffer_new s).2 pkt
          = some (LGW_REG_ERROR, (rx_buffer_new s).2, pkt) := by
  refine ⟨rfl, ?_, ?_, rfl, rfl, ?_⟩
  · simp [rx_buffer_new]
  · intro b hb
    simp only [rx_buffer_new] at hb
    exact (List.mem_replicate.mp hb).2
  · exact pop_no_data _ pkt (Nat.le_refl 0)

/-- C20 (as stated, refuted): from a state whose array holds a frame, a
successful fetch that reports a count of 0 returns success with logical length
0 and cursor 0 and leaves the array as it was: its contents are not replaced and
its cells are not zero. -/
theorem C20_empty_fetch_keeps_contents :
    rx_buffer_fetch ⟨ex_frame_lora, 28, 28⟩ ⟨0, 0, LGW_REG_SUCCESS, []⟩
        = some (LGW_REG_SUCCESS, ⟨ex_frame_lora, 0, 0⟩)
      ∧ ex_frame_lora[0]? = some 165 := by
  decide

/-- C20 (amended): for every prior buffer state and every successful transport
result whose reported count `256*msb + lsb` does not exceed the capacity of the
array, `rx_buffer_fetch` returns success with that logical length and cursor 0.
When the count is positive the contents are replaced by the fetched bytes, all
other cells being zero; when the count is 0 the contents are left as they
were. -/
theorem C20_successful_fetch_installs_snapshot (s : rx_buffer_t) (t : transport_t)
    (h0 : t.nb_bytes_msb < 256) (h1 : t.nb_bytes_lsb < 256)
    (hcap : 256 * t.nb_bytes_msb + t.nb_bytes_lsb ≤ s.buffer.length)
    (hok : t.mem_res = LGW_REG_SUCCESS) :
    ∃ s1, rx_buffer_fetch s t = some (LGW_REG_SUCCESS, s1)
      ∧ s1.buffer_size = 256 * t.nb_bytes_msb + t.nb_bytes_lsb
      ∧ s1.buffer_index = 0
      ∧ s1.buffer.length = s.buffer.length
      ∧ (0 < 256 * t.nb_bytes_msb + t.nb_bytes_lsb → ∀ i, i < s.buffer.length →
          s1.buffer[i]? = some (if i < 256 * t.nb_bytes_msb + t.nb_bytes_lsb
            then t.mem_data.getD i 0 else 0))
      ∧ (256 * t.nb_bytes_msb + t.nb_bytes_lsb = 0 → s1.buffer = s.buffer) := by
  have hsz := fetch_size_bytes h0 h1
  rcases Nat.eq_zero_or_pos (256 * t.nb_bytes_msb + t.nb_bytes_lsb) with hz | hpos
  · refine ⟨⟨s.buffer, fetch_size t.nb_bytes_msb t.nb_bytes_lsb, 0⟩, ?_, hsz, rfl, rfl, ?_,
      fun _ => rfl⟩
    · simp only [rx_buffer_fetch, hsz]
      rw [if_neg (by omega)]
    · intro h; omega
  · refine ⟨⟨mem_rb_into (List.replicate s.buffer.length 0) t.mem_data
        (fetch_size t.nb_bytes_msb t.nb_bytes_lsb), fetch_size t.nb_bytes_msb t.nb_bytes_lsb,
        0⟩, ?_, hsz, rfl, ?_, ?_, ?_⟩
    · simp only [rx_buffer_fetch, hsz]
      rw [if_pos hpos, if_neg (by omega), if_neg (not_not.mpr hok)]
    · simp [mem_rb_into_length]
    · intro _ i hlt
      show (mem_rb_into (List.replicate s.buffer.length 0) t.mem_data
        (fetch_size t.nb_bytes_msb t.nb_bytes_lsb))[i]? = _
      rw [mem_rb_into_zeroed _ _ _ _ hlt, hsz]
    · intro h; omega

theorem C20_successful_fetch_installs_snapshot_witness :
    (rx_buffer_fetch ⟨List.replicate 30 7, 9, 4⟩ ⟨0, 23, LGW_REG_SUCCESS, ex_frame_fsk⟩
        = some (LGW_REG_SUCCESS, ⟨ex_frame_fsk ++ List.replicate 7 0, 23, 0⟩))
      ∧ ∃ s1, rx_buffer_fetch ⟨List.replicate 30 7, 9, 4⟩
            ⟨0, 23, LGW_REG_SUCCESS, ex_frame_fsk⟩ = some (LGW_REG_SUCCESS, s1)
        ∧ s1.buffer_size = 256 * 0 + 23
        ∧ s1.buffer_index = 0
        ∧ s1.buffer.length = (List.replicate 30 7).length
        ∧ (0 < 256 * 0 + 23 → ∀ i, i < (List.replicate 30 7).length →
            s1.buffer[i]? = some (if i < 256 * 0 + 23 then ex_frame_fsk.getD i 0 else 0))
        ∧ (256 * 0 + 23 = 0 → s1.buffer = List.replicate 30 7) :=
  ⟨by decide, C20_successful_fetch_installs_snapshot ⟨List.replicate 30 7, 9, 4⟩
    ⟨0, 23, LGW_REG_SUCCESS, ex_frame_fsk⟩ (by decide) (by decide) (by decide) (by decide)⟩

/-! ## Every outcome of rx_buffer_pop -/

theorem metadata_of_payload (buffer : List Nat) (idx : Nat) (pkt : rx_packet_t) :
    (metadata_of buffer idx pkt).payload = pkt.payload := rfl

/-- The three kinds of result of a call: an error that leaves the buffer as it
is, the sync error that moves the cursor by one, and the acceptance. -/
theorem pop_outcome {s s1 : rx_buffer_t} {pkt pkt1 : rx_packet_t} {r : Int}
    (h : rx_buffer_pop s pkt = some (r, s1, pkt1)) :
    (r = LGW_REG_ERROR ∧ s1 = s ∧ pkt1.payload = pkt.payload)
      ∨ (r = LGW_REG_ERROR ∧ s.buffer_index < s.buffer_size
          ∧ s1 = { s with buffer_index := s.buffer_index + 1 } ∧ pkt1 = pkt)
      ∨ (r = LGW_REG_SUCCESS ∧ ∃ N M, N < 256 ∧ M < 256
          ∧ s.buffer_index + frame_len N M ≤ s.buffer_size
          ∧ s1 = { s with buffer_index := s.buffer_index + frame_len N M }) := by
  unfold rx_buffer_pop at h
  by_cases hge : s.buffer_index ≥ s.buffer_size
  · rw [if_pos hge] at h
    injection h with h
    injection h with hr h
    injection h with hs hp
    exact Or.inl ⟨hr.symm, hs.symm, by rw [← hp]⟩
  · rw [if_neg hge] at h
    cases hs : syncword_missing s.buffer s.buffer_index with
    | none => rw [hs] at h; cases h
    | some v =>
      cases v with
      | true =>
        rw [hs] at h
        injection h with h
        injection h with hr h
        injection h with hs1 hp
        exact Or.inr (Or.inl ⟨hr.symm, Nat.lt_of_not_le hge, hs1.symm, hp.symm⟩)
      | false =>
        rw [hs] at h
        cases hl : parse_lengths s.buffer s.buffer_index pkt with
        | none => rw [hl] at h; cases h
        | some p =>
          rw [hl] at h
          obtain ⟨b2, bm, h2, hm, hp⟩ := parse_lengths_inv hl
          subst hp
          have hN : TAKE_N_BITS_FROM b2 0 8 < 256 := take_bits_lt b2 0 8
          have hM : TAKE_N_BITS_FROM bm 0 8 < 256 := take_bits_lt bm 0 8
          simp only at h
          rcases Nat.lt_or_ge s.buffer_size (s.buffer_index
              + frame_len (TAKE_N_BITS_FROM b2 0 8) (TAKE_N_BITS_FROM bm 0 8)) with hlt | hle
          · rw [pop_frame_truncated s _ hN hM hlt] at h
            injection h with h
            injection h with hr h
            injection h with hs1 hp
            exact Or.inl ⟨hr.symm, hs1.symm, by rw [← hp]⟩
          · have hcap := pop_frame_cap (s := s) hN hM hle h
            rw [pop_frame_complete s _ hN hM hle hcap] at h
            split at h
            · injection h with h
              injection h with hr h
              injection h with hs1 hp
              exact Or.inl ⟨hr.symm, hs1.symm, by rw [← hp]⟩
            · split at h
              · injection h with h
                injection h with hr h
                injection h with hs1 hp
                exact Or.inl ⟨hr.symm, hs1.symm, by rw [← hp]; rfl⟩
              · injection h with h
                injection h with hr h
                injection h with hs1 hp
                exact Or.inr (Or.inr ⟨hr.symm, _, _, hN, hM, hle, hs1.symm⟩)

theorem pop_all_no_sync (buffer : List Nat) (n : Nat) (pkt : rx_packet_t)
    (hns : ∀ i, i < n → ∃ b0, buffer[i]? = some b0
      ∧ (b0 ≠ SX1302_PKT_SYNCWORD_BYTE_0
          ∨ ∃ b1, buffer[i + 1]? = some b1 ∧ b1 ≠ SX1302_PKT_SYNCWORD_BYTE_1)) :
    ∀ (k c fuel : Nat), c + k = n → k ≤ fuel →
      pop_all fuel ⟨buffer, n, c⟩ pkt
        = some (List.replicate k (LGW_REG_ERROR, pkt), ⟨buffer, n, n⟩) := by
  intro k
  induction k with
  | zero =>
    intro c fuel hc _
    have hcn : c = n := by omega
    subst hcn
    cases fuel with
    | zero => simp [pop_all]
    | succ m => simp [pop_all]
  | succ k ih =>
    intro c fuel hc hfuel
    cases fuel with
    | zero => omega
    | succ m =>
      have hlt : c < n := by omega
      obtain ⟨b0, h0, hb⟩ := hns c hlt
      have hsync : syncword_missing buffer c = some true := by
        unfold syncword_missing
        rw [h0]
        rcases hb with hb | ⟨b1, h1, hb1⟩
        · simp [hb]
        · by_cases hb0 : b0 = SX1302_PKT_SYNCWORD_BYTE_0
          · simp [hb0, h1, hb1]
          · simp [hb0]
      have hpop : rx_buffer_pop ⟨buffer, n, c⟩ pkt
          = some (LGW_REG_ERROR, ⟨buffer, n, c + 1⟩, pkt) := by
        simp [rx_buffer_pop, Nat.not_le.mpr hlt, hsync]
      have hrec := ih (c + 1) m (by omega) (by omega)
      simp only [pop_all, if_pos hlt, hpop, hrec, List.replicate_succ]

/-- C21: for every snapshot of logical length `n` that holds no sync word (at
no index `i < n` are the cells `i`, `i+1` the bytes 0xA5, 0xC0), calling
`rx_buffer_pop` while cursor < `n` makes exactly `n` calls, every call returns
an error and leaves the record as it is, and the cursor ends equal to `n`; any
number of calls allowed beyond `n` gives the same result. For `n = 0` the first
call returns an error with the state unchanged. After a reset, by
`rx_buffer_del` or `rx_buffer_new`, logical length and cursor are 0. -/
theorem C21_no_sync_snapshot_drains (buffer : List Nat) (n fuel : Nat) (pkt : rx_packet_t)
    (hns : ∀ i, i < n → ∃ b0, buffer[i]? = some b0
      ∧ (b0 ≠ 0xA5 ∨ ∃ b1, buffer[i + 1]? = some b1 ∧ b1 ≠ 0xC0))
    (hfuel : n ≤ fuel) :
    pop_all fuel ⟨buffer, n, 0⟩ pkt
        = some (List.replicate n (LGW_REG_ERROR, pkt), ⟨buffer, n, n⟩)
      ∧ (n = 0 → rx_buffer_pop ⟨buffer, n, 0⟩ pkt = some (LGW_REG_ERROR, ⟨buffer, n, 0⟩, pkt))
      ∧ rx_buffer_del ⟨buffer, n, n⟩ = (LGW_REG_SUCCESS, ⟨buffer, 0, 0⟩)
      ∧ (rx_buffer_new ⟨buffer, n, n⟩).2.buffer_size = 0
      ∧ (rx_buffer_new ⟨buffer, n, n⟩).2.buffer_index = 0 := by
  refine ⟨pop_all_no_sync buffer n pkt hns n 0 fuel (by omega) hfuel, ?_, rfl, rfl, rfl⟩
  intro h0
  exact pop_no_data ⟨buffer, n, 0⟩ pkt (by simp [h0])

theorem C21_no_sync_snapshot_drains_witness :
    pop_all 9 ⟨[0xC0, 0xA5, 0xA5, 7, 0], 4, 0⟩ pkt0
        = some (List.replicate 4 (LGW_REG_ERROR, pkt0), ⟨[0xC0, 0xA5, 0xA5, 7, 0], 4, 4⟩)
      ∧ (4 = 0 → rx_buffer_pop ⟨[0xC0, 0xA5, 0xA5, 7, 0], 4, 0⟩ pkt0
          = some (LGW_REG_ERROR, ⟨[0xC0, 0xA5, 0xA5, 7, 0], 4, 0⟩, pkt0))
      ∧ rx_buffer_del ⟨[0xC0, 0xA5, 0xA5, 7, 0], 4, 4⟩
          = (LGW_REG_SUCCESS, ⟨[0xC0, 0xA5, 0xA5, 7, 0], 0, 0⟩)
      ∧ (rx_buffer_new ⟨[0xC0, 0xA5, 0xA5, 7, 0], 4, 4⟩).2.buffer_size = 0
      ∧ (rx_buffer_new ⟨[0xC0, 0xA5, 0xA5, 7, 0], 4, 4⟩).2.buffer_index = 0 :=
  C21_no_sync_snapshot_drains [0xC0, 0xA5, 0xA5, 7, 0] 4 9 pkt0
    (by
      intro i hi
      have hcases : i = 0 ∨ i = 1 ∨ i = 2 ∨ i = 3 := by omega
      rcases hcases with h | h | h | h
      · subst h; exact ⟨0xC0, rfl, Or.inl (by decide)⟩
      · subst h; exact ⟨0xA5, rfl, Or.inr ⟨0xA5, rfl, by decide⟩⟩
      · subst h; exact ⟨0xA5, rfl, Or.inr ⟨7, rfl, by decide⟩⟩
      · subst h; exact ⟨7, rfl, Or.inl (by decide)⟩)
    (by decide)

/-- C25: for every buffer state with cursor at or beyond the logical length,
`rx_buffer_pop` returns an error and changes neither the cursor, the logical
length, the contents of the array nor any field of the record. -/
theorem C25_exhausted_buffer_is_left_alone (s : rx_buffer_t) (pkt : rx_packet_t)
    (h : s.buffer_index ≥ s.buffer_size) :
    rx_buffer_pop s pkt = some (LGW_REG_ERROR, s, pkt) :=
  pop_no_data s pkt h

theorem C25_exhausted_buffer_is_left_alone_witness :
    rx_buffer_pop ⟨ex_frame_lora, 28, 28⟩ pkt0 = some (LGW_REG_ERROR, ⟨ex_frame_lora, 28, 28⟩, pkt0) :=
  C25_exhausted_buffer_is_left_alone ⟨ex_frame_lora, 28, 28⟩ pkt0 (by decide)

/-! ## Reads and the logical length -/

theorem mem_metadata_reads {idx n i : Nat} (h : i ∈ metadata_reads idx n) :
    idx + 3 ≤ i ∧ i ≤ idx + n + 20 := by
  simp only [metadata_reads, List.mem_cons, List.mem_singleton, List.not_mem_nil,
    or_false] at h
  omega

theorem mem_frame_reads {s : rx_buffer_t} {pkt : rx_packet_t} {n m i : Nat}
    (hn : n < 256) (hm : m < 256) (h : i ∈ frame_reads s pkt n m) :
    s.buffer_index ≤ i ∧ i < s.buffer_index + frame_len n m
      ∧ s.buffer_index + frame_len n m ≤ s.buffer_size := by
  have hb := frame_len_bounds hn hm
  have hfl : SX1302_PKT_HEAD_METADATA + n + SX1302_PKT_TAIL_METADATA + 2 * m
      = frame_len n m := rfl
  have hL : frame_len n m = 23 + n + 2 * m := by
    simp only [frame_len, SX1302_PKT_HEAD_METADATA, SX1302_PKT_TAIL_METADATA]; omega
  have hidx : (frame_len n m + 65535) % 65536 = frame_len n m - 1 := by omega
  simp only [frame_reads, hfl, Nat.mod_eq_of_lt hb.2, hidx] at h
  by_cases hgt : s.buffer_index + frame_len n m > s.buffer_size
  · rw [if_pos hgt] at h
    cases h
  · rw [if_neg hgt] at h
    have hle : s.buffer_index + frame_len n m ≤ s.buffer_size := Nat.le_of_not_lt hgt
    refine ⟨?_, ?_, hle⟩
    · rcases List.mem_append.mp h with h | h
      · rcases List.mem_append.mp h with h | h
        · rw [List.mem_singleton] at h; omega
        · obtain ⟨j, _, hj⟩ := List.mem_map.mp h
          omega
      · split at h
        · cases h
        · rcases List.mem_append.mp h with h | h
          · have := mem_metadata_reads h; omega
          · split at h
            · cases h
            · obtain ⟨j, _, hj⟩ := List.mem_map.mp h
              simp only [SX1302_PKT_HEAD_METADATA] at hj
              omega
    · rcases List.mem_append.mp h with h | h
      · rcases List.mem_append.mp h with h | h
        · rw [List.mem_singleton] at h; omega
        · obtain ⟨j, hj1, hj⟩ := List.mem_map.mp h
          rw [List.mem_range] at hj1
          omega
      · split at h
        · cases h
        · rcases List.mem_append.mp h with h | h
          · have := mem_metadata_reads h; omega
          · split at h
            · cases h
            · obtain ⟨j, hj1, hj⟩ := List.mem_map.mp h
              rw [List.mem_range] at hj1
              simp only [SX1302_PKT_HEAD_METADATA] at hj
              omega

/-- Which reads are covered by a length test: every cell read lies below the
logical length, except the second sync byte and the two length fields, which
are read before the test of line 212. -/
theorem pop_reads_bound (s : rx_buffer_t) (pkt : rx_packet_t) (i : Nat)
    (h : i ∈ rx_buffer_pop_reads s pkt) :
    i < s.buffer_size ∨ i = s.buffer_index + 1 ∨ i = s.buffer_index + 2
      ∨ ∃ b2, s.buffer[s.buffer_index + 2]? = some b2
          ∧ i = s.buffer_index + TAKE_N_BITS_FROM b2 0 8 + 21 := by
  unfold rx_buffer_pop_reads at h
  simp only at h
  by_cases hge : s.buffer_index ≥ s.buffer_size
  · rw [if_pos hge] at h
    cases h
  · rw [if_neg hge] at h
    have hlt : s.buffer_index < s.buffer_size := Nat.lt_of_not_le hge
    cases h0 : s.buffer[s.buffer_index]? with
    | none =>
      rw [h0] at h
      simp only [List.mem_singleton] at h
      exact Or.inl (by omega)
    | some b0 =>
      rw [h0] at h
      simp only at h
      split at h
      · simp only [List.mem_singleton] at h
        exact Or.inl (by omega)
      · cases h1 : s.buffer[s.buffer_index + 1]? with
        | none =>
          rw [h1] at h
          simp only [List.mem_cons, List.mem_singleton, List.not_mem_nil, or_false] at h
          rcases h with h | h
          · exact Or.inl (by omega)
          · exact Or.inr (Or.inl h)
        | some b1 =>
          rw [h1] at h
          simp only at h
          split at h
          · simp only [List.mem_cons, List.mem_singleton, List.not_mem_nil, or_false] at h
            rcases h with h | h
            · exact Or.inl (by omega)
            · exact Or.inr (Or.inl h)
          · cases h2 : s.buffer[s.buffer_index + 2]? with
            | none =>
              rw [h2] at h
              simp only [List.mem_cons, List.mem_singleton, List.not_mem_nil, or_false] at h
              rcases h with h | h | h
              · exact Or.inl (by omega)
              · exact Or.inr (Or.inl h)
              · exact Or.inr (Or.inr (Or.inl h))
            | some b2 =>
              rw [h2] at h
              simp only at h
              cases hm : s.buffer[s.buffer_index + TAKE_N_BITS_FROM b2 0 8 + 21]? with
              | none =>
                rw [hm] at h
                simp only [List.mem_cons, List.mem_singleton, List.not_mem_nil, or_false] at h
                rcases h with h | h | h | h
                · exact Or.inl (by omega)
                · exact Or.inr (Or.inl h)
                · exact Or.inr (Or.inr (Or.inl h))
                · exact Or.inr (Or.inr (Or.inr ⟨b2, rfl, h⟩))
              | some bm =>
                rw [hm] at h
                simp only at h
                rcases List.mem_append.mp h with h | h
                · simp only [List.mem_cons, List.mem_singleton, List.not_mem_nil,
                    or_false] at h
                  rcases h with h | h | h | h
                  · exact Or.inl (by omega)
                  · exact Or.inr (Or.inl h)
                  · exact Or.inr (Or.inr (Or.inl h))
                  · exact Or.inr (Or.inr (Or.inr ⟨b2, rfl, h⟩))
                · have := mem_frame_reads (take_bits_lt b2 0 8) (take_bits_lt bm 0 8) h
                  exact Or.inl (by omega)

theorem frame_reads_checksum_mem {s : rx_buffer_t} (pkt : rx_packet_t) {n m : Nat}
    (hn : n < 256) (hm : m < 256)
    (hle : s.buffer_index + frame_len n m ≤ s.buffer_size) :
    s.buffer_index + frame_len n m - 1 ∈ frame_reads s pkt n m := by
  have hb := frame_len_bounds hn hm
  have hfl : SX1302_PKT_HEAD_METADATA + n + SX1302_PKT_TAIL_METADATA + 2 * m
      = frame_len n m := rfl
  simp only [frame_reads, hfl, Nat.mod_eq_of_lt hb.2]
  rw [if_neg (by omega)]
  exact List.mem_append_left _ (List.mem_append_left _ (List.mem_singleton.mpr rfl))

theorem pop_frame_defined (s : rx_buffer_t) (pkt : rx_packet_t)
    (hN : pkt.rxbytenb_modem < 256) (hM : pkt.num_ts_metrics_stored < 256)
    (hcap : s.buffer_index + frame_len pkt.rxbytenb_modem pkt.num_ts_metrics_stored
        ≤ s.buffer_size →
      s.buffer_index + frame_len pkt.rxbytenb_modem pkt.num_ts_metrics_stored
        ≤ s.buffer.length) :
    ∃ r, pop_frame s pkt = some r := by
  rcases Nat.lt_or_ge s.buffer_size
      (s.buffer_index + frame_len pkt.rxbytenb_modem pkt.num_ts_metrics_stored) with hlt | hle
  · exact ⟨_, pop_frame_truncated s pkt hN hM hlt⟩
  · rw [pop_frame_complete s pkt hN hM hle (hcap hle)]
    split
    · exact ⟨_, rfl⟩
    · split
      · exact ⟨_, rfl⟩
      · exact ⟨_, rfl⟩

/-- The list of reads and the embedding of the function agree: the call has a
defined result exactly when every cell it reads lies in the array. -/
theorem pop_defined_iff_reads_in_array (s : rx_buffer_t) (pkt : rx_packet_t) :
    (∃ r, rx_buffer_pop s pkt = some r)
      ↔ ∀ i, i ∈ rx_buffer_pop_reads s pkt → i < s.buffer.length := by
  unfold rx_buffer_pop rx_buffer_pop_reads syncword_missing parse_lengths
    SX1302_PKT_PAYLOAD_LENGTH SX1302_PKT_NUM_TS_METRICS pkt_field
  simp only
  by_cases hge : s.buffer_index ≥ s.buffer_size
  · rw [if_pos hge, if_pos hge]
    exact ⟨fun _ i hi => (by cases hi), fun _ => ⟨_, rfl⟩⟩
  · rw [if_neg hge, if_neg hge]
    cases h0 : s.buffer[s.buffer_index]? with
    | none =>
      simp only
      constructor
      · rintro ⟨r, hr⟩; cases hr
      · intro h
        have := h s.buffer_index (List.mem_singleton.mpr rfl)
        rw [List.getElem?_eq_none_iff] at h0
        omega
    | some b0 =>
      simp only
      have hc := read_bound h0
      by_cases hb0 : b0 ≠ SX1302_PKT_SYNCWORD_BYTE_0
      · rw [if_pos hb0, if_pos hb0]
        refine ⟨fun _ i hi => ?_, fun _ => ⟨_, rfl⟩⟩
        rw [List.mem_singleton] at hi
        omega
      · rw [if_neg hb0, if_neg hb0]
        cases h1 : s.buffer[s.buffer_index + 1]? with
        | none =>
          simp only
          constructor
          · rintro ⟨r, hr⟩; cases hr
          · intro h
            have := h (s.buffer_index + 1) (by simp)
            rw [List.getElem?_eq_none_iff] at h1
            omega
        | some b1 =>
          simp only
          have hc1 := read_bound h1
          by_cases hb1 : b1 ≠ SX1302_PKT_SYNCWORD_BYTE_1
          · rw [if_pos hb1, decide_eq_true hb1]
            refine ⟨fun _ i hi => ?_, fun _ => ⟨_, rfl⟩⟩
            simp only [List.mem_cons, List.mem_singleton, List.not_mem_nil, or_false] at hi
            omega
          · rw [if_neg hb1, decide_eq_false hb1]
            simp only
            cases h2 : s.buffer[s.buffer_index + 2]? with
            | none =>
              simp only [Option.map_none']
              constructor
              · rintro ⟨r, hr⟩; cases hr
              · intro h
                have := h (s.buffer_index + 2) (by simp)
                rw [List.getElem?_eq_none_iff] at h2
                omega
            | some b2 =>
              simp only [Option.map_some']
              have hc2 := read_bound h2
              cases hm : s.buffer[s.buffer_index + TAKE_N_BITS_FROM b2 0 8 + 21]? with
              | none =>
                simp only [Option.map_none']
                constructor
                · rintro ⟨r, hr⟩; cases hr
                · intro h
                  have := h (s.buffer_index + TAKE_N_BITS_FROM b2 0 8 + 21) (by simp)
                  rw [List.getElem?_eq_none_iff] at hm
                  omega
              | some bm =>
                simp only [Option.map_some']
                have hcm := read_bound hm
                have hN : TAKE_N_BITS_FROM b2 0 8 < 256 := take_bits_lt b2 0 8
                have hM : TAKE_N_BITS_FROM bm 0 8 < 256 := take_bits_lt bm 0 8
                constructor
                · rintro ⟨r, hr⟩ i hi
                  rcases List.mem_append.mp hi with hi | hi
                  · simp only [List.mem_cons, List.mem_singleton, List.not_mem_nil,
                      or_false] at hi
                    omega
                  · obtain ⟨_, h2', hle⟩ := mem_frame_reads hN hM hi
                    have hcap : s.buffer_index + frame_len (TAKE_N_BITS_FROM b2 0 8)
                        (TAKE_N_BITS_FROM bm 0 8) ≤ s.buffer.length :=
                      pop_frame_cap (s := s) hN hM hle hr
                    omega
                · intro h
                  refine pop_frame_defined s _ hN hM (fun hle => ?_)
                  have hmem := frame_reads_checksum_mem (s := s) pkt hN hM hle
                  have := h _ (List.mem_append_right _ hmem)
                  have hb := frame_len_bounds hN hM
                  show s.buffer_index + frame_len (TAKE_N_BITS_FROM b2 0 8)
                    (TAKE_N_BITS_FROM bm 0 8) ≤ s.buffer.length
                  omega

/-- C22: for every buffer state and every call of `rx_buffer_pop` whose
reads lie in the array, the call returns and, whatever its status, the cursor
after the call is greater than or equal to the cursor before the call. -/
theorem C22_cursor_never_decreases (s : rx_buffer_t) (pkt : rx_packet_t)
    (hin : ∀ i, i ∈ rx_buffer_pop_reads s pkt → i < s.buffer.length) :
    ∃ r s1 pkt1, rx_buffer_pop s pkt = some (r, s1, pkt1)
      ∧ s.buffer_index ≤ s1.buffer_index := by
  obtain ⟨⟨r, s1, pkt1⟩, h⟩ := (pop_defined_iff_reads_in_array s pkt).mpr hin
  refine ⟨r, s1, pkt1, h, ?_⟩
  rcases pop_outcome h with ⟨_, hs, _⟩ | ⟨_, _, hs, _⟩ | ⟨_, N, M, _, _, _, hs⟩
  · subst hs
    exact Nat.le_refl _
  · subst hs
    exact Nat.le_succ _
  · subst hs
    exact Nat.le_add_right _ _

theorem C22_cursor_never_decreases_witness :
    ∃ r s1 pkt1, rx_buffer_pop ⟨ex_frame_lora ++ ex_frame_fsk, 51, 0⟩ pkt0 = some (r, s1, pkt1)
      ∧ (⟨ex_frame_lora ++ ex_frame_fsk, 51, 0⟩ : rx_buffer_t).buffer_index ≤ s1.buffer_index :=
  C22_cursor_never_decreases ⟨ex_frame_lora ++ ex_frame_fsk, 51, 0⟩ pkt0 (by decide)

/-- C23: for every buffer state and every call of `rx_buffer_pop` whose reads
lie in the array, the call returns and, whatever its outcome, the contents of
the array and the logical length after the call are those before the call; only
the cursor may change. -/
theorem C23_pop_keeps_snapshot (s : rx_buffer_t) (pkt : rx_packet_t)
    (hin : ∀ i, i ∈ rx_buffer_pop_reads s pkt → i < s.buffer.length) :
    ∃ r s1 pkt1, rx_buffer_pop s pkt = some (r, s1, pkt1)
      ∧ s1.buffer = s.buffer ∧ s1.buffer_size = s.buffer_size := by
  obtain ⟨⟨r, s1, pkt1⟩, h⟩ := (pop_defined_iff_reads_in_array s pkt).mpr hin
  refine ⟨r, s1, pkt1, h, ?_⟩
  rcases pop_outcome h with ⟨_, hs, _⟩ | ⟨_, _, hs, _⟩ | ⟨_, N, M, _, _, _, hs⟩
  · subst hs
    exact ⟨rfl, rfl⟩
  · subst hs
    exact ⟨rfl, rfl⟩
  · subst hs
    exact ⟨rfl, rfl⟩

theorem C23_pop_keeps_snapshot_witness :
    ∃ r s1 pkt1, rx_buffer_pop ⟨ex_frame_corrupt ++ ex_frame_fsk, 51, 0⟩ pkt0
        = some (r, s1, pkt1)
      ∧ s1.buffer = (⟨ex_frame_corrupt ++ ex_frame_fsk, 51, 0⟩ : rx_buffer_t).buffer
      ∧ s1.buffer_size = (⟨ex_frame_corrupt ++ ex_frame_fsk, 51, 0⟩ : rx_buffer_t).buffer_size :=
  C23_pop_keeps_snapshot ⟨ex_frame_corrupt ++ ex_frame_fsk, 51, 0⟩ pkt0 (by decide)

/-- C24 (the code departs from the claim): with the cursor on the last cell
of a full array of 8 cells, that cell holding 0xA5, the cursor is below the
logical length 8 and `rx_buffer_pop` reads the cells 7 and 8; cell 8 is not
below the logical length and lies outside the array, so the call has no
defined result. With a snapshot of a single byte in a larger array the call
reads the cells 0, 1, 2 and 24, and its result changes with cell 1, which is
not part of the snapshot. -/
theorem C24_reads_outside_snapshot :
    ((⟨List.replicate 7 0 ++ [0xA5], 8, 7⟩ : rx_buffer_t).buffer_index
          < (⟨List.replicate 7 0 ++ [0xA5], 8, 7⟩ : rx_buffer_t).buffer_size
        ∧ rx_buffer_pop_reads ⟨List.replicate 7 0 ++ [0xA5], 8, 7⟩ pkt0 = [7, 8]
        ∧ ¬ (8 < (⟨List.replicate 7 0 ++ [0xA5], 8, 7⟩ : rx_buffer_t).buffer_size)
        ∧ rx_buffer_pop ⟨List.replicate 7 0 ++ [0xA5], 8, 7⟩ pkt0 = none)
      ∧ (rx_buffer_pop_reads ⟨ex_frame_lora, 1, 0⟩ pkt0 = [0, 1, 2, 24]
        ∧ (rx_buffer_pop ⟨ex_frame_lora, 1, 0⟩ pkt0).map
            (fun r => (r.1, r.2.1.buffer_index)) = some (LGW_REG_ERROR, 0)
        ∧ (ex_frame_lora.set 1 0).take 1 = ex_frame_lora.take 1
        ∧ (rx_buffer_pop ⟨ex_frame_lora.set 1 0, 1, 0⟩ pkt0).map
            (fun r => (r.1, r.2.1.buffer_index)) = some (LGW_REG_ERROR, 1)) := by
  decide

/-- C26: for every accepted frame at cursor `c` of a buffer of bytes, the
bit fields of the head metadata split the cell `c+4` from the least significant
bit on: `crc_en` is bit 0, `coding_rate` the bits 1..3, `rx_rate_sf` the bits
4..7, so that `crc_en + 2*coding_rate + 16*rx_rate_sf` is that cell; moreover
`rx_channel_in` is the cell `c+3` and `modem_id` the cell `c+5`. -/
theorem C26_head_bit_fields (s s1 : rx_buffer_t) (pkt pkt1 : rx_packet_t)
    (hb : bytes_ok s.buffer)
    (h : rx_buffer_pop s pkt = some (LGW_REG_SUCCESS, s1, pkt1)) :
    ∃ b3 b4 b5,
      s.buffer[s.buffer_index + 3]? = some b3
      ∧ s.buffer[s.buffer_index + 4]? = some b4
      ∧ s.buffer[s.buffer_index + 5]? = some b5
      ∧ pkt1.crc_en = b4 % 2
      ∧ pkt1.coding_rate = b4 / 2 % 8
      ∧ pkt1.rx_rate_sf = b4 / 16 % 16
      ∧ pkt1.crc_en < 2 ∧ pkt1.coding_rate < 8 ∧ pkt1.rx_rate_sf < 16
      ∧ pkt1.crc_en + 2 * pkt1.coding_rate + 16 * pkt1.rx_rate_sf = b4
      ∧ pkt1.rx_channel_in = b3
      ∧ pkt1.modem_id = b5 := by
  obtain ⟨N, M, _, _, _, _, _, hcap, hp1⟩ := pop_success_record hb h
  have r3 := read_some (show s.buffer_index + 3 < s.buffer.length by omega)
  have r4 := read_some (show s.buffer_index + 4 < s.buffer.length by omega)
  have r5 := read_some (show s.buffer_index + 5 < s.buffer.length by omega)
  have q4 := read_byte hb r4
  have e1 : pkt1.crc_en = s.buffer.getD (s.buffer_index + 4) 0 % 2 := by
    rw [hp1]
    show cell_bits s.buffer (s.buffer_index + 4) 0 1 = _
    simp only [cell_bits, TAKE_N_BITS_FROM, Nat.pow_zero, Nat.div_one, Nat.pow_one]
  have e2 : pkt1.coding_rate = s.buffer.getD (s.buffer_index + 4) 0 / 2 % 8 := by
    rw [hp1]
    show cell_bits s.buffer (s.buffer_index + 4) 1 3 = _
    simp only [cell_bits, TAKE_N_BITS_FROM, Nat.pow_one]
    rfl
  have e3 : pkt1.rx_rate_sf = s.buffer.getD (s.buffer_index + 4) 0 / 16 % 16 := by
    rw [hp1]
    show cell_bits s.buffer (s.buffer_index + 4) 4 4 = _
    simp only [cell_bits, TAKE_N_BITS_FROM]
    rfl
  have e4 : pkt1.rx_channel_in = s.buffer.getD (s.buffer_index + 3) 0 := by
    rw [hp1]
    exact cell_bits_byte hb r3
  have e5 : pkt1.modem_id = s.buffer.getD (s.buffer_index + 5) 0 := by
    rw [hp1]
    exact cell_bits_byte hb r5
  refine ⟨_, _, _, r3, r4, r5, e1, e2, e3, ?_, ?_, ?_, ?_, e4, e5⟩
  · rw [e1]; omega
  · rw [e2]; omega
  · rw [e3]; omega
  · rw [e1, e2, e3]; omega

theorem C26_head_bit_fields_witness :
    (rx_buffer_pop ⟨ex_frame_lora, 28, 0⟩ pkt0).map
        (fun r => (r.2.2.crc_en, r.2.2.coding_rate, r.2.2.rx_rate_sf, r.2.2.rx_channel_in,
          r.2.2.modem_id)) = some (1, 0, 7, 2, 4)
      ∧ ∃ b3 b4 b5,
        ex_frame_lora[0 + 3]? = some b3
        ∧ ex_frame_lora[0 + 4]? = some b4
        ∧ ex_frame_lora[0 + 5]? = some b5
        ∧ (metadata_of ex_frame_lora 0 pkt0).crc_en = b4 % 2
        ∧ (metadata_of ex_frame_lora 0 pkt0).coding_rate = b4 / 2 % 8
        ∧ (metadata_of ex_frame_lora 0 pkt0).rx_rate_sf = b4 / 16 % 16
        ∧ (metadata_of ex_frame_lora 0 pkt0).crc_en < 2
        ∧ (metadata_of ex_frame_lora 0 pkt0).coding_rate < 8
        ∧ (metadata_of ex_frame_lora 0 pkt0).rx_rate_sf < 16
        ∧ (metadata_of ex_frame_lora 0 pkt0).crc_en
            + 2 * (metadata_of ex_frame_lora 0 pkt0).coding_rate
            + 16 * (metadata_of ex_frame_lora 0 pkt0).rx_rate_sf = b4
        ∧ (metadata_of ex_frame_lora 0 pkt0).rx_channel_in = b3
        ∧ (metadata_of ex_frame_lora 0 pkt0).modem_id = b5 :=
  ⟨by decide, C26_head_bit_fields ⟨ex_frame_lora, 28, 0⟩ ⟨ex_frame_lora, 28, 28⟩ pkt0
    { metadata_of ex_frame_lora 0 { pkt0 with rxbytenb_modem := 3, num_ts_metrics_stored := 1 }
        with payload := [17, 34, 51] ++ List.replicate 252 0 }
    (by decide) rfl⟩

/-- C28: for every frame that passes the sync, length and checksum checks and
whose modem id is in the LoRa family (at most the LoRa maximum 11) or is the
LoRa standard id 12, `rx_buffer_pop` accepts the frame if and only if its
channel is at most 9 and its spreading factor lies in 5..12: the same bounds,
and only those, apply to both classes. -/
theorem C28_lora_bounds_decide_acceptance (s : rx_buffer_t) (pkt : rx_packet_t) (f : List Nat)
    (hsh : frame_shape f) (hat : frame_at s.buffer s.buffer_index f)
    (hsz : s.buffer_index + f.length ≤ s.buffer_size) (hck : frame_checksum_ok f)
    (hid : f.getD 5 0 ≤ SX1302_LORA_MODEM_ID_MAX ∨ f.getD 5 0 = SX1302_LORA_STD_MODEM_ID) :
    (∃ s1 p, rx_buffer_pop s pkt = some (LGW_REG_SUCCESS, s1, p))
      ↔ (f.getD 3 0 ≤ 9 ∧ 5 ≤ f.getD 4 0 / 16 ∧ f.getD 4 0 / 16 ≤ 12) := by
  have hpop := pop_on_frame s pkt hsh hat hsz
  rw [if_neg (not_not.mpr hck)] at hpop
  have hid12 : f.getD 5 0 ≤ SX1302_LORA_STD_MODEM_ID := by
    simp only [SX1302_LORA_MODEM_ID_MAX, SX1302_LORA_STD_MODEM_ID] at hid ⊢
    omega
  constructor
  · rintro ⟨s1, p, hacc⟩
    by_cases hsn : frame_sane f
    · exact hsn.2 hid12
    · rw [if_pos hsn, hacc] at hpop
      injection hpop with hpop
      injection hpop with hr _
      exact absurd hr status_ne
  · intro hbounds
    have hsn : frame_sane f := by
      refine ⟨?_, fun _ => hbounds⟩
      simp only [SX1302_FSK_MODEM_ID, SX1302_LORA_STD_MODEM_ID] at hid12 ⊢
      omega
    rw [if_neg (not_not.mpr hsn)] at hpop
    exact ⟨_, _, hpop⟩

theorem C28_lora_bounds_decide_acceptance_witness :
    (∃ s1 p, rx_buffer_pop ⟨ex_frame_lora, 28, 0⟩ pkt0 = some (LGW_REG_SUCCESS, s1, p))
      ↔ (ex_frame_lora.getD 3 0 ≤ 9 ∧ 5 ≤ ex_frame_lora.getD 4 0 / 16
          ∧ ex_frame_lora.getD 4 0 / 16 ≤ 12) :=
  C28_lora_bounds_decide_acceptance ⟨ex_frame_lora, 28, 0⟩ pkt0 ex_frame_lora
    (by decide) (by decide) (by decide) (by decide) (by decide)

/-- C29: the invariant cursor ≤ logical length. From a buffer state that
satisfies it, the state after any call of `rx_buffer_pop` that returns
satisfies it again; `rx_buffer_new`, `rx_buffer_del` and a successful
`rx_buffer_fetch` establish it from any state. -/
theorem C29_cursor_within_length (s s1 s2 : rx_buffer_t) (pkt pkt1 : rx_packet_t) (r : Int)
    (t : transport_t) :
    (s.buffer_index ≤ s.buffer_size → rx_buffer_pop s pkt = some (r, s1, pkt1) →
        s1.buffer_index ≤ s1.buffer_size)
      ∧ (rx_buffer_new s).2.buffer_index ≤ (rx_buffer_new s).2.buffer_size
      ∧ (rx_buffer_del s).2.buffer_index ≤ (rx_buffer_del s).2.buffer_size
      ∧ (rx_buffer_fetch s t = some (LGW_REG_SUCCESS, s2) →
          s2.buffer_index ≤ s2.buffer_size) := by
  refine ⟨?_, Nat.le_refl 0, Nat.le_refl 0, ?_⟩
  · intro hinv h
    rcases pop_outcome h with ⟨_, hs, _⟩ | ⟨_, hlt, hs, _⟩ | ⟨_, N, M, _, _, hle, hs⟩
    · subst hs
      exact hinv
    · subst hs
      exact hlt
    · subst hs
      exact hle
  · intro h
    unfold rx_buffer_fetch at h
    simp only at h
    split at h
    · split at h
      · cases h
      · split at h
        · injection h with h
          injection h with hr _
          exact absurd hr.symm status_ne
        · injection h with h
          injection h with _ hs
          subst hs
          exact Nat.zero_le _
    · injection h with h
      injection h with _ hs
      subst hs
      exact Nat.zero_le _

theorem C29_cursor_within_length_witness :
    (⟨ex_frame_lora, 28, 28⟩ : rx_buffer_t).buffer_index
        ≤ (⟨ex_frame_lora, 28, 28⟩ : rx_buffer_t).buffer_size
      ∧ (rx_buffer_new ⟨ex_frame_lora, 28, 0⟩).2.buffer_index
          ≤ (rx_buffer_new ⟨ex_frame_lora, 28, 0⟩).2.buffer_size
      ∧ (rx_buffer_del ⟨ex_frame_lora, 28, 0⟩).2.buffer_index
          ≤ (rx_buffer_del ⟨ex_frame_lora, 28, 0⟩).2.buffer_size
      ∧ (⟨ex_frame_fsk ++ List.replicate 5 0, 23, 0⟩ : rx_buffer_t).buffer_index
          ≤ (⟨ex_frame_fsk ++ List.replicate 5 0, 23, 0⟩ : rx_buffer_t).buffer_size :=
  have h := C29_cursor_within_length ⟨ex_frame_lora, 28, 0⟩ ⟨ex_frame_lora, 28, 28⟩
    ⟨ex_frame_fsk ++ List.replicate 5 0, 23, 0⟩ pkt0
    { metadata_of ex_frame_lora 0 { pkt0 with rxbytenb_modem := 3, num_ts_metrics_stored := 1 }
        with payload := [17, 34, 51] ++ List.replicate 252 0 }
    LGW_REG_SUCCESS ⟨0, 23, LGW_REG_SUCCESS, ex_frame_fsk⟩
  ⟨h.1 (by decide) rfl, h.2.1, h.2.2.1, h.2.2.2 rfl⟩

theorem cell_bits_set_ne (l : List Nat) {i j : Nat} (v p n : Nat) (h : j ≠ i) :
    cell_bits (l.set j v) i p n = cell_bits l i p n := by
  rw [cell_bits, cell_bits, getD_set_ne l v h]

theorem cell_bits_set_eq (l : List Nat) {j : Nat} (v p n : Nat) (h : j < l.length) :
    cell_bits (l.set j v) j p n = TAKE_N_BITS_FROM v p n := by
  rw [cell_bits, getD_set_eq l v h]

/-- The metadata fields depend on the cell that holds the four flags only
through the bits 0, 2, 3 and 4 of that cell. -/
theorem metadata_of_set_flags (buffer : List Nat) (idx : Nat) (pkt : rx_packet_t) (v : Nat)
    (hi : idx + pkt.rxbytenb_modem + 9 < buffer.length)
    (h0 : v % 2 = buffer.getD (idx + pkt.rxbytenb_modem + 9) 0 % 2)
    (h2 : v / 4 % 2 = buffer.getD (idx + pkt.rxbytenb_modem + 9) 0 / 4 % 2)
    (h3 : v / 8 % 2 = buffer.getD (idx + pkt.rxbytenb_modem + 9) 0 / 8 % 2)
    (h4 : v / 16 % 2 = buffer.getD (idx + pkt.rxbytenb_modem + 9) 0 / 16 % 2) :
    metadata_of (buffer.set (idx + pkt.rxbytenb_modem + 9) v) idx pkt
      = metadata_of buffer idx pkt := by
  have f0 : TAKE_N_BITS_FROM v 0 1 = cell_bits buffer (idx + pkt.rxbytenb_modem + 9) 0 1 := by
    simp only [cell_bits, TAKE_N_BITS_FROM, Nat.pow_zero, Nat.div_one, Nat.pow_one]
    exact h0
  have f2 : TAKE_N_BITS_FROM v 2 1 = cell_bits buffer (idx + pkt.rxbytenb_modem + 9) 2 1 := by
    simp only [cell_bits, TAKE_N_BITS_FROM, Nat.pow_one]
    exact h2
  have f3 : TAKE_N_BITS_FROM v 3 1 = cell_bits buffer (idx + pkt.rxbytenb_modem + 9) 3 1 := by
    simp only [cell_bits, TAKE_N_BITS_FROM, Nat.pow_one]
    exact h3
  have f4 : TAKE_N_BITS_FROM v 4 1 = cell_bits buffer (idx + pkt.rxbytenb_modem + 9) 4 1 := by
    simp only [cell_bits, TAKE_N_BITS_FROM, Nat.pow_one]
    exact h4
  simp only [metadata_of, cell_bits_set_eq buffer v _ _ hi, f0, f2, f3, f4,
    cell_bits_set_ne buffer v _ _
      (show idx + pkt.rxbytenb_modem + 9 ≠ idx + 3 by omega),
    cell_bits_set_ne buffer v _ _
      (show idx + pkt.rxbytenb_modem + 9 ≠ idx + 4 by omega),
    cell_bits_set_ne buffer v _ _
      (show idx + pkt.rxbytenb_modem + 9 ≠ idx + 5 by omega),
    cell_bits_set_ne buffer v _ _
      (show idx + pkt.rxbytenb_modem + 9 ≠ idx + 6 by omega),
    cell_bits_set_ne buffer v _ _
      (show idx + pkt.rxbytenb_modem + 9 ≠ idx + 7 by omega),
    cell_bits_set_ne buffer v _ _
      (show idx + pkt.rxbytenb_modem + 9 ≠ idx + 8 by omega),
    cell_bits_set_ne buffer v _ _
      (show idx + pkt.rxbytenb_modem + 9 ≠ idx + pkt.rxbytenb_modem + 10 by omega),
    cell_bits_set_ne buffer v _ _
      (show idx + pkt.rxbytenb_modem + 9 ≠ idx + pkt.rxbytenb_modem + 11 by omega),
    cell_bits_set_ne buffer v _ _
      (show idx + pkt.rxbytenb_modem + 9 ≠ idx + pkt.rxbytenb_modem + 12 by omega),
    cell_bits_set_ne buffer v _ _
      (show idx + pkt.rxbytenb_modem + 9 ≠ idx + pkt.rxbytenb_modem + 15 by omega),
    cell_bits_set_ne buffer v _ _
      (show idx + pkt.rxbytenb_modem + 9 ≠ idx + pkt.rxbytenb_modem + 16 by omega),
    cell_bits_set_ne buffer v _ _
      (show idx + pkt.rxbytenb_modem + 9 ≠ idx + pkt.rxbytenb_modem + 17 by omega),
    cell_bits_set_ne buffer v _ _
      (show idx + pkt.rxbytenb_modem + 9 ≠ idx + pkt.rxbytenb_modem + 18 by omega),
    cell_bits_set_ne buffer v _ _
      (show idx + pkt.rxbytenb_modem + 9 ≠ idx + pkt.rxbytenb_modem + 19 by omega),
    cell_bits_set_ne buffer v _ _
      (show idx + pkt.rxbytenb_modem + 9 ≠ idx + pkt.rxbytenb_modem + 20 by omega)]

/-- C27: for every accepted frame at cursor `c` of a buffer of bytes, with
payload length `N`, the fields of the tail metadata come from the cells after
the payload: `payload_crc_error`, `sync_error`, `header_error` and `timing_set`
are the bits 0, 2, 3 and 4 of the cell `c+9+N`, each 0 or 1, and changing the
other bits of that cell changes no metadata field; `rssi_chan_avg` is the cell
`c+11+N`, `rssi_signal_avg` the cell `c+12+N`, `rx_crc16_value` the cells
`c+19+N`, `c+20+N` read little-endian, and `num_ts_metrics_stored` the cell
`c+21+N`. -/
theorem C27_tail_fields (s s1 : rx_buffer_t) (pkt pkt1 : rx_packet_t)
    (hb : bytes_ok s.buffer)
    (h : rx_buffer_pop s pkt = some (LGW_REG_SUCCESS, s1, pkt1)) :
    ∃ N b9 b11 b12 b19 b20 b21,
      s.buffer[s.buffer_index + 2]? = some N
      ∧ s.buffer[s.buffer_index + 9 + N]? = some b9
      ∧ s.buffer[s.buffer_index + 11 + N]? = some b11
      ∧ s.buffer[s.buffer_index + 12 + N]? = some b12
      ∧ s.buffer[s.buffer_index + 19 + N]? = some b19
      ∧ s.buffer[s.buffer_index + 20 + N]? = some b20
      ∧ s.buffer[s.buffer_index + 21 + N]? = some b21
      ∧ pkt1.payload_crc_error = b9 % 2
      ∧ pkt1.sync_error = b9 / 4 % 2
      ∧ pkt1.header_error = b9 / 8 % 2
      ∧ pkt1.timing_set = b9 / 16 % 2
      ∧ (∀ v, v % 2 = b9 % 2 → v / 4 % 2 = b9 / 4 % 2 → v / 8 % 2 = b9 / 8 % 2 →
          v / 16 % 2 = b9 / 16 % 2 →
          metadata_of (s.buffer.set (s.buffer_index + N + 9) v) s.buffer_index
              { pkt with rxbytenb_modem := N, num_ts_metrics_stored := b21 }
            = metadata_of s.buffer s.buffer_index
              { pkt with rxbytenb_modem := N, num_ts_metrics_stored := b21 })
      ∧ pkt1.rssi_chan_avg = b11
      ∧ pkt1.rssi_signal_avg = b12
      ∧ pkt1.rx_crc16_value = b19 + 256 * b20
      ∧ pkt1.num_ts_metrics_stored = b21 := by
  obtain ⟨N, M, h2, hm, _, _, _, hcap, hp1⟩ := pop_success_record hb h
  have r9 := read_some (show s.buffer_index + N + 9 < s.buffer.length by omega)
  have r11 := read_some (show s.buffer_index + N + 11 < s.buffer.length by omega)
  have r12 := read_some (show s.buffer_index + N + 12 < s.buffer.length by omega)
  have r19 := read_some (show s.buffer_index + N + 19 < s.buffer.length by omega)
  have r20 := read_some (show s.buffer_index + N + 20 < s.buffer.length by omega)
  have e0 : pkt1.payload_crc_error = s.buffer.getD (s.buffer_index + N + 9) 0 % 2 := by
    rw [hp1]
    show cell_bits s.buffer (s.buffer_index + N + 9) 0 1 = _
    simp only [cell_bits, TAKE_N_BITS_FROM, Nat.pow_zero, Nat.div_one, Nat.pow_one]
  have e2 : pkt1.sync_error = s.buffer.getD (s.buffer_index + N + 9) 0 / 4 % 2 := by
    rw [hp1]
    show cell_bits s.buffer (s.buffer_index + N + 9) 2 1 = _
    simp only [cell_bits, TAKE_N_BITS_FROM, Nat.pow_one]
    rfl
  have e3 : pkt1.header_error = s.buffer.getD (s.buffer_index + N + 9) 0 / 8 % 2 := by
    rw [hp1]
    show cell_bits s.buffer (s.buffer_index + N + 9) 3 1 = _
    simp only [cell_bits, TAKE_N_BITS_FROM, Nat.pow_one]
    rfl
  have e4 : pkt1.timing_set = s.buffer.getD (s.buffer_index + N + 9) 0 / 16 % 2 := by
    rw [hp1]
    show cell_bits s.buffer (s.buffer_index + N + 9) 4 1 = _
    simp only [cell_bits, TAKE_N_BITS_FROM, Nat.pow_one]
    rfl
  have e11 : pkt1.rssi_chan_avg = s.buffer.getD (s.buffer_index + N + 11) 0 := by
    rw [hp1]
    exact cell_bits_byte hb r11
  have e12 : pkt1.rssi_signal_avg = s.buffer.getD (s.buffer_index + N + 12) 0 := by
    rw [hp1]
    exact cell_bits_byte hb r12
  have ecrc : pkt1.rx_crc16_value = s.buffer.getD (s.buffer_index + N + 19) 0
      + 256 * s.buffer.getD (s.buffer_index + N + 20) 0 := by
    rw [hp1]
    show rx_crc16_of (cell_bits s.buffer (s.buffer_index + N + 19) 0 8)
      (cell_bits s.buffer (s.buffer_index + N + 20) 0 8) = _
    rw [cell_bits_byte hb r19, cell_bits_byte hb r20,
      rx_crc16_of_bytes (read_byte hb r19) (read_byte hb r20)]
  have eM : pkt1.num_ts_metrics_stored = M := by
    rw [hp1]
    rfl
  refine ⟨N, _, _, _, _, _, M, h2, ?_, ?_, ?_, ?_, ?_, ?_, e0, e2, e3, e4, ?_, e11, e12,
    ecrc, eM⟩
  · rw [show s.buffer_index + 9 + N = s.buffer_index + N + 9 by omega]; exact r9
  · rw [show s.buffer_index + 11 + N = s.buffer_index + N + 11 by omega]; exact r11
  · rw [show s.buffer_index + 12 + N = s.buffer_index + N + 12 by omega]; exact r12
  · rw [show s.buffer_index + 19 + N = s.buffer_index + N + 19 by omega]; exact r19
  · rw [show s.buffer_index + 20 + N = s.buffer_index + N + 20 by omega]; exact r20
  · rw [show s.buffer_index + 21 + N = s.buffer_index + N + 21 by omega]; exact hm
  · intro v h0 h2 h3 h4
    exact metadata_of_set_flags s.buffer s.buffer_index
      { pkt with rxbytenb_modem := N, num_ts_metrics_stored := M } v
      (show s.buffer_index + N + 9 < s.buffer.length by omega) h0 h2 h3 h4

theorem C27_tail_fields_witness :
    (rx_buffer_pop ⟨ex_frame_lora, 28, 0⟩ pkt0).map
        (fun r => (r.2.2.payload_crc_error, r.2.2.sync_error, r.2.2.header_error,
          r.2.2.timing_set, r.2.2.rssi_chan_avg, r.2.2.rssi_signal_avg, r.2.2.rx_crc16_value,
          r.2.2.num_ts_metrics_stored)) = some (0, 0, 0, 1, 90, 91, 0xABCD, 1)
      ∧ ∃ N b9 b11 b12 b19 b20 b21,
        ex_frame_lora[0 + 2]? = some N
        ∧ ex_frame_lora[0 + 9 + N]? = some b9
        ∧ ex_frame_lora[0 + 11 + N]? = some b11
        ∧ ex_frame_lora[0 + 12 + N]? = some b12
        ∧ ex_frame_lora[0 + 19 + N]? = some b19
        ∧ ex_frame_lora[0 + 20 + N]? = some b20
        ∧ ex_frame_lora[0 + 21 + N]? = some b21
        ∧ (metadata_of ex_frame_lora 0
            { pkt0 with rxbytenb_modem := 3, num_ts_metrics_stored := 1 }).payload_crc_error
            = b9 % 2
        ∧ (metadata_of ex_frame_lora 0
            { pkt0 with rxbytenb_modem := 3, num_ts_metrics_stored := 1 }).sync_error
            = b9 / 4 % 2
        ∧ (metadata_of ex_frame_lora 0
            { pkt0 with rxbytenb_modem := 3, num_ts_metrics_stored := 1 }).header_error
            = b9 / 8 % 2
        ∧ (metadata_of ex_frame_lora 0
            { pkt0 with rxbytenb_modem := 3, num_ts_metrics_stored := 1 }).timing_set
            = b9 / 16 % 2
        ∧ (∀ v, v % 2 = b9 % 2 → v / 4 % 2 = b9 / 4 % 2 → v / 8 % 2 = b9 / 8 % 2 →
            v / 16 % 2 = b9 / 16 % 2 →
            metadata_of (ex_frame_lora.set (0 + N + 9) v) 0
                { pkt0 with rxbytenb_modem := N, num_ts_metrics_stored := b21 }
              = metadata_of ex_frame_lora 0
                { pkt0 with rxbytenb_modem := N, num_ts_metrics_stored := b21 })
        ∧ (metadata_of ex_frame_lora 0
            { pkt0 with rxbytenb_modem := 3, num_ts_metrics_stored := 1 }).rssi_chan_avg = b11
        ∧ (metadata_of ex_frame_lora 0
            { pkt0 with rxbytenb_modem := 3, num_ts_metrics_stored := 1 }).rssi_signal_avg
            = b12
        ∧ (metadata_of ex_frame_lora 0
            { pkt0 with rxbytenb_modem := 3, num_ts_metrics_stored := 1 }).rx_crc16_value
            = b19 + 256 * b20
        ∧ (metadata_of ex_frame_lora 0
            { pkt0 with rxbytenb_modem := 3, num_ts_metrics_stored := 1 }).num_ts_metrics_stored
            = b21 :=
  ⟨rfl, C27_tail_fields ⟨ex_frame_lora, 28, 0⟩ ⟨ex_frame_lora, 28, 28⟩ pkt0
    { metadata_of ex_frame_lora 0 { pkt0 with rxbytenb_modem := 3, num_ts_metrics_stored := 1 }
        with payload := [17, 34, 51] ++ List.replicate 252 0 }
    (by decide) rfl⟩

/-! ## Dependence on the span of the frame only -/

/-- The status, the cursor and the record after a call on a frame of
consistent shape that lies within the logical length, from the bytes of the
frame alone. -/
theorem pop_on_frame_view (s : rx_buffer_t) (pkt : rx_packet_t) {f : List Nat}
    (hsh : frame_shape f) (hat : frame_at s.buffer s.buffer_index f)
    (hsz : s.buffer_index + f.length ≤ s.buffer_size) :
    (rx_buffer_pop s pkt).map (fun r => (r.1, r.2.1.buffer_index, r.2.2)) =
      if ¬ frame_checksum_ok f then
        some (LGW_REG_ERROR, s.buffer_index,
          { pkt with rxbytenb_modem := frame_N f, num_ts_metrics_stored := frame_M f })
      else if ¬ frame_sane f then
        some (LGW_REG_ERROR, s.buffer_index, metadata_of f 0
          { pkt with rxbytenb_modem := frame_N f, num_ts_metrics_stored := frame_M f })
      else
        some (LGW_REG_SUCCESS, s.buffer_index + f.length,
          { metadata_of f 0
              { pkt with rxbytenb_modem := frame_N f, num_ts_metrics_stored := frame_M f } with
            payload := frame_payload f ++ pkt.payload.drop (frame_N f) }) := by
  have hL := frame_shape_len hsh
  have hmeta := metadata_of_frame
    { pkt with rxbytenb_modem := frame_N f, num_ts_metrics_stored := frame_M f } hat
    (show frame_N f + 20 < f.length by omega)
  rw [pop_on_frame s pkt hsh hat hsz, hmeta]
  split
  · rfl
  · split
    · rfl
    · rfl

/-- C30: decoding depends on the span of the frame only. For two buffer states
with the same cursor `c` and the same logical length, where in the first, a
buffer of bytes, the cells `c`, `c+1` hold the sync word, the frame length
`len = 9+N+14+2M` computed from its cells `c+2` and `c+21+N` satisfies
`c + len ≤ logical length` and the frame lies in the array, and where the second
agrees with the first on every cell of `[c, c+len)`: `rx_buffer_pop` returns
the same status, the same cursor and, from the same initial record, the same
record in both, whatever the cells outside the span are. -/
theorem C30_result_depends_on_frame_span (s t : rx_buffer_t) (pkt : rx_packet_t) (N M : Nat)
    (hb : bytes_ok s.buffer)
    (hidx : t.buffer_index = s.buffer_index) (hsize : t.buffer_size = s.buffer_size)
    (h0 : s.buffer[s.buffer_index]? = some 0xA5)
    (h1 : s.buffer[s.buffer_index + 1]? = some 0xC0)
    (h2 : s.buffer[s.buffer_index + 2]? = some N)
    (hm : s.buffer[s.buffer_index + 21 + N]? = some M)
    (hlen : s.buffer_index + (9 + N + 14 + 2 * M) ≤ s.buffer_size)
    (hcap : s.buffer_index + (9 + N + 14 + 2 * M) ≤ s.buffer.length)
    (hagree : ∀ i, i < 9 + N + 14 + 2 * M →
      t.buffer[s.buffer_index + i]? = s.buffer[s.buffer_index + i]?) :
    (rx_buffer_pop s pkt).map (fun r => (r.1, r.2.1.buffer_index, r.2.2))
      = (rx_buffer_pop t pkt).map (fun r => (r.1, r.2.1.buffer_index, r.2.2)) := by
  have hflen : ((s.buffer.drop s.buffer_index).take (9 + N + 14 + 2 * M)).length
      = 9 + N + 14 + 2 * M := by
    rw [List.length_take, List.length_drop]; omega
  have hats : frame_at s.buffer s.buffer_index
      ((s.buffer.drop s.buffer_index).take (9 + N + 14 + 2 * M)) := by
    unfold frame_at
    rw [hflen]
  have hatt : frame_at t.buffer t.buffer_index
      ((s.buffer.drop s.buffer_index).take (9 + N + 14 + 2 * M)) := by
    unfold frame_at
    rw [hflen, hidx]
    apply List.ext_getElem?
    intro i
    rw [List.getElem?_take, List.getElem?_take, List.getElem?_drop, List.getElem?_drop]
    split
    · rename_i hi
      exact hagree i hi
    · rfl
  have g0 := frame_at_getD hats (show 0 < _ by rw [hflen]; omega)
  have g1 := frame_at_getD hats (show 1 < _ by rw [hflen]; omega)
  have g2 := frame_at_getD hats (show 2 < _ by rw [hflen]; omega)
  have gm := frame_at_getD hats (show N + 21 < _ by rw [hflen]; omega)
  rw [Nat.add_zero, read_getD h0] at g0
  rw [read_getD h1] at g1
  rw [read_getD h2] at g2
  rw [show s.buffer_index + (N + 21) = s.buffer_index + 21 + N by omega, read_getD hm] at gm
  have hsh : frame_shape ((s.buffer.drop s.buffer_index).take (9 + N + 14 + 2 * M)) := by
    refine ⟨?_, ?_, g0.symm, g1.symm⟩
    · intro b hb1
      exact hb b (List.mem_of_mem_drop (List.mem_of_mem_take hb1))
    · have eN : frame_N ((s.buffer.drop s.buffer_index).take (9 + N + 14 + 2 * M)) = N :=
        g2.symm
      have eM : frame_M ((s.buffer.drop s.buffer_index).take (9 + N + 14 + 2 * M)) = M := by
        unfold frame_M
        rw [eN]
        exact gm.symm
      rw [hflen, eN, eM]
      rfl
  rw [pop_on_frame_view s pkt hsh hats (by rw [hflen]; exact hlen),
    pop_on_frame_view t pkt hsh hatt (by rw [hflen, hidx, hsize]; exact hlen), hidx]

theorem C30_result_depends_on_frame_span_witness :
    (rx_buffer_pop ⟨[1, 2] ++ ex_frame_lora ++ [3], 30, 2⟩ pkt0).map
        (fun r => (r.1, r.2.1.buffer_index, r.2.2))
      = (rx_buffer_pop ⟨[7, 300] ++ ex_frame_lora ++ ex_frame_fsk, 30, 2⟩ pkt0).map
        (fun r => (r.1, r.2.1.buffer_index, r.2.2)) :=
  C30_result_depends_on_frame_span ⟨[1, 2] ++ ex_frame_lora ++ [3], 30, 2⟩
    ⟨[7, 300] ++ ex_frame_lora ++ ex_frame_fsk, 30, 2⟩ pkt0 3 1
    (by decide) rfl rfl (by decide) (by decide) (by decide) (by decide) (by decide) (by decide)
    (by
      intro i hi
      have hpre : ∀ (a b : List Nat), a.length = 2 →
          (a ++ ex_frame_lora ++ b)[2 + i]? = ex_frame_lora[i]? := by
        intro a b ha
        rw [List.append_assoc, List.getElem?_append_right (by omega), ha,
          Nat.add_sub_cancel_left, List.getElem?_append_left (by
            have : ex_frame_lora.length = 28 := rfl
            omega)]
      exact (hpre [7, 300] ex_frame_fsk rfl).trans (hpre [1, 2] [3] rfl).symm)

/-- C31: whenever `rx_buffer_pop` returns an error (exhausted buffer, sync
failure, truncation, checksum failure or range failure), the payload array of
the record is left as it was, cell for cell: the payload is copied only after
every check has passed. -/
theorem C31_error_keeps_payload (s s1 : rx_buffer_t) (pkt pkt1 : rx_packet_t)
    (h : rx_buffer_pop s pkt = some (LGW_REG_ERROR, s1, pkt1)) :
    pkt1.payload = pkt.payload := by
  rcases pop_outcome h with ⟨_, _, hp⟩ | ⟨_, _, _, hp⟩ | ⟨hr, _⟩
  · exact hp
  · rw [hp]
  · exact absurd hr.symm status_ne

theorem C31_error_keeps_payload_witness :
    (metadata_of (ex_frame_badmodem ++ ex_frame_fsk) 0
        { pkt0 with rxbytenb_modem := frame_N ex_frame_badmodem,
                    num_ts_metrics_stored := frame_M ex_frame_badmodem }).modem_id = 14
      ∧ pkt0.modem_id = 0
      ∧ (metadata_of (ex_frame_badmodem ++ ex_frame_fsk) 0
          { pkt0 with rxbytenb_modem := frame_N ex_frame_badmodem,
                      num_ts_metrics_stored := frame_M ex_frame_badmodem }).payload
        = pkt0.payload :=
  ⟨by decide, by decide,
    C31_error_keeps_payload ⟨ex_frame_badmodem ++ ex_frame_fsk, 48, 0⟩
      ⟨ex_frame_badmodem ++ ex_frame_fsk, 48, 0⟩ pkt0
      (metadata_of (ex_frame_badmodem ++ ex_frame_fsk) 0
        { pkt0 with rxbytenb_modem := frame_N ex_frame_badmodem,
                    num_ts_metrics_stored := frame_M ex_frame_badmodem })
      rfl⟩

end Sx1302Rx
